import Mathlib

/-!
Verification development for the SeqClu-PV online sequence clusterer
(repository `seqclupv`).  The Python sources under `src/seqclupv/` are
shallowly embedded: Python dicts become association lists (insertion
ordered, unique keys), Python sets that the code iterates over become
lists, floats become rationals (`ℚ`), integer counters become `ℤ`/`ℕ`,
and `assert` statements / raised exceptions become `Except String`
results.  Sequence payloads are opaque (`Data := ℕ`); the pluggable
distance measure and hash function are parameters `dm : Data → Data → ℚ`
and `hashFn : Data → Hash`.
-/

namespace SeqCluPV

abbrev Hash := String

/-- Opaque sequence payload (the `ndarray` contents are never inspected by
the clusterer, only passed to the distance measure). -/
abbrev Data := Nat

/-- A sequence as threaded through the source: `(optional hash, optional data)`. -/
abbrev SeqRef := Option Hash × Option Data

section AssocHelpers

variable {α β : Type} [DecidableEq α]

/-- Python dict read: value of the first (unique) entry with the given key. -/
def lookupA : List (α × β) → α → Option β
  | [], _ => none
  | (k, v) :: l, a => if k = a then some v else lookupA l a

/-- Python `k in dict`. -/
def memA (l : List (α × β)) (a : α) : Bool := (lookupA l a).isSome

/-- Python dict write `d[k] = v`: replaces the value in place if the key is
present, otherwise appends the entry (insertion order semantics). -/
def updateA : List (α × β) → α → β → List (α × β)
  | [], a, b => [(a, b)]
  | (k, v) :: l, a, b => if k = a then (a, b) :: l else (k, v) :: updateA l a b

/-- Python `del d[k]`. -/
def eraseA : List (α × β) → α → List (α × β)
  | [], _ => []
  | (k, v) :: l, a => if k = a then l else (k, v) :: eraseA l a

/-- Python `dict.keys()`. -/
def keysA (l : List (α × β)) : List α := l.map Prod.fst

end AssocHelpers

/-- Python `int(x)` applied to a float: truncation toward zero. -/
def pyInt (q : ℚ) : ℤ := if 0 ≤ q then ⌊q⌋ else ⌈q⌉

theorem pyInt_eq_floor_of_nonneg {q : ℚ} (h : 0 ≤ q) : pyInt q = ⌊q⌋ := by
  simp [pyInt, h]

/-!
## `PrototypeFrequencyStore`
(`src/seqclupv/library/storage/prototype_frequencies.py`)

`frequencies` is a dict from prototype hash to an optional vote count
(`None` = uninitialised); `totalObservations` is the running total.
-/

structure PrototypeFrequencyStore where
  frequencies : List (Hash × Option ℤ)
  numPrototypes : ℕ
  totalObservations : ℤ
deriving DecidableEq

namespace PrototypeFrequencyStore

/-- `PrototypeFrequencyStore.__init__` (lines 73-81). -/
def mk0 (numPrototypes : ℕ) : PrototypeFrequencyStore :=
  ⟨[], numPrototypes, 0⟩

/-- `PrototypeFrequencyStore.computeSumOfDistances` (lines 15-38): sum of the
stored pair distances over all ordered pairs of distinct hashes, looking a
pair up under either orientation and failing if neither is present. -/
def computeSumOfDistances (prototypeHashes : List Hash)
    (distances : List ((Hash × Hash) × ℚ)) : Except String ℚ :=
  prototypeHashes.foldlM
    (fun acc h1 =>
      prototypeHashes.foldlM
        (fun acc h2 =>
          if h1 = h2 then pure acc
          else
            match lookupA distances (h1, h2) with
            | some v => pure (acc + v)
            | none =>
              match lookupA distances (h2, h1) with
              | some v => pure (acc + v)
              | none => Except.error "[SeqClu] Distance is not present in dictionary.")
        acc)
    0

/-- `closestPrototypeObserved` (lines 85-98): add votes to a prototype's
count (promoting `None`) and bump `totalObservations`; asserts the hash is
present. -/
def closestPrototypeObserved (fs : PrototypeFrequencyStore) (prototypeHash : Hash)
    (numVotes : ℤ) : Except String PrototypeFrequencyStore :=
  match lookupA fs.frequencies prototypeHash with
  | none => Except.error "assert prototypeHash in frequencies"
  | some v =>
    let newCount : ℤ := match v with | none => numVotes | some n => n + numVotes
    Except.ok
      { fs with
        frequencies := updateA fs.frequencies prototypeHash (some newCount)
        totalObservations := fs.totalObservations + numVotes }

/-- `getWeight` (lines 100-112): asserts the hash is present and the entry
set complete; returns `0` for an uninitialised count, otherwise divides by
`totalObservations` — the source has no guard against a zero divisor, so a
defined count with `totalObservations == 0` raises `ZeroDivisionError`. -/
def getWeight (fs : PrototypeFrequencyStore) (prototypeHash : Hash) :
    Except String ℚ :=
  match lookupA fs.frequencies prototypeHash with
  | none => Except.error "assert prototypeHash in frequencies"
  | some v =>
    if fs.frequencies.length ≠ fs.numPrototypes then
      Except.error "assert len(frequencies) == numPrototypes"
    else
      match v with
      | none => Except.ok 0
      | some n =>
        if fs.totalObservations = 0 then Except.error "ZeroDivisionError"
        else Except.ok ((n : ℚ) / (fs.totalObservations : ℚ))

/-- `initializePrototype` (lines 114-123): insert with count `None`;
asserts the hash is absent. -/
def initializePrototype (fs : PrototypeFrequencyStore) (prototypeHash : Hash) :
    Except String PrototypeFrequencyStore :=
  if memA fs.frequencies prototypeHash then
    Except.error "assert prototypeHash not in frequencies"
  else
    Except.ok { fs with frequencies := updateA fs.frequencies prototypeHash none }

/-- `_removePrototype` (lines 190-203): delete the entry, returning the
number of votes it held (0 for `None`) and deducting it from
`totalObservations`. -/
def removePrototype (fs : PrototypeFrequencyStore) (toRemoveHash : Hash) :
    Except String (PrototypeFrequencyStore × ℤ) :=
  match lookupA fs.frequencies toRemoveHash with
  | none => Except.error "assert toRemoveHash in frequencies"
  | some v =>
    let fs1 := { fs with frequencies := eraseA fs.frequencies toRemoveHash }
    match v with
    | none => Except.ok (fs1, 0)
    | some n =>
      Except.ok ({ fs1 with totalObservations := fs.totalObservations - n }, n)

/-- Pair distance lookup used by `_distributeVotes` (lines 175-180): the
`(removed, new)` orientation is consulted first, then the reverse. -/
def lookupPairDist (distances : List ((Hash × Hash) × ℚ)) (a b : Hash) : Option ℚ :=
  match lookupA distances (a, b) with
  | some v => some v
  | none => lookupA distances (b, a)

/-- Body of the loop of `_distributeVotes` (lines 167-188) for a single
removed hash: remove it, and if it held a positive count `v`, compute for
each new hash the fraction `distance / S`, take `1 − fraction`, normalise
by the sum, and transfer `int(fraction · v)` votes to that hash.  The two
zero-divisor regimes of the source end in an exception and are modelled
as errors: `sumOfDistances == 0` makes the per-hash float division
`distances[...] / sumOfDistances` raise `ZeroDivisionError` (with plain
floats; with numpy scalars the resulting non-finite fractions make the
later `int(...)` raise), and a zero normalisation sum makes
`fractions /= np.sum(fractions)` produce nan/inf entries so that
`int(fraction * numVotes)` raises `ValueError`/`OverflowError`. -/
def distributeOne (fs : PrototypeFrequencyStore) (newPrototypeHashes : List Hash)
    (distances : List ((Hash × Hash) × ℚ)) (sumOfDistances : ℚ)
    (toRemovePrototypeHash : Hash) : Except String PrototypeFrequencyStore := do
  let (fs1, numVotes) ← fs.removePrototype toRemovePrototypeHash
  if numVotes = 0 then
    pure fs1
  else do
    let fractions ← newPrototypeHashes.mapM
      (fun prototypeHash =>
        match lookupPairDist distances toRemovePrototypeHash prototypeHash with
        | some d =>
          if sumOfDistances = 0 then
            Except.error "ZeroDivisionError: float division by zero"
          else pure (d / sumOfDistances)
        | none => Except.error "Distance is not in dictionary.")
    let oneMinus := fractions.map (fun f => 1 - f)
    if oneMinus.sum = 0 then
      Except.error "ValueError: cannot convert float NaN to integer"
    else
      let normalised := oneMinus.map (fun f => f / oneMinus.sum)
      (newPrototypeHashes.zip normalised).foldlM
        (fun fs p => fs.closestPrototypeObserved p.1 (pyInt (p.2 * (numVotes : ℚ))))
        fs1

/-- `_distributeVotes` (lines 153-188). -/
def distributeVotes (fs : PrototypeFrequencyStore) (newPrototypeHashes : List Hash)
    (removedPrototypeHashes : List Hash) (distances : List ((Hash × Hash) × ℚ)) :
    Except String PrototypeFrequencyStore := do
  let sumOfDistances ← computeSumOfDistances newPrototypeHashes distances
  removedPrototypeHashes.foldlM
    (fun fs r => distributeOne fs newPrototypeHashes distances sumOfDistances r)
    fs

/-- First loop of `updatePrototypes` (lines 142-144): insert every added
hash with count `None`. -/
def insertUninitialised (fs : PrototypeFrequencyStore)
    (addedPrototypeHashes : List Hash) : PrototypeFrequencyStore :=
  addedPrototypeHashes.foldl
    (fun fs h => { fs with frequencies := updateA fs.frequencies h none }) fs

/-- `updatePrototypes` (lines 125-149): insert every added hash
uninitialised, distribute the removed hashes' votes, and assert that the
store again holds exactly `numPrototypes` entries. -/
def updatePrototypes (fs : PrototypeFrequencyStore) (newPrototypeHashes : List Hash)
    (addedPrototypeHashes : List Hash) (removedPrototypeHashes : List Hash)
    (distances : List ((Hash × Hash) × ℚ)) : Except String PrototypeFrequencyStore := do
  let fs1 := insertUninitialised fs addedPrototypeHashes
  let fs2 ← fs1.distributeVotes newPrototypeHashes removedPrototypeHashes distances
  if fs2.frequencies.length = fs2.numPrototypes then
    pure fs2
  else
    Except.error "assert len(frequencies) == numPrototypes"

end PrototypeFrequencyStore

/-!
## `PrototypeStore`
(`src/seqclupv/library/storage/prototypes.py`)

Python sets of hashes become lists (membership is what the code consults);
adding appends, removing uses `List.erase`.
-/

structure PrototypeStore where
  fullyInitialized : Bool
  lastUpdate : ℤ
  numRepresentativePrototypes : ℕ
  numPrototypes : ℕ
  otherPrototypeHashes : List Hash
  prototypeHistory : List (Hash × ℤ)
  prototypes : List (Hash × Data)
  representativePrototypesInitialized : Bool
  representativePrototypeHashes : List Hash
  updatingPrototypes : Bool
deriving DecidableEq

namespace PrototypeStore

/-- `PrototypeStore.__init__` (lines 132-152); the constructor assert
`0 < r < p ∧ tick ≥ -1` is a configuration precondition of every state
built from this constructor. -/
def mk0 (numRepresentativePrototypes numPrototypes : ℕ) (tick : ℤ) : PrototypeStore :=
  { fullyInitialized := false
    lastUpdate := tick
    numRepresentativePrototypes := numRepresentativePrototypes
    numPrototypes := numPrototypes
    otherPrototypeHashes := []
    prototypeHistory := []
    prototypes := []
    representativePrototypesInitialized := false
    representativePrototypeHashes := []
    updatingPrototypes := false }

/-- `numOtherPrototypes` property (lines 48-55). -/
def numOtherPrototypes (ps : PrototypeStore) : ℕ :=
  ps.numPrototypes - ps.numRepresentativePrototypes

/-- `getPrototype` (lines 193-202). -/
def getPrototype (ps : PrototypeStore) (prototypeHash : Hash) : Except String Data :=
  match lookupA ps.prototypes prototypeHash with
  | none => Except.error "assert prototypeHash in prototypes"
  | some d => Except.ok d

/-- `_removePrototype` (lines 299-313): remove the hash from the indicated
half and from the history (asserting it was in that half); the `prototypes`
dict itself is not touched here. -/
def removePrototypeHalf (ps : PrototypeStore) (prototypeHash : Hash)
    (representative : Bool) : Except String PrototypeStore :=
  if representative then
    if prototypeHash ∈ ps.representativePrototypeHashes then
      Except.ok
        { ps with
          representativePrototypeHashes := ps.representativePrototypeHashes.erase prototypeHash
          prototypeHistory := eraseA ps.prototypeHistory prototypeHash }
    else Except.error "assert prototypeHash in representativePrototypeHashes"
  else
    if prototypeHash ∈ ps.otherPrototypeHashes then
      Except.ok
        { ps with
          otherPrototypeHashes := ps.otherPrototypeHashes.erase prototypeHash
          prototypeHistory := eraseA ps.prototypeHistory prototypeHash }
    else Except.error "assert prototypeHash in otherPrototypeHashes"

/-- `_addPrototype` (lines 277-297). -/
def addPrototypeHalf (ps : PrototypeStore) (prototypeHash : Hash)
    (representative : Bool) (tick : ℤ) : Except String PrototypeStore :=
  if prototypeHash ∈ ps.representativePrototypeHashes ∨
      prototypeHash ∈ ps.otherPrototypeHashes then
    Except.error "assert prototypeHash not already a prototype"
  else if representative then
    if ps.representativePrototypeHashes.length < ps.numRepresentativePrototypes then
      Except.ok
        { ps with
          representativePrototypeHashes := ps.representativePrototypeHashes ++ [prototypeHash]
          prototypeHistory := updateA ps.prototypeHistory prototypeHash tick
          lastUpdate := tick }
    else Except.error "assert representative half not full"
  else
    if ps.otherPrototypeHashes.length < ps.numOtherPrototypes then
      Except.ok
        { ps with
          otherPrototypeHashes := ps.otherPrototypeHashes ++ [prototypeHash]
          prototypeHistory := updateA ps.prototypeHistory prototypeHash tick
          lastUpdate := tick }
    else Except.error "assert other half not full"

/-- `addPrototype` (lines 156-191).  The call sites in `SeqClu` always pass
both the hash and the data, so the prototype argument is `(Hash, Data)`. -/
def addPrototype (ps : PrototypeStore) (prototypeHash : Hash) (prototypeData : Data)
    (representative : Bool) (tick : ℤ) (toReplaceHash : Option Hash) :
    Except String PrototypeStore := do
  let assertOk : Bool := match toReplaceHash with
    | none => !ps.fullyInitialized
    | some h => memA ps.prototypes h
  if !assertOk then
    Except.error "assert on fullyInitialized / toReplaceHash"
  else do
    let ps1 ← match toReplaceHash with
      | none => pure ps
      | some h => ps.removePrototypeHalf h representative
    let ps2 ← ps1.addPrototypeHalf prototypeHash representative tick
    let ps3 := { ps2 with prototypes := updateA ps2.prototypes prototypeHash prototypeData }
    let ps4 :=
      if ps3.representativePrototypeHashes.length = ps3.numRepresentativePrototypes then
        { ps3 with representativePrototypesInitialized := true }
      else ps3
    let ps5 :=
      if ps4.representativePrototypeHashes.length + ps4.otherPrototypeHashes.length =
          ps4.numPrototypes then
        { ps4 with fullyInitialized := true }
      else ps4
    pure ps5

/-- Equality of two hash lists viewed as sets. -/
def sameElems (l1 l2 : List Hash) : Bool :=
  l1.all (· ∈ l2) && l2.all (· ∈ l1)

/-- `updatePrototypes` (lines 218-273): wholesale replacement.  Returns the
new store together with the list of removed hashes (in the iteration order
of the old `prototypes` dict). -/
def updatePrototypes (ps : PrototypeStore) (newPrototypes : List (Hash × Data))
    (newOtherPrototypeHashes newRepresentativePrototypeHashes : List Hash)
    (tick : ℤ) : Except String (PrototypeStore × List Hash) := do
  if newPrototypes.length ≠ ps.numPrototypes then
    Except.error "assert len(newPrototypes) == numPrototypes"
  else if newOtherPrototypeHashes.length ≠ ps.numOtherPrototypes then
    Except.error "assert len(newOtherPrototypeHashes) == numOtherPrototypes"
  else if newRepresentativePrototypeHashes.length ≠ ps.numRepresentativePrototypes then
    Except.error "assert len(newRepresentativePrototypeHashes) == numRepresentativePrototypes"
  else if !sameElems (keysA newPrototypes)
      (newOtherPrototypeHashes ++ newRepresentativePrototypeHashes) then
    Except.error "assert keys(newPrototypes) == union of the two hash sets"
  else if !(newOtherPrototypeHashes.all (· ∉ newRepresentativePrototypeHashes)) then
    Except.error "assert the two hash sets are disjoint"
  else do
    let ps0 := { ps with updatingPrototypes := true }
    let removed := (keysA ps0.prototypes).filter (fun h => !(memA newPrototypes h))
    let ps1 ← removed.foldlM
      (fun ps h =>
        ps.removePrototypeHalf h (h ∈ ps.representativePrototypeHashes)) ps0
    let hist1 := ps1.representativePrototypeHashes.foldl
      (fun hist h =>
        if h ∈ newOtherPrototypeHashes then updateA hist h tick else hist)
      ps1.prototypeHistory
    let hist2 := ps1.otherPrototypeHashes.foldl
      (fun hist h =>
        if h ∈ newRepresentativePrototypeHashes then updateA hist h tick else hist)
      hist1
    let hist3 := newOtherPrototypeHashes.foldl
      (fun hist h => if memA hist h then hist else updateA hist h tick) hist2
    let hist4 := newRepresentativePrototypeHashes.foldl
      (fun hist h => if memA hist h then hist else updateA hist h tick) hist3
    let ps2 :=
      { ps1 with
        prototypes := newPrototypes
        representativePrototypeHashes := newRepresentativePrototypeHashes
        otherPrototypeHashes := newOtherPrototypeHashes
        prototypeHistory := hist4
        updatingPrototypes := false
        lastUpdate := tick }
    pure (ps2, removed)

end PrototypeStore

/-!
## `CandidateStore`
(`src/seqclupv/library/storage/candidates.py`)

Each entry maps a candidate hash to its sequence data together with the
identifiers of the clusters it is a candidate for.
-/

structure CandidateStore where
  candidates : List (Hash × (Data × List ℕ))
  candidateHistory : List (Hash × ℤ)
  lastUpdate : ℤ
deriving DecidableEq

namespace CandidateStore

/-- `CandidateStore.__init__` (lines 51-64). -/
def mk0 (tick : ℤ) : CandidateStore := ⟨[], [], tick⟩

/-- `addToCandidates` (lines 68-83); asserts the hash is not yet buffered. -/
def addToCandidates (cs : CandidateStore) (candidateHash : Hash) (candidateData : Data)
    (candidateFor : List ℕ) (tick : ℤ) : Except String CandidateStore :=
  if memA cs.candidates candidateHash then
    Except.error "assert candidateHash not in candidates"
  else
    Except.ok
      { candidates := updateA cs.candidates candidateHash (candidateData, candidateFor)
        candidateHistory := updateA cs.candidateHistory candidateHash tick
        lastUpdate := tick }

/-- `removeFromCandidates` (lines 111-122). -/
def removeFromCandidates (cs : CandidateStore) (candidateHash : Hash) :
    Except String CandidateStore :=
  if memA cs.candidates candidateHash then
    Except.ok
      { cs with
        candidates := eraseA cs.candidates candidateHash
        candidateHistory := eraseA cs.candidateHistory candidateHash }
  else Except.error "assert candidateHash in candidates"

end CandidateStore

/-!
## `ClusterStore`
(`src/seqclupv/library/storage/cluster.py`)

The lazily computed properties (`averageDistance`, `error`, …) are cached
in `Option ℚ` fields suffixed `C`; the corresponding `…Val` function reads
the cached value and otherwise computes the property from the current
caches, exactly as the Python property getters do.  The write-back of a
freshly computed lazy value into its cache field is elided in the `…Val`
functions: it changes no value that any of the functions below return
(the cached value written is the computed one), and it never touches the
prototypes, frequency counts, labels or the candidate buffer.
-/

/-- `isHashInKey` (`library/utilities/hash_filter.py`). -/
def isHashInKey (key : Hash × Hash) (sequenceHash : Hash) : Bool :=
  key.1 = sequenceHash || key.2 = sequenceHash

structure ClusterStore where
  averageDistanceC : Option ℚ
  averageDistRepToNonRepC : Option ℚ
  averageRepresentativenessC : Option ℚ
  averageSumOfDistancesC : Option ℚ
  distances : List ((Hash × Hash) × ℚ)
  errorC : Option ℚ
  identifier : ℕ
  prototypeFrequencies : PrototypeFrequencyStore
  prototypes : PrototypeStore
  sumsOfDistances : List ((Hash × Bool) × ℚ)
  upperBoundC : Option ℚ
deriving DecidableEq

namespace ClusterStore

/-- `ClusterStore.__init__` (lines 145-169). -/
def mk0 (identifier : ℕ) (numRepresentativePrototypes numPrototypes : ℕ) (tick : ℤ) :
    ClusterStore :=
  { averageDistanceC := none
    averageDistRepToNonRepC := none
    averageRepresentativenessC := none
    averageSumOfDistancesC := none
    distances := []
    errorC := none
    identifier := identifier
    prototypeFrequencies := PrototypeFrequencyStore.mk0 numPrototypes
    prototypes := PrototypeStore.mk0 numRepresentativePrototypes numPrototypes tick
    sumsOfDistances := []
    upperBoundC := none }

/-- `_getSequence` (lines 456-471): resolve a `(hash?, data?)` pair to data,
preferring the prototype store when the hash is a current prototype. -/
def getSequenceData (c : ClusterStore) (s : SeqRef) : Except String Data :=
  match s.1 with
  | some h =>
    match lookupA c.prototypes.prototypes h with
    | some d => Except.ok d
    | none =>
      match s.2 with
      | some d => Except.ok d
      | none => Except.error "ValueError: cannot be traced to a sequence"
  | none =>
    match s.2 with
    | some d => Except.ok d
    | none => Except.error "ValueError: cannot be traced to a sequence"

section WithMeasure

variable (dm : Data → Data → ℚ) (hashFn : Data → Hash)

/-- Cache-miss branch of `pairwiseDistanceOf` (lines 244-256): resolve both
sequences, invoke the distance measure once and memoise the result under
both orderings of the (possibly freshly computed) hashes. -/
def pairwiseCompute (c : ClusterStore) (s1 s2 : SeqRef) :
    Except String (ℚ × ClusterStore × ℕ) := do
  let a1 ← getSequenceData c s1
  let a2 ← getSequenceData c s2
  let result := dm a1 a2
  let h1 := match s1.1 with | some h => h | none => hashFn a1
  let h2 := match s2.1 with | some h => h | none => hashFn a2
  Except.ok (result,
    { c with distances := updateA (updateA c.distances (h1, h2) result) (h2, h1) result },
    1)

/-- `pairwiseDistanceOf` (lines 223-256).  The third component counts the
invocations of the distance measure made by the call (0 or 1). -/
def pairwiseDistanceOf (c : ClusterStore) (s1 s2 : SeqRef) :
    Except String (ℚ × ClusterStore × ℕ) :=
  match s1.1, s2.1 with
  | some h1, some h2 =>
    if h1 = h2 then Except.ok (0, c, 0)
    else
      match lookupA c.distances (h1, h2) with
      | some v => Except.ok (v, c, 0)
      | none =>
        match lookupA c.distances (h2, h1) with
        | some v => Except.ok (v, c, 0)
        | none => pairwiseCompute dm hashFn c s1 s2
  | _, _ => pairwiseCompute dm hashFn c s1 s2

/-- Value returned by `pairwiseDistanceOf` (memo write-back elided). -/
def pairwiseDistanceVal (c : ClusterStore) (s1 s2 : SeqRef) : Except String ℚ := do
  let (v, _, _) ← pairwiseDistanceOf dm hashFn c s1 s2
  pure v

/-- Hash set iterated over by `_sumOfDistancesOf` (lines 486-497). -/
def compareHashes (c : ClusterStore) (representative onlyNonRepresentativePrototypes : Bool) :
    List Hash :=
  if representative then c.prototypes.representativePrototypeHashes
  else if onlyNonRepresentativePrototypes then c.prototypes.otherPrototypeHashes
  else keysA c.prototypes.prototypes

/-- `_sumOfDistancesOf` (lines 473-504): sum of pairwise distances from the
sequence to the selected prototype set.  Value-level: each loop iteration's
value depends only on the pre-state cache because the loop visits distinct
prototype hashes, so eliding the per-iteration cache write-backs preserves
every returned value. -/
def sumOfDistancesAux (c : ClusterStore) (s : SeqRef)
    (representative onlyNonRepresentativePrototypes : Bool) : Except String ℚ :=
  if representative && onlyNonRepresentativePrototypes then
    Except.error "assert not (representative and onlyNonRepresentativePrototypes)"
  else
    (compareHashes c representative onlyNonRepresentativePrototypes).foldlM
      (fun acc ph => do
        let d ← pairwiseDistanceVal dm hashFn c s (some ph, none)
        pure (acc + d))
      0

/-- `sumOfDistancesOf` (lines 307-338): memoised sum of distances; consults
the `sumsOfDistances` cache (including the representative-half shortcut)
before recomputing. -/
def sumOfDistancesOfVal (c : ClusterStore) (s : SeqRef) (representative : Bool) :
    Except String ℚ :=
  match s.1 with
  | none => Except.error "assert sequenceHash is not None"
  | some h =>
    if representative then
      match lookupA c.sumsOfDistances (h, true) with
      | some v => Except.ok v
      | none => sumOfDistancesAux dm hashFn c s true false
    else
      match lookupA c.sumsOfDistances (h, false) with
      | some v => Except.ok v
      | none =>
        match lookupA c.sumsOfDistances (h, true) with
        | some vrep => do
          let other ← sumOfDistancesAux dm hashFn c s false true
          pure (vrep + other)
        | none => sumOfDistancesAux dm hashFn c s false false

/-- `computeAverageDistance` (lines 171-186). -/
def computeAverageDistanceVal (c : ClusterStore) (s : SeqRef) (representative : Bool) :
    Except String ℚ := do
  let sum ← sumOfDistancesOfVal dm hashFn c s representative
  if representative then
    pure (sum / (c.prototypes.numRepresentativePrototypes : ℚ))
  else
    pure (sum / (c.prototypes.numPrototypes : ℚ))

/-- `_calculateAverageSumOfDistances` (lines 391-416). -/
def calculateAverageSumOfDistances (c : ClusterStore) (representative : Bool) :
    Except String ℚ := do
  let hashes := if representative then c.prototypes.representativePrototypeHashes
    else keysA c.prototypes.prototypes
  let total ← hashes.foldlM
    (fun acc ph => do
      let s ← sumOfDistancesOfVal dm hashFn c (some ph, none) representative
      pure (acc + s))
    0
  if representative then
    pure (total / (c.prototypes.numRepresentativePrototypes : ℚ))
  else
    pure (total / (c.prototypes.numPrototypes : ℚ))

/-- `averageSumOfDistances` property (lines 58-67). -/
def averageSumOfDistancesVal (c : ClusterStore) : Except String ℚ :=
  match c.averageSumOfDistancesC with
  | some v => Except.ok v
  | none => calculateAverageSumOfDistances dm hashFn c false

/-- `averageDistance` property (lines 21-30). -/
def averageDistanceVal (c : ClusterStore) : Except String ℚ :=
  match c.averageDistanceC with
  | some v => Except.ok v
  | none => do
    let a ← averageSumOfDistancesVal dm hashFn c
    pure (a / ((c.prototypes.numPrototypes : ℚ) - 1))

/-- `_calculateAverageSumOfDistancesRepresentativeToNonRepresentative`
(lines 418-429). -/
def calculateAvgSumRepToNonRep (c : ClusterStore) : Except String ℚ := do
  let total ← c.prototypes.representativePrototypeHashes.foldlM
    (fun acc rph => do
      let s ← sumOfDistancesAux dm hashFn c (some rph, none) false true
      pure (acc + s))
    0
  pure (total / (c.prototypes.numRepresentativePrototypes : ℚ))

/-- `averageDistanceFromRepresentativeToNonRepresentative` property
(lines 32-45). -/
def averageDistRepToNonRepVal (c : ClusterStore) : Except String ℚ :=
  match c.averageDistRepToNonRepC with
  | some v => Except.ok v
  | none => do
    let a ← calculateAvgSumRepToNonRep dm hashFn c
    pure (a / (c.prototypes.numOtherPrototypes : ℚ))

/-- `representativenessOfSequence` (lines 295-305). -/
def representativenessOfSequenceVal (c : ClusterStore) (s : SeqRef) : Except String ℚ := do
  let sum ← sumOfDistancesOfVal dm hashFn c s false
  let avg ← averageSumOfDistancesVal dm hashFn c
  pure (avg / (2 * sum))

/-- `_calculateAverageRepresentativeness` (lines 380-389). -/
def calculateAverageRepresentativeness (c : ClusterStore) : Except String ℚ := do
  let total ← c.prototypes.representativePrototypeHashes.foldlM
    (fun acc ph => do
      let r ← representativenessOfSequenceVal dm hashFn c (some ph, none)
      pure (acc + r))
    0
  pure (total / (c.prototypes.numRepresentativePrototypes : ℚ))

/-- `averageRepresentativeness` property (lines 47-56). -/
def averageRepresentativenessVal (c : ClusterStore) : Except String ℚ :=
  match c.averageRepresentativenessC with
  | some v => Except.ok v
  | none => calculateAverageRepresentativeness dm hashFn c

/-- `error` property (lines 87-99). -/
def errorVal (c : ClusterStore) : Except String ℚ :=
  match c.errorC with
  | some v => Except.ok v
  | none => do
    let ar ← averageRepresentativenessVal dm hashFn c
    let ad ← averageDistRepToNonRepVal dm hashFn c
    pure ((1 - ar) * ad)

/-- `upperBound` property (lines 132-143). -/
def upperBoundVal (c : ClusterStore) : Except String ℚ :=
  match c.upperBoundC with
  | some v => Except.ok v
  | none => do
    let ad ← averageDistanceVal dm hashFn c
    let er ← errorVal dm hashFn c
    pure (ad + er)

/-- `isRepresentativeEnough` (lines 211-221). -/
def isRepresentativeEnough (c : ClusterStore) (minimumRepresentativeness : ℚ) :
    Except String Bool := do
  let ar ← averageRepresentativenessVal dm hashFn c
  pure (decide (minimumRepresentativeness ≤ ar))

/-- `isCandidate` (lines 188-209): `(distance, candidacy, isApproximation)`;
the `clusterAssignment and isRepresentativeEnough(...)` short-circuit of the
source is kept. -/
def isCandidate (c : ClusterStore) (s : SeqRef) (minimumRepresentativeness : ℚ)
    (clusterAssignment : Bool) : Except String (ℚ × Bool × Bool) := do
  if clusterAssignment then do
    let repEnough ← isRepresentativeEnough dm hashFn c minimumRepresentativeness
    if repEnough then do
      let approximatedDistance ← computeAverageDistanceVal dm hashFn c s true
      let ub ← upperBoundVal dm hashFn c
      pure (approximatedDistance, decide (approximatedDistance < ub), true)
    else do
      let accurateDistance ← computeAverageDistanceVal dm hashFn c s false
      let ad ← averageDistanceVal dm hashFn c
      pure (accurateDistance, decide (accurateDistance < ad), false)
  else do
    let accurateDistance ← computeAverageDistanceVal dm hashFn c s false
    let ad ← averageDistanceVal dm hashFn c
    pure (accurateDistance, decide (accurateDistance < ad), false)

/-- `processSequenceIndefinitely` (lines 258-293): among the cached entries
pairing `sequenceHash` with a current prototype, award one vote to the
prototype of the closest one (first minimum in cache order); then purge
every cache entry referencing the hash and both memoised distance sums. -/
def processSequenceIndefinitely (c : ClusterStore) (sequenceHash : Hash) :
    Except String ClusterStore := do
  let distancesToRemove := c.distances.filter (fun kv => isHashInKey kv.1 sequenceHash)
  let minKey := distancesToRemove.foldl
    (fun acc kv =>
      if (kv.1.1 = sequenceHash ∨ kv.1.2 = sequenceHash) ∧
          (memA c.prototypes.prototypes kv.1.1 ∨ memA c.prototypes.prototypes kv.1.2) then
        match acc with
        | none => some kv
        | some best => if kv.2 < best.2 then some kv else acc
      else acc)
    none
  let c1 ← match minKey with
    | none => pure c
    | some kv =>
      if kv.1.1 ≠ sequenceHash then do
        let fs ← c.prototypeFrequencies.closestPrototypeObserved kv.1.1 1
        pure { c with prototypeFrequencies := fs }
      else do
        let fs ← c.prototypeFrequencies.closestPrototypeObserved kv.1.2 1
        pure { c with prototypeFrequencies := fs }
  pure
    { c1 with
      distances := c1.distances.filter (fun kv => !(isHashInKey kv.1 sequenceHash))
      sumsOfDistances :=
        eraseA (eraseA c1.sumsOfDistances (sequenceHash, true)) (sequenceHash, false) }

/-- `_computeRequiredDistances` (lines 431-454). -/
def computeRequiredDistances (c : ClusterStore) (newPrototypes : List (Hash × Data))
    (removedPrototypeHashes : List Hash) : Except String ClusterStore :=
  newPrototypes.foldlM
    (fun c p1 => do
      let c ← removedPrototypeHashes.foldlM
        (fun c rh =>
          if memA c.distances (p1.1, rh) || memA c.distances (rh, p1.1) then pure c
          else do
            let rd ← match lookupA c.prototypes.prototypes rh with
              | some x => Except.ok x
              | none => Except.error "KeyError: prototypes[removedPrototypeHash]"
            let dist := dm p1.2 rd
            pure { c with
              distances := updateA (updateA c.distances (p1.1, rh) dist) (rh, p1.1) dist })
        c
      newPrototypes.foldlM
        (fun c p2 =>
          if memA c.distances (p1.1, p2.1) || memA c.distances (p2.1, p1.1) then pure c
          else
            let dist := dm p1.2 p2.2
            pure { c with
              distances := updateA (updateA c.distances (p1.1, p2.1) dist) (p2.1, p1.1) dist })
        c)
    c

/-- `ClusterStore.updatePrototypes` (lines 340-376). -/
def updatePrototypes (c : ClusterStore) (newPrototypes : List (Hash × Data))
    (newOtherPrototypeHashes newRepresentativePrototypeHashes : List Hash) (tick : ℤ) :
    Except String (ClusterStore × List Hash) := do
  if c.prototypeFrequencies.frequencies.length ≠ c.prototypeFrequencies.numPrototypes then
    Except.error "assert len(frequencies) == numPrototypes"
  else do
    let newPrototypeHashes := keysA newPrototypes
    let oldPrototypeHashes := keysA c.prototypeFrequencies.frequencies
    let addedPrototypeHashes := newPrototypeHashes.filter (fun h => h ∉ oldPrototypeHashes)
    let removedPrototypeHashes := oldPrototypeHashes.filter (fun h => h ∉ newPrototypeHashes)
    if addedPrototypeHashes.length ≠ removedPrototypeHashes.length then
      Except.error "assert len(added) == len(removed)"
    else do
      let c1 ← computeRequiredDistances dm c newPrototypes removedPrototypeHashes
      let fs ← c1.prototypeFrequencies.updatePrototypes newPrototypeHashes
        addedPrototypeHashes removedPrototypeHashes c1.distances
      let c2 := { c1 with prototypeFrequencies := fs }
      let (ps, result) ← c2.prototypes.updatePrototypes newPrototypes
        newOtherPrototypeHashes newRepresentativePrototypeHashes tick
      let c3 := { c2 with prototypes := ps }
      let c4 :=
        if result.length > 0 then
          { c3 with
            averageSumOfDistancesC := none
            averageDistanceC := none
            upperBoundC := none
            errorC := none
            averageRepresentativenessC := none
            averageDistRepToNonRepC := none
            sumsOfDistances := [] }
        else c3
      pure (c4, result)

end WithMeasure

end ClusterStore

/-!
## The `SeqClu` clusterer
(`src/seqclupv/SeqClu.py`)
-/

/-- Python list indexing `l[i]`, including negative indices. -/
def pyIndex {α : Type} (l : List α) (i : ℤ) : Option α :=
  if 0 ≤ i then l.get? i.toNat
  else if (-i).toNat ≤ l.length then l.get? (l.length - (-i).toNat) else none

/-- Python list element assignment `l[i] = a` (in-range indices only; every
call below is in range whenever the corresponding read succeeded). -/
def pySet {α : Type} (l : List α) (i : ℤ) (a : α) : List α :=
  if 0 ≤ i then l.set i.toNat a else l.set (l.length - (-i).toNat) a

/-- Python `set.add` on a set modelled as a duplicate-free list. -/
def addSet (l : List Hash) (h : Hash) : List Hash :=
  if h ∈ l then l else l ++ [h]

/-- `LinearPrototypeValue.evaluate`
(`library/heuristics/linear_prototype_value.py`, lines 36-48) — the only
prototype-value heuristic implemented in the repository. -/
def prototypeValueEvaluate (ratio representativeness weight : ℚ) : ℚ :=
  let weightRatio := 1 / (ratio + 1)
  let representativenessRatio := 1 - weightRatio
  representativenessRatio * representativeness + weightRatio * weight

namespace SeqClu

/-- `SeqClu.isAmbiguous` (SeqClu.py lines 161-175). -/
def isAmbiguous (distanceAndErrorOne distanceAndErrorTwo : ℚ × ℚ) : Bool :=
  decide (|distanceAndErrorOne.1 - distanceAndErrorTwo.1| ≤
    max distanceAndErrorOne.2 distanceAndErrorTwo.2)

/-- The `result` set built by `assignToCluster` (lines 45-51): starting
from the best cluster, every later entry whose distance is ambiguous with
the best one is added (duplicate-free list in insertion order; every
property proved about it is invariant under its enumeration order). -/
def ambiguitySet (best : ℕ × ℚ × ℚ) (rest : List (ℕ × ℚ × ℚ)) : List ℕ :=
  rest.foldl
    (fun acc other =>
      if isAmbiguous (best.2.1, best.2.2) (other.2.1, other.2.2) then
        if other.1 ∈ acc then acc else acc ++ [other.1]
      else acc)
    [best.1]

section WithMeasure

variable (dm : Data → Data → ℚ) (hashFn : Data → Hash)

/-- `SeqClu.assignToClusterAccurate` (lines 57-73): the cluster with the
strictly smallest exact (all-prototype, memoised) sum of distances wins;
`np.inf` is modelled by `Option ℚ` as the initial minimum, `-1` is the
initial label. -/
def assignToClusterAccurate (clusters : List ClusterStore) (s : SeqRef) :
    Except String ℤ := do
  let r ← clusters.foldlM
    (fun (acc : ℤ × Option ℚ) cluster => do
      let distance ← ClusterStore.sumOfDistancesOfVal dm hashFn cluster s false
      match acc.2 with
      | none => pure ((cluster.identifier : ℤ), some distance)
      | some m =>
        if distance < m then pure ((cluster.identifier : ℤ), some distance) else pure acc)
    (-1, none)
  pure r.1

/-- `SeqClu.assignToCluster` (lines 27-55): sort the per-cluster
`(identifier, distance, error)` triples ascending by distance (Python's
sort is stable; so is `List.insertionSort`), then either pick the head
(approximation disabled) or build the ambiguity set and resolve it.  The
set `result` of the source is modelled as a duplicate-free list in
insertion order; every property proved about it is invariant under its
enumeration order. -/
def assignToCluster (clusters : List ClusterStore) (s : SeqRef)
    (distances : List (ℕ × ℚ × ℚ)) (clusterAssignment : Bool) :
    Except String (ℤ × Bool) :=
  let sorted := List.insertionSort (fun x y => x.2.1 ≤ y.2.1) distances
  match sorted with
  | [] => Except.error "IndexError: distances[0]"
  | best :: rest =>
    if ¬ clusterAssignment then Except.ok ((best.1 : ℤ), false)
    else
      let result := ambiguitySet best rest
      if result.length = 1 then Except.ok ((best.1 : ℤ), true)
      else do
        let ambiguousClusters ← result.mapM
          (fun i =>
            match pyIndex clusters (i : ℤ) with
            | some cl => Except.ok cl
            | none => Except.error "IndexError: clusters[x]")
        let lbl ← assignToClusterAccurate dm hashFn ambiguousClusters s
        pure (lbl, false)

/-- `SeqClu.computeDistanceToClusters` (lines 75-97). -/
def computeDistanceToClusters (clusters : List ClusterStore) (s : SeqRef)
    (clusterAssignment : Bool) : Except String (List (ℕ × ℚ × ℚ)) :=
  clusters.foldlM
    (fun acc cluster => do
      if ¬ cluster.prototypes.fullyInitialized then
        Except.error "assert cluster.prototypes.fullyInitialized"
      else do
        let distance ← ClusterStore.computeAverageDistanceVal dm hashFn cluster s
          clusterAssignment
        let err ← if clusterAssignment then ClusterStore.errorVal dm hashFn cluster
          else pure 0
        pure (acc ++ [(cluster.identifier, distance, err)]))
    []

/-- `SeqClu.determineCandidacy` (lines 100-140): per-cluster
`(identifier, distance, error)` plus the identifiers of the clusters the
sequence is a candidate for (skipping clusters that already hold the hash
as a prototype and skipping everything once the hash is buffered). -/
def determineCandidacy (candidates : CandidateStore) (clusters : List ClusterStore)
    (s : SeqRef) (minimumRepresentativeness : ℚ) (clusterAssignment : Bool) :
    Except String (List (ℕ × ℚ × ℚ) × List ℕ) :=
  clusters.foldlM
    (fun (acc : List (ℕ × ℚ × ℚ) × List ℕ) cluster => do
      if ¬ cluster.prototypes.fullyInitialized then
        Except.error "assert cluster.prototypes.fullyInitialized"
      else do
        let (distance, candidacy, isApproximation) ←
          ClusterStore.isCandidate dm hashFn cluster s minimumRepresentativeness
            clusterAssignment
        let err ← if isApproximation then ClusterStore.errorVal dm hashFn cluster
          else pure 0
        let result := acc.1 ++ [(cluster.identifier, distance, err)]
        let skip := match s.1 with
          | some h => memA cluster.prototypes.prototypes h || memA candidates.candidates h
          | none => false
        if skip then pure (result, acc.2)
        else if candidacy then pure (result, acc.2 ++ [cluster.identifier])
        else pure (result, acc.2))
    ([], [])

/-- `SeqClu.initializeClusters` (lines 142-159). -/
def initializeClusters (numClusters numRepresentativePrototypes numPrototypes : ℕ)
    (tick : ℤ) : List ClusterStore :=
  (List.range numClusters).map
    (fun identifier => ClusterStore.mk0 identifier numRepresentativePrototypes
      numPrototypes tick)

/-- Combined candidate/incumbent value list of `processCandidatesForCluster`
(lines 194-206): candidates first (tagged by their index into the candidate
list), then the incumbent prototypes in dict order (tagged by hash). -/
def prototypeValuesOf (c : ClusterStore) (candidates : List (Hash × Data)) (ratio : ℚ) :
    Except String (List ((ℕ ⊕ Hash) × ℚ)) := do
  let pv1 ← candidates.enum.foldlM
    (fun (acc : List ((ℕ ⊕ Hash) × ℚ)) ic => do
      let representativeness ← ClusterStore.representativenessOfSequenceVal dm hashFn c
        (some ic.2.1, some ic.2.2)
      pure (acc ++ [(Sum.inl ic.1, prototypeValueEvaluate ratio representativeness 0)]))
    []
  c.prototypes.prototypes.foldlM
    (fun acc p => do
      let representativeness ← ClusterStore.representativenessOfSequenceVal dm hashFn c
        (some p.1, some p.2)
      let weight ← c.prototypeFrequencies.getWeight p.1
      pure (acc ++ [(Sum.inr p.1, prototypeValueEvaluate ratio representativeness weight)]))
    pv1

/-- `SeqClu.processCandidatesForCluster` (lines 177-221): rank candidates
and incumbents by prototype value (stable ascending sort), promote the top
`p` (top `r` as representatives) and update the cluster.  Python's negative
slices `[-p:]`, `[-p:-r]` are modelled with `drop`/`take` on lengths.  The
`set(...)` wrappers of the source are modelled as lists: at every call site
the mapped hashes are pairwise distinct (buffer keys are unique and a
candidate hash for a cluster is never one of that cluster's prototype
hashes). -/
def processCandidatesForCluster (c : ClusterStore) (candidates : List (Hash × Data))
    (numPrototypes numRepresentativePrototypes : ℕ) (ratio : ℚ) (tick : ℤ) :
    Except String (ClusterStore × List Hash) := do
  let prototypeValues ← prototypeValuesOf dm hashFn c candidates ratio
  let sortedValues := List.insertionSort (fun x y => x.2 ≤ y.2) prototypeValues
  let topP := sortedValues.drop (sortedValues.length - numPrototypes)
  let newPrototypesList ← topP.mapM
    (fun x =>
      match x.1 with
      | Sum.inl i =>
        match candidates.get? i with
        | some cd => Except.ok cd
        | none => Except.error "IndexError: candidates[i]"
      | Sum.inr ph =>
        match lookupA c.prototypes.prototypes ph with
        | some pd => Except.ok (ph, pd)
        | none => Except.error "KeyError: prototypes[ph]")
  let newPrototypes := newPrototypesList.foldl (fun d p => updateA d p.1 p.2) []
  let hashOf : (ℕ ⊕ Hash) × ℚ → Except String Hash := fun x =>
    match x.1 with
    | Sum.inl i =>
      match candidates.get? i with
      | some cd => Except.ok cd.1
      | none => Except.error "IndexError: candidates[i]"
    | Sum.inr ph => Except.ok ph
  let newRepresentativePrototypeHashes ←
    (sortedValues.drop (sortedValues.length - numRepresentativePrototypes)).mapM hashOf
  let newOtherPrototypeHashes ←
    ((sortedValues.drop (sortedValues.length - numPrototypes)).take
      ((sortedValues.length - numRepresentativePrototypes) -
        (sortedValues.length - numPrototypes))).mapM hashOf
  ClusterStore.updatePrototypes dm c newPrototypes newOtherPrototypeHashes
    newRepresentativePrototypeHashes tick

end WithMeasure

end SeqClu

/-- State of a `SeqClu` instance (constructor lines 404-444) together with
its configuration.  `classes` is the data source's class list (`ℤ` codes);
`ratio` is the `LinearPrototypeValue` ratio of the prototype-value
heuristic; `sequenceStore` is the (never written) buffer of ambiguous
sequences; `tick` is the inherited tick counter. -/
structure SeqCluState where
  bufferedSequences : List Hash
  buffering : Bool
  bufferSize : ℕ
  candidateStore : CandidateStore
  classes : List ℤ
  clusterAssignment : Bool
  clusteredByApproximation : List Hash
  clusters : List ClusterStore
  labels : List (Hash × ℤ)
  minimumRepresentativeness : ℚ
  numClusters : ℕ
  numFullyProcessed : ℕ
  numPrototypes : ℕ
  numRepresentativePrototypes : ℕ
  ratio : ℚ
  sequenceStore : List (Hash × Data)
  tick : ℤ
deriving DecidableEq

namespace SeqClu

/-- `SeqClu.alreadyProcessed` (lines 448-460). -/
def alreadyProcessed (st : SeqCluState) (sequenceHash : Hash) : Bool :=
  st.clusters.any (fun cluster => memA cluster.prototypes.prototypes sequenceHash) ||
  memA st.candidateStore.candidates sequenceHash ||
  memA st.labels sequenceHash

/-- `SeqClu.fullyInitialized` property (lines 327-338). -/
def fullyInitialized (st : SeqCluState) : Bool :=
  st.clusters.all (fun cluster => cluster.prototypes.fullyInitialized)

/-- `SeqClu.bufferFull` property (lines 244-252). -/
def bufferFull (st : SeqCluState) : Bool :=
  decide (st.bufferSize ≤ st.candidateStore.candidates.length + st.sequenceStore.length)

section WithMeasure

variable (dm : Data → Data → ℚ) (hashFn : Data → Hash)

/-- `SeqClu._labelSequence` (lines 554-576).  `clustersArg` is the method's
`clusters` parameter, consulted only by `assignToCluster`; the label map,
the approximation set, the fully-processed counter and — through
`self.clusters[assignedCluster].processSequenceIndefinitely(...)` — the
clusterer's own live clusters are updated on `st` itself. -/
def labelSequence (st : SeqCluState) (clustersArg : List ClusterStore) (s : SeqRef)
    (averageDistances : List (ℕ × ℚ × ℚ)) : Except String SeqCluState := do
  let (assignedCluster, byApproximation) ←
    assignToCluster dm hashFn clustersArg s averageDistances st.clusterAssignment
  let sequenceHash ←
    if byApproximation then
      match s.1 with
      | some h => pure (some h)
      | none =>
        match s.2 with
        | some d => pure (some (hashFn d))
        | none => Except.error "hashSequence(None)"
    else pure s.1
  let st1 :=
    if byApproximation then
      match sequenceHash with
      | some h => { st with clusteredByApproximation := addSet st.clusteredByApproximation h }
      | none => st
    else st
  let key ← match sequenceHash with
    | some h => pure h
    | none => Except.error "labels key is None (not the case at any call site)"
  let cls ← match pyIndex st1.classes assignedCluster with
    | some v => pure v
    | none => Except.error "IndexError: classes[assignedCluster]"
  let st2 := { st1 with labels := updateA st1.labels key cls }
  let cl ← match pyIndex st2.clusters assignedCluster with
    | some c => pure c
    | none => Except.error "IndexError: clusters[assignedCluster]"
  let cl2 ← ClusterStore.processSequenceIndefinitely cl key
  let st3 := { st2 with clusters := pySet st2.clusters assignedCluster cl2 }
  pure { st3 with numFullyProcessed := st3.numFullyProcessed + 1 }

/-- `SeqClu._processCandidates` (lines 578-618) as executed by
`forceProcessBuffer(persist=True, ...)`: the `clusters` and
`candidateStore` arguments alias the clusterer's own state, so every
mutation lands on `st`.  Phase one runs the prototype selection for each
cluster with a non-empty candidate subset and labels the removed
prototypes; phase two labels every remaining buffered candidate (promoted
candidates by their new cluster, the rest by exact winner selection) and
drains the buffer. -/
def processCandidatesPersist (st0 : SeqCluState) (numClusters numPrototypes
    numRepresentativePrototypes : ℕ) (tick : ℤ) : Except String SeqCluState := do
  let st1 ← (List.range numClusters).foldlM
    (fun st clusterIdx => do
      let candidatesForCluster := st.candidateStore.candidates.filterMap
        (fun item => if clusterIdx ∈ item.2.2 then some (item.1, item.2.1) else none)
      if candidatesForCluster.length > 0 then do
        let cl ← match st.clusters.get? clusterIdx with
          | some c => pure c
          | none => Except.error "IndexError: clusters[clusterIdx]"
        let (cl2, removedPrototypeHashes) ← processCandidatesForCluster dm hashFn cl
          candidatesForCluster numPrototypes numRepresentativePrototypes st.ratio tick
        let st := { st with clusters := st.clusters.set clusterIdx cl2 }
        removedPrototypeHashes.foldlM
          (fun st removedPrototypeHash => do
            let cls ← match st.classes.get? clusterIdx with
              | some v => pure v
              | none => Except.error "IndexError: classes[clusterIdx]"
            pure { st with labels := updateA st.labels removedPrototypeHash cls })
          st
      else pure st)
    st0
  let candidateHashes := keysA st1.candidateStore.candidates
  candidateHashes.foldlM
    (fun st candidateHash => do
      match st.clusters.find? (fun cluster => memA cluster.prototypes.prototypes candidateHash) with
      | some cluster => do
        let cls ← match st.classes.get? cluster.identifier with
          | some v => pure v
          | none => Except.error "IndexError: classes[cluster.identifier]"
        let st := { st with labels := updateA st.labels candidateHash cls }
        let cs ← st.candidateStore.removeFromCandidates candidateHash
        pure { st with candidateStore := cs }
      | none => do
        let cd ← match lookupA st.candidateStore.candidates candidateHash with
          | some cd => pure cd.1
          | none => Except.error "KeyError: candidates[candidateHash]"
        let averageDistances ← computeDistanceToClusters dm hashFn st.clusters
          (some candidateHash, some cd) st.clusterAssignment
        let st ← labelSequence dm hashFn st st.clusters (some candidateHash, some cd)
          averageDistances
        let cs ← st.candidateStore.removeFromCandidates candidateHash
        pure { st with candidateStore := cs })
    st1

/-- `SeqClu._processCandidates` (lines 578-618) as executed by
`forceProcessBuffer(persist=False, ...)`: the `clusters` and
`candidateStore` arguments are deep copies, so the per-cluster prototype
updates and the buffer drain act on the copies — but `self.labels`,
`self.clusteredByApproximation`, `self._numFullyProcessed` and (through
`_labelSequence`) `self.clusters` are still the clusterer's own state. -/
def processCandidatesCopy (st0 : SeqCluState) (clusters0 : List ClusterStore)
    (cands0 : CandidateStore) (numClusters numPrototypes
    numRepresentativePrototypes : ℕ) (tick : ℤ) :
    Except String (SeqCluState × List ClusterStore × CandidateStore) := do
  let scc1 ← (List.range numClusters).foldlM
    (fun (scc : SeqCluState × List ClusterStore × CandidateStore) clusterIdx => do
      let (st, clusters, cands) := scc
      let candidatesForCluster := cands.candidates.filterMap
        (fun item => if clusterIdx ∈ item.2.2 then some (item.1, item.2.1) else none)
      if candidatesForCluster.length > 0 then do
        let cl ← match clusters.get? clusterIdx with
          | some c => pure c
          | none => Except.error "IndexError: clusters[clusterIdx]"
        let (cl2, removedPrototypeHashes) ← processCandidatesForCluster dm hashFn cl
          candidatesForCluster numPrototypes numRepresentativePrototypes st.ratio tick
        let clusters := clusters.set clusterIdx cl2
        let st ← removedPrototypeHashes.foldlM
          (fun st removedPrototypeHash => do
            let cls ← match st.classes.get? clusterIdx with
              | some v => pure v
              | none => Except.error "IndexError: classes[clusterIdx]"
            pure { st with labels := updateA st.labels removedPrototypeHash cls })
          st
        pure (st, clusters, cands)
      else pure (st, clusters, cands))
    (st0, clusters0, cands0)
  let candidateHashes := keysA scc1.2.2.candidates
  candidateHashes.foldlM
    (fun (scc : SeqCluState × List ClusterStore × CandidateStore) candidateHash => do
      let (st, clusters, cands) := scc
      match clusters.find? (fun cluster => memA cluster.prototypes.prototypes candidateHash) with
      | some cluster => do
        let cls ← match st.classes.get? cluster.identifier with
          | some v => pure v
          | none => Except.error "IndexError: classes[cluster.identifier]"
        let st := { st with labels := updateA st.labels candidateHash cls }
        let cands ← cands.removeFromCandidates candidateHash
        pure (st, clusters, cands)
      | none => do
        let cd ← match lookupA cands.candidates candidateHash with
          | some cd => pure cd.1
          | none => Except.error "KeyError: candidates[candidateHash]"
        let averageDistances ← computeDistanceToClusters dm hashFn clusters
          (some candidateHash, some cd) st.clusterAssignment
        let st ← labelSequence dm hashFn st clusters (some candidateHash, some cd)
          averageDistances
        let cands ← cands.removeFromCandidates candidateHash
        pure (st, clusters, cands))
    scc1

/-- `SeqClu.forceProcessBuffer` (lines 481-503): with `persist` the buffer
is processed on the live state; without it the per-cluster/buffer part runs
on deep copies of the clusters and the candidate store and the resulting
cluster list is returned. -/
def forceProcessBuffer (st : SeqCluState) (persist : Bool) (tick : ℤ) :
    Except String (SeqCluState × List ClusterStore) :=
  if persist then do
    let st1 ← processCandidatesPersist dm hashFn st st.numClusters st.numPrototypes
      st.numRepresentativePrototypes tick
    pure (st1, st1.clusters)
  else do
    let (st1, clusters1, _) ← processCandidatesCopy dm hashFn st st.clusters
      st.candidateStore st.numClusters st.numPrototypes
      st.numRepresentativePrototypes tick
    pure (st1, clusters1)

/-- `SeqClu.processSequence` (lines 505-550). -/
def processSequence (st : SeqCluState) (sequenceHash : Hash) (sequenceData : Data)
    (considerCandidacy : Bool) : Except String SeqCluState := do
  if alreadyProcessed st sequenceHash then pure st
  else if ¬ fullyInitialized st then
    match st.clusters.enum.find? (fun ic => ¬ ic.2.prototypes.fullyInitialized) with
    | none => pure st
    | some (i, cluster) => do
      let representative := ¬ cluster.prototypes.representativePrototypesInitialized
      let ps ← cluster.prototypes.addPrototype sequenceHash sequenceData representative
        st.tick none
      let fs ← cluster.prototypeFrequencies.initializePrototype sequenceHash
      let cluster2 := { cluster with prototypes := ps, prototypeFrequencies := fs }
      pure { st with clusters := st.clusters.set i cluster2 }
  else
    if considerCandidacy then do
      let (averageDistances, candidateFor) ← determineCandidacy dm hashFn
        st.candidateStore st.clusters (some sequenceHash, some sequenceData)
        st.minimumRepresentativeness st.clusterAssignment
      if candidateFor.length > 0 then do
        let st1 :=
          if st.buffering then
            { st with bufferedSequences := addSet st.bufferedSequences sequenceHash }
          else st
        let cs ← st1.candidateStore.addToCandidates sequenceHash sequenceData
          candidateFor st1.tick
        let st2 := { st1 with candidateStore := cs }
        if bufferFull st2 || !st2.buffering then do
          let (st3, _) ← forceProcessBuffer dm hashFn st2 true st2.tick
          pure st3
        else pure st2
      else
        labelSequence dm hashFn st st.clusters (some sequenceHash, some sequenceData)
          averageDistances
    else do
      let averageDistances ← computeDistanceToClusters dm hashFn st.clusters
        (some sequenceHash, some sequenceData) st.clusterAssignment
      labelSequence dm hashFn st st.clusters (some sequenceHash, some sequenceData)
        averageDistances

end WithMeasure

/-- `SeqClu.finalLabels` property (lines 312-324): a copy of the labels map
extended with `classes[cluster.identifier]` for every prototype hash of
every cluster. -/
def finalLabels (st : SeqCluState) : Except String (List (Hash × ℤ)) :=
  st.clusters.foldlM
    (fun labels cluster =>
      (keysA cluster.prototypes.prototypes).foldlM
        (fun labels prototypeHash => do
          let cls ← match st.classes.get? cluster.identifier with
            | some v => pure v
            | none => Except.error "IndexError: classes[cluster.identifier]"
          pure (updateA labels prototypeHash cls))
        labels)
    st.labels

end SeqClu

/-!
## Concrete instances used by counterexamples and witnesses
-/

/-- Reachable `PrototypeFrequencyStore` with a defined count and
`totalObservations = 0`: initialise two prototypes, give `"a"` one vote,
then replace `"a"` by `"c"` (the single vote is withdrawn and the two
transfer shares of `1/2` each truncate to zero). -/
def c7Chain : Except String PrototypeFrequencyStore := do
  let fs := PrototypeFrequencyStore.mk0 2
  let fs ← fs.initializePrototype "a"
  let fs ← fs.initializePrototype "b"
  let fs ← fs.closestPrototypeObserved "a" 1
  fs.updatePrototypes ["b", "c"] ["c"] ["a"]
    [(("b", "c"), 1), (("c", "b"), 1), (("a", "b"), 1), (("a", "c"), 1)]

/-- The store `c7Chain` evaluates to. -/
def c7Store : PrototypeFrequencyStore := ⟨[("b", some 0), ("c", some 0)], 2, 0⟩

/-- Concrete store for the C7 witness. -/
def c7WitnessStore : PrototypeFrequencyStore := ⟨[("x", some 3)], 1, 3⟩

/-- Normalised closeness weight as worded by the specification:
`transferred_i = (1 − pair_distances[removed, n_i] / S)`, normalised so
that the weights sum to 1 (`dd n` stands for `pair_distances[removed, n]`). -/
def specTransferred (dd : Hash → ℚ) (S : ℚ) (new : List Hash) (n : Hash) : ℚ :=
  (1 - dd n / S) / ((new.map (fun m => 1 - dd m / S)).sum)

/-- Frequency store before the C4 counterexample update: prototypes
`w, x, y`, where `w` holds 2 votes. -/
def c4Store : PrototypeFrequencyStore :=
  ⟨[("w", some 2), ("x", none), ("y", none)], 3, 2⟩

/-- Pair distances for the C4 counterexample: the new prototypes are
`x, y, z` (ordered-pair distance sum `S = 32`) and the removed prototype
`w` is far from `x` and `y` (distance 39 > S) but close to `z`. -/
def c4Distances : List ((Hash × Hash) × ℚ) :=
  [(("x", "y"), 4), (("x", "z"), 4), (("y", "z"), 8),
   (("w", "x"), 39), (("w", "y"), 39), (("w", "z"), 2)]

/-- Distance from the removed hash `w` to each new hash, as a function. -/
def c4dd : Hash → ℚ := fun n => if n = "x" then 39 else if n = "y" then 39 else 2

/-- The C4 counterexample run: replace `w` by `z`. -/
def c4Run : Except String PrototypeFrequencyStore :=
  c4Store.updatePrototypes ["x", "y", "z"] ["z"] ["w"] c4Distances

/-- The store `c4Run` evaluates to: `totalObservations` rose from 2 to 3. -/
def c4Final : PrototypeFrequencyStore :=
  ⟨[("x", some 0), ("y", some 0), ("z", some 3)], 3, 3⟩

/-- Frequency store for the zero-normalisation-sum regime of C4: the
removed prototype `r` holds 2 votes. -/
def c4ZeroStore : PrototypeFrequencyStore :=
  ⟨[("r", some 2), ("a", none), ("b", none)], 2, 2⟩

/-- Pair distances for the zero-normalisation-sum regime: `d(a,b) = 1`
gives `S = 2`, and `d(r,a) = d(r,b) = 2 = S` makes every `1 − d/S` vanish,
so `np.sum(fractions)` is zero and the source raises instead of
transferring votes. -/
def c4ZeroDistances : List ((Hash × Hash) × ℚ) :=
  [(("a", "b"), 1), (("b", "a"), 1), (("r", "a"), 2), (("r", "b"), 2)]

/-- The zero-normalisation-sum update: replace `r` keeping `a` and `b`. -/
def c4ZeroRun : Except String PrototypeFrequencyStore :=
  c4ZeroStore.updatePrototypes ["a", "b"] [] ["r"] c4ZeroDistances

/-- Concrete store for the C4 witness: prototype `a` holds 100 votes. -/
def c4wStore : PrototypeFrequencyStore := ⟨[("a", some 100), ("b", none)], 2, 100⟩

/-- Pair distances for the C4 witness (replace `a` by `c`). -/
def c4wDistances : List ((Hash × Hash) × ℚ) :=
  [(("b", "c"), 1), (("a", "b"), 1), (("a", "c"), 1)]

/-- Concrete cluster for the C10 witness: the cache pairs `x` only with the
non-prototype `y`, and holds both memoised sums for `x`. -/
def c10Cluster : ClusterStore :=
  { averageDistanceC := none
    averageDistRepToNonRepC := none
    averageRepresentativenessC := none
    averageSumOfDistancesC := none
    distances := [(("x", "y"), 1), (("p", "q"), 2)]
    errorC := none
    identifier := 0
    prototypeFrequencies := ⟨[("p", some 1), ("q", none)], 2, 1⟩
    prototypes :=
      { fullyInitialized := true
        lastUpdate := 0
        numRepresentativePrototypes := 1
        numPrototypes := 2
        otherPrototypeHashes := ["q"]
        prototypeHistory := [("p", 0), ("q", 0)]
        prototypes := [("p", 11), ("q", 12)]
        representativePrototypesInitialized := true
        representativePrototypeHashes := ["p"]
        updatingPrototypes := false }
    sumsOfDistances := [(("x", false), 5), (("x", true), 2), (("z", false), 9)]
    upperBoundC := none }

/-- Distance measure for the C2 witness (constant 1; pairwise equal hashes
short-circuit to 0 before the measure is consulted). -/
def dmC2 : Data → Data → ℚ := fun _ _ => 1

/-- Sequence-to-prototype oracle values for the C2 witness. -/
def fsC2 : Hash → ℚ := fun _ => 1

/-- Prototype-pair oracle values for the C2 witness. -/
def gC2 : Hash → Hash → ℚ := fun x y => if x = y then 0 else 1

/-- Concrete fully-initialised cluster for the C2 witness: two prototypes
`p` (representative) and `q`, freshly invalidated caches. -/
def c2Cluster : ClusterStore :=
  { averageDistanceC := none
    averageDistRepToNonRepC := none
    averageRepresentativenessC := none
    averageSumOfDistancesC := none
    distances := []
    errorC := none
    identifier := 0
    prototypeFrequencies := ⟨[("p", none), ("q", none)], 2, 0⟩
    prototypes :=
      { fullyInitialized := true
        lastUpdate := 0
        numRepresentativePrototypes := 1
        numPrototypes := 2
        otherPrototypeHashes := ["q"]
        prototypeHistory := [("p", 0), ("q", 0)]
        prototypes := [("p", 1), ("q", 2)]
        representativePrototypesInitialized := true
        representativePrototypeHashes := ["p"]
        updatingPrototypes := false }
    sumsOfDistances := []
    upperBoundC := none }

/-- Distance measure for the C1 witness (never consulted: the winning
cluster's exact sum of distances is answered from the memo cache and its
distance cache is empty). -/
def dmC1 : Data → Data → ℚ := fun _ _ => 0

/-- Hash function for the C1 witness. -/
def hashFnC1 : Data → Hash := fun _ => "h"

/-- Cluster for the C1 witness: identifier 0, memoised full sum of
distances 5 for hash "h", empty distance cache. -/
def c1Cluster : ClusterStore :=
  { averageDistanceC := none
    averageDistRepToNonRepC := none
    averageRepresentativenessC := none
    averageSumOfDistancesC := none
    distances := []
    errorC := none
    identifier := 0
    prototypeFrequencies := ⟨[("p", none)], 1, 0⟩
    prototypes :=
      { fullyInitialized := true
        lastUpdate := 0
        numRepresentativePrototypes := 1
        numPrototypes := 1
        otherPrototypeHashes := []
        prototypeHistory := [("p", 0)]
        prototypes := [("p", 1)]
        representativePrototypesInitialized := true
        representativePrototypeHashes := ["p"]
        updatingPrototypes := false }
    sumsOfDistances := [(("h", false), 5)]
    upperBoundC := none }

/-- Clusterer state for the C1 witness: approximation enabled, one class
label 7, one live cluster. -/
def c1State : SeqCluState :=
  { bufferedSequences := []
    buffering := false
    bufferSize := 2
    candidateStore := ⟨[], [], 0⟩
    classes := [7]
    clusterAssignment := true
    clusteredByApproximation := []
    clusters := [c1Cluster]
    labels := []
    minimumRepresentativeness := 0
    numClusters := 1
    numFullyProcessed := 0
    numPrototypes := 1
    numRepresentativePrototypes := 1
    ratio := 1
    sequenceStore := []
    tick := 0 }

/-- The C1 witness cluster after `processSequenceIndefinitely("h")`: the
memoised sums for "h" are purged (empty distance cache: no vote). -/
def c1ClusterAfter : ClusterStore :=
  { c1Cluster with sumsOfDistances := [] }

/-- Expected clusterer state after the C1 witness labelling. -/
def c1Final : SeqCluState :=
  { c1State with
      clusteredByApproximation := ["h"]
      clusters := [c1ClusterAfter]
      labels := [("h", 7)]
      numFullyProcessed := 1 }

/-- Distance measure for the C9 instances (never consulted: every cache the
run touches is primed). -/
def dmC9 : Data → Data → ℚ := fun _ _ => 0

/-- Hash function for the C9 instances. -/
def hashFnC9 : Data → Hash := fun _ => "w"

/-- Cluster for the C9 counterexample: prototypes "a" (representative,
weight 0) and "b" (weight 1), memoised sums of distances 1 for "z", "a",
"b", memoised average sum 0 — so the candidate "z" and the incumbent "a"
both evaluate to prototype value 0 while "b" evaluates to 1/2. -/
def c9Cluster : ClusterStore :=
  { averageDistanceC := none
    averageDistRepToNonRepC := none
    averageRepresentativenessC := none
    averageSumOfDistancesC := some 0
    distances := [(("a", "a"), 0), (("a", "b"), 3), (("b", "a"), 3), (("b", "b"), 0)]
    errorC := none
    identifier := 0
    prototypeFrequencies := ⟨[("a", some 0), ("b", some 2)], 2, 2⟩
    prototypes :=
      { fullyInitialized := true
        lastUpdate := 0
        numRepresentativePrototypes := 1
        numPrototypes := 2
        otherPrototypeHashes := ["b"]
        prototypeHistory := [("a", 0), ("b", 0)]
        prototypes := [("a", 1), ("b", 2)]
        representativePrototypesInitialized := true
        representativePrototypeHashes := ["a"]
        updatingPrototypes := false }
    sumsOfDistances := [(("z", false), 1), (("a", false), 1), (("b", false), 1)]
    upperBoundC := none }

/-- Expected cluster after the C9 counterexample selection: the incumbents
"a" and "b" stay the prototypes (the tied candidate "z" is discarded), with
"b" promoted to representative and "a" demoted. -/
def c9After : ClusterStore :=
  { c9Cluster with
      prototypes :=
        { c9Cluster.prototypes with
            lastUpdate := 5
            otherPrototypeHashes := ["a"]
            prototypeHistory := [("a", 5), ("b", 5)]
            representativePrototypeHashes := ["b"] } }

/-- Spec-side definition (from the spec text, for the C9 comparison): the
hash of a combined candidate/incumbent entry — a candidate index resolves
to that candidate's hash, an incumbent entry is its own hash. -/
def specEntryHash (candidates : List (Hash × Data)) : (ℕ ⊕ Hash) × ℚ → Hash
  | (Sum.inl i, _) => ((candidates.get? i).map Prod.fst).getD ""
  | (Sum.inr h, _) => h

/-- Spec-side definition (from the spec text, for the C9 comparison):
ascending order by value with equal-value ties decided by lexicographic
order of the entries' hashes, as the spec's tie-break sentence demands. -/
def specTieOrder (candidates : List (Hash × Data)) (x y : (ℕ ⊕ Hash) × ℚ) : Bool :=
  decide (x.2 < y.2) ||
    (decide (x.2 = y.2) && decide (specEntryHash candidates x ≤ specEntryHash candidates y))

/-- Distance measure for the C3 run (never consulted: every distance the
run needs is primed in the cluster's cache). -/
def dmC3 : Data → Data → ℚ := fun _ _ => 0

/-- Hash function for the C3 run. -/
def hashFnC3 : Data → Hash := fun _ => "w"

/-- Live cluster for the C3 run: prototypes "p" (representative) and "q",
uninitialised frequencies, all pair distances and sums of distances primed,
memoised average sum 1.  The buffered candidate "c" evaluates to prototype
value 1/32, both incumbents to 1/4, so the candidate is not promoted. -/
def c3Cluster : ClusterStore :=
  { averageDistanceC := none
    averageDistRepToNonRepC := none
    averageRepresentativenessC := none
    averageSumOfDistancesC := some 1
    distances := [(("c", "p"), 4), (("p", "c"), 4), (("c", "q"), 4), (("q", "c"), 4),
      (("p", "q"), 1), (("q", "p"), 1), (("p", "p"), 0), (("q", "q"), 0)]
    errorC := none
    identifier := 0
    prototypeFrequencies := ⟨[("p", none), ("q", none)], 2, 0⟩
    prototypes :=
      { fullyInitialized := true
        lastUpdate := 0
        numRepresentativePrototypes := 1
        numPrototypes := 2
        otherPrototypeHashes := ["q"]
        prototypeHistory := [("p", 0), ("q", 0)]
        prototypes := [("p", 1), ("q", 2)]
        representativePrototypesInitialized := true
        representativePrototypeHashes := ["p"]
        updatingPrototypes := false }
    sumsOfDistances := [(("c", false), 8), (("p", false), 1), (("q", false), 1)]
    upperBoundC := none }

/-- Clusterer state for the C3 run: approximation disabled, one cluster,
one buffered candidate "c" (a candidate for cluster 0), empty labels. -/
def c3State : SeqCluState :=
  { bufferedSequences := []
    buffering := false
    bufferSize := 1
    candidateStore := ⟨[("c", (3, [0]))], [("c", 0)], 0⟩
    classes := [7]
    clusterAssignment := false
    clusteredByApproximation := []
    clusters := [c3Cluster]
    labels := []
    minimumRepresentativeness := 0
    numClusters := 1
    numFullyProcessed := 0
    numPrototypes := 2
    numRepresentativePrototypes := 1
    ratio := 1
    sequenceStore := []
    tick := 0 }

/-- The returned deep-copied cluster of the C3 run: the prototype selection
for cluster 0 keeps "p" and "q" but swaps their halves ("q" becomes
representative) and touches the history — only on the copy. -/
def c3CopyCluster : ClusterStore :=
  { c3Cluster with
      prototypes :=
        { c3Cluster.prototypes with
            lastUpdate := 5
            otherPrototypeHashes := ["p"]
            prototypeHistory := [("p", 5), ("q", 5)]
            representativePrototypeHashes := ["q"] } }

/-- The LIVE cluster of the C3 run after `persist = false`: the labelling
of the unpromoted candidate ran `processSequenceIndefinitely("c")` on the
clusterer's own cluster — a vote for "p" was recorded and every cache
entry referencing "c" was purged. -/
def c3FinalCluster : ClusterStore :=
  { c3Cluster with
      distances := [(("p", "q"), 1), (("q", "p"), 1), (("p", "p"), 0), (("q", "q"), 0)]
      prototypeFrequencies := ⟨[("p", some 1), ("q", none)], 2, 1⟩
      sumsOfDistances := [(("p", false), 1), (("q", false), 1)] }

/-- The clusterer state after the C3 `persist = false` run: the labels map,
the fully-processed counter and the live cluster have all changed. -/
def c3Final : SeqCluState :=
  { c3State with
      clusters := [c3FinalCluster]
      labels := [("c", 7)]
      numFullyProcessed := 1 }

/-- Distance measure for the C5 witness (never consulted: the run takes
the prototype-initialisation path). -/
def dmC5 : Data → Data → ℚ := fun _ _ => 0

/-- Hash function for the C5 witness. -/
def hashFnC5 : Data → Hash := fun _ => "w"

/-- Uninitialised cluster for the C5 witness (no prototypes yet). -/
def c5Cluster : ClusterStore :=
  { averageDistanceC := none
    averageDistRepToNonRepC := none
    averageRepresentativenessC := none
    averageSumOfDistancesC := none
    distances := []
    errorC := none
    identifier := 0
    prototypeFrequencies := ⟨[], 2, 0⟩
    prototypes :=
      { fullyInitialized := false
        lastUpdate := 0
        numRepresentativePrototypes := 1
        numPrototypes := 2
        otherPrototypeHashes := []
        prototypeHistory := []
        prototypes := []
        representativePrototypesInitialized := false
        representativePrototypeHashes := []
        updatingPrototypes := false }
    sumsOfDistances := []
    upperBoundC := none }

/-- Clusterer state for the C5 witness: one uninitialised cluster. -/
def c5State : SeqCluState :=
  { bufferedSequences := []
    buffering := false
    bufferSize := 2
    candidateStore := ⟨[], [], 0⟩
    classes := [7]
    clusterAssignment := false
    clusteredByApproximation := []
    clusters := [c5Cluster]
    labels := []
    minimumRepresentativeness := 0
    numClusters := 1
    numFullyProcessed := 0
    numPrototypes := 2
    numRepresentativePrototypes := 1
    ratio := 1
    sequenceStore := []
    tick := 3 }

/-- The C5 witness cluster after ingesting "h": "h" became its first
(representative) prototype. -/
def c5ClusterAfter : ClusterStore :=
  { c5Cluster with
      prototypeFrequencies := ⟨[("h", none)], 2, 0⟩
      prototypes :=
        { c5Cluster.prototypes with
            lastUpdate := 3
            prototypeHistory := [("h", 3)]
            prototypes := [("h", 5)]
            representativePrototypesInitialized := true
            representativePrototypeHashes := ["h"] } }

/-- The C5 witness state after the first `processSequence` call. -/
def c5After : SeqCluState :=
  { c5State with clusters := [c5ClusterAfter] }

/-- Symmetry invariant of a per-cluster distance cache: every stored pair
can be retrieved under the opposite orientation with the same value. -/
def symmetricCache (dl : List ((Hash × Hash) × ℚ)) : Prop :=
  ∀ a b : Hash, ∀ v : ℚ, lookupA dl (a, b) = some v → lookupA dl (b, a) = some v

/-- Distance measure for the C6 instances (constant 7). -/
def dmC6 : Data → Data → ℚ := fun _ _ => 7

/-- Hash function for the C6 instances. -/
def hashFnC6 : Data → Hash := fun _ => "a"

/-- Cluster with an empty distance cache and the single prototype `b`. -/
def c6Start : ClusterStore :=
  { averageDistanceC := none
    averageDistRepToNonRepC := none
    averageRepresentativenessC := none
    averageSumOfDistancesC := none
    distances := []
    errorC := none
    identifier := 0
    prototypeFrequencies := ⟨[("b", none)], 2, 0⟩
    prototypes :=
      { fullyInitialized := false
        lastUpdate := 0
        numRepresentativePrototypes := 1
        numPrototypes := 2
        otherPrototypeHashes := []
        prototypeHistory := [("b", 0)]
        prototypes := [("b", 22)]
        representativePrototypesInitialized := true
        representativePrototypeHashes := ["b"]
        updatingPrototypes := false }
    sumsOfDistances := []
    upperBoundC := none }

/-- `c6Start` after one computed pairwise distance between `a` and `b`. -/
def c6Mid : ClusterStore :=
  { c6Start with distances := [(("a", "b"), 7), (("b", "a"), 7)] }

/-!
## Theorems
-/

theorem lookupA_updateA_self {α β : Type} [DecidableEq α] (l : List (α × β)) (a : α) (b : β) :
    lookupA (updateA l a b) a = some b := by
  induction l with
  | nil => simp [updateA, lookupA]
  | cons kv l ih =>
    obtain ⟨k, v⟩ := kv
    by_cases h : k = a <;> simp [updateA, lookupA, h, ih]

theorem lookupA_updateA_ne {α β : Type} [DecidableEq α] (l : List (α × β)) (a a' : α)
    (b : β) (h : a ≠ a') :
    lookupA (updateA l a b) a' = lookupA l a' := by
  induction l with
  | nil => simp [updateA, lookupA, h]
  | cons kv l ih =>
    obtain ⟨k, v⟩ := kv
    by_cases hk : k = a
    · subst hk
      simp [updateA, lookupA, h]
    · simp only [updateA, if_neg hk]
      by_cases hk' : k = a' <;> simp [lookupA, hk', ih]

theorem lookupA_eraseA_ne {α β : Type} [DecidableEq α] (l : List (α × β)) (a a' : α)
    (h : a ≠ a') :
    lookupA (eraseA l a) a' = lookupA l a' := by
  induction l with
  | nil => simp [eraseA]
  | cons kv l ih =>
    obtain ⟨k, v⟩ := kv
    by_cases hk : k = a
    · subst hk
      simp [eraseA, lookupA, h]
    · by_cases hk' : k = a' <;> simp [eraseA, lookupA, hk, hk', ih, Ne.symm h]

/-- C7, claim as stated is false: in the reachable store `c7Store`
(entry set complete, count of `"b"` defined as `0`, `totalObservations = 0`)
the claim demands `getWeight "b" = 0`, but the source divides by
`totalObservations` whenever the count is defined, so the call raises
`ZeroDivisionError` instead of returning 0. -/
theorem seqclupv_c7_counterexample :
    c7Chain = Except.ok c7Store ∧
    lookupA c7Store.frequencies "b" = some (some 0) ∧
    c7Store.frequencies.length = c7Store.numPrototypes ∧
    c7Store.totalObservations = 0 ∧
    c7Store.getWeight "b" = Except.error "ZeroDivisionError" ∧
    c7Store.getWeight "b" ≠ Except.ok 0 := by
  refine ⟨?_, rfl, rfl, rfl, ?_, ?_⟩
  · norm_num +decide [c7Chain, c7Store, PrototypeFrequencyStore.mk0,
      PrototypeFrequencyStore.initializePrototype,
      PrototypeFrequencyStore.closestPrototypeObserved,
      PrototypeFrequencyStore.updatePrototypes,
      PrototypeFrequencyStore.distributeVotes,
      PrototypeFrequencyStore.distributeOne,
      PrototypeFrequencyStore.computeSumOfDistances,
      PrototypeFrequencyStore.removePrototype,
      PrototypeFrequencyStore.lookupPairDist,
      lookupA, updateA, eraseA, memA, pyInt,
      List.foldlM, List.mapM, List.mapM.loop, List.zip, List.zipWith,
      Except.pure, Except.bind, bind, pure]
  · simp +decide [PrototypeFrequencyStore.getWeight, c7Store, lookupA]
  · intro h
    have h2 : c7Store.getWeight "b" = Except.error "ZeroDivisionError" := by
      simp +decide [PrototypeFrequencyStore.getWeight, c7Store, lookupA]
    rw [h] at h2
    exact Except.noConfusion h2

/-- C7, amended: for a hash present in a complete `PrototypeFrequencyStore`,
`getWeight` returns 0 when the count is uninitialised, returns
count / totalObservations when the count is defined and the total is
non-zero, and raises `ZeroDivisionError` when the count is defined and the
total is zero (the source performs the division unconditionally). -/
theorem seqclupv_c7_amended (fs : PrototypeFrequencyStore) (h : Hash) (cnt : Option ℤ)
    (hmem : lookupA fs.frequencies h = some cnt)
    (hlen : fs.frequencies.length = fs.numPrototypes) :
    (cnt = none → fs.getWeight h = Except.ok 0) ∧
    (∀ n : ℤ, cnt = some n → fs.totalObservations ≠ 0 →
      fs.getWeight h = Except.ok ((n : ℚ) / (fs.totalObservations : ℚ))) ∧
    (∀ n : ℤ, cnt = some n → fs.totalObservations = 0 →
      fs.getWeight h = Except.error "ZeroDivisionError") := by
  refine ⟨?_, ?_, ?_⟩
  · intro hc
    subst hc
    simp [PrototypeFrequencyStore.getWeight, hmem, hlen]
  · intro n hc ht
    subst hc
    simp [PrototypeFrequencyStore.getWeight, hmem, hlen, ht]
  · intro n hc ht
    subst hc
    simp [PrototypeFrequencyStore.getWeight, hmem, hlen, ht]

theorem length_updateA_isSome {α β : Type} [DecidableEq α] (l : List (α × β)) (a : α)
    (b : β) (h : (lookupA l a).isSome) :
    (updateA l a b).length = l.length := by
  induction l with
  | nil => simp [lookupA] at h
  | cons kv l ih =>
    obtain ⟨k, v⟩ := kv
    by_cases hk : k = a
    · simp [updateA, hk]
    · simp only [lookupA, if_neg hk] at h
      simp [updateA, hk, ih h]

theorem length_eraseA_isSome {α β : Type} [DecidableEq α] (l : List (α × β)) (a : α)
    (h : (lookupA l a).isSome) :
    (eraseA l a).length + 1 = l.length := by
  induction l with
  | nil => simp [lookupA] at h
  | cons kv l ih =>
    obtain ⟨k, v⟩ := kv
    by_cases hk : k = a
    · simp [eraseA, hk]
    · simp only [lookupA, if_neg hk] at h
      simp [eraseA, hk, ih h]

theorem lookupA_eq_none_of_not_mem {α β : Type} [DecidableEq α] (l : List (α × β))
    (a : α) (h : a ∉ keysA l) : lookupA l a = none := by
  induction l with
  | nil => rfl
  | cons kv l ih =>
    obtain ⟨k, v⟩ := kv
    have hk : k ≠ a := fun e => h (e ▸ List.mem_cons_self k (keysA l))
    have h' : a ∉ keysA l := fun e => h (List.mem_cons_of_mem k e)
    simp [lookupA, hk, ih h']

theorem keysA_eraseA_sublist {α β : Type} [DecidableEq α] (l : List (α × β)) (a : α) :
    (keysA (eraseA l a)).Sublist (keysA l) := by
  induction l with
  | nil => simp [eraseA]
  | cons kv l ih =>
    obtain ⟨k, v⟩ := kv
    by_cases hk : k = a
    · simp only [eraseA, if_pos hk, keysA, List.map_cons]
      exact (List.sublist_cons_self k _).trans (by rfl)
    · simp only [eraseA, if_neg hk, keysA, List.map_cons]
      exact List.Sublist.cons₂ k ih

theorem lookupA_eraseA_self_of_nodup {α β : Type} [DecidableEq α] (l : List (α × β))
    (a : α) (hnodup : (keysA l).Nodup) : lookupA (eraseA l a) a = none := by
  induction l with
  | nil => rfl
  | cons kv l ih =>
    obtain ⟨k, v⟩ := kv
    have h1 : k ∉ keysA l := (List.nodup_cons.1 hnodup).1
    by_cases hk : k = a
    · subst hk
      simp only [eraseA, if_pos rfl]
      exact lookupA_eq_none_of_not_mem l k h1
    · simp only [eraseA, if_neg hk, lookupA, if_neg hk]
      exact ih (List.nodup_cons.1 hnodup).2

theorem foldl_if_skip {α β : Type} (cond : α → Prop) [DecidablePred cond]
    (g : β → α → β) :
    ∀ (l : List α) (acc : β), (∀ x ∈ l, ¬ cond x) →
      l.foldl (fun acc x => if cond x then g acc x else acc) acc = acc
  | [], _, _ => rfl
  | x :: l, acc, h => by
    rw [List.foldl_cons, if_neg (h x (List.mem_cons_self x l))]
    exact foldl_if_skip cond g l acc (fun y hy => h y (List.mem_cons_of_mem x hy))

theorem exbind_ok {α β : Type} (a : α) (k : α → Except String β) :
    (Except.ok a >>= k) = k a := rfl

theorem exbind_error {α β : Type} (e : String) (k : α → Except String β) :
    ((Except.error e : Except String α) >>= k) = Except.error e := rfl

theorem expure_bind {α β : Type} (a : α) (k : α → Except String β) :
    ((pure a : Except String α) >>= k) = k a := rfl

theorem floor_add_le (a b : ℚ) : ⌊a⌋ + ⌊b⌋ ≤ ⌊a + b⌋ := by
  refine Int.le_floor.2 ?_
  push_cast
  exact add_le_add (Int.floor_le a) (Int.floor_le b)

theorem sum_floor_le (l : List ℚ) : (l.map (fun q => ⌊q⌋)).sum ≤ ⌊l.sum⌋ := by
  induction l with
  | nil => simp
  | cons a t ih =>
    simp only [List.map_cons, List.sum_cons]
    calc ⌊a⌋ + (t.map (fun q => ⌊q⌋)).sum ≤ ⌊a⌋ + ⌊t.sum⌋ := by omega
      _ ≤ ⌊a + t.sum⌋ := floor_add_le a t.sum

theorem mapM_loop_ok {α β : Type} (f : α → Except String β) (g : α → β) :
    ∀ (l : List α) (acc : List β), (∀ x ∈ l, f x = Except.ok (g x)) →
      List.mapM.loop f l acc = Except.ok (acc.reverse ++ l.map g)
  | [], acc, _ => by simp [List.mapM.loop, pure, Except.pure]
  | a :: l, acc, h => by
    have ha : f a = Except.ok (g a) := h a (List.mem_cons_self a l)
    simp only [List.mapM.loop, ha]
    rw [show ∀ (x : β) (k : β → Except String (List β)),
        (Except.ok x >>= k) = k x from fun _ _ => rfl]
    rw [mapM_loop_ok f g l (g a :: acc) (fun x hx => h x (List.mem_cons_of_mem a hx))]
    simp

theorem mapM_ok {α β : Type} (f : α → Except String β) (g : α → β) (l : List α)
    (h : ∀ x ∈ l, f x = Except.ok (g x)) :
    l.mapM f = Except.ok (l.map g) := by
  rw [show l.mapM f = List.mapM.loop f l [] from rfl, mapM_loop_ok f g l [] h]
  simp

theorem listBindPure {α β : Type} (f : α → β) (A : List α) :
    (A >>= fun a => pure (f a)) = A.map f := by
  rw [bind_pure_comp]; rfl

theorem mapM_loop_map_ok {α β γ : Type} (f : β → Except String γ) (g : α → β) (h : α → γ) :
    ∀ (l : List α) (acc : List γ), (∀ x ∈ l, f (g x) = Except.ok (h x)) →
      List.mapM.loop f (l.map g) acc = Except.ok (acc.reverse ++ l.map h)
  | [], acc, _ => by simp [List.mapM.loop, pure, Except.pure]
  | a :: l, acc, hh => by
    have ha : f (g a) = Except.ok (h a) := hh a (List.mem_cons_self a l)
    simp only [List.map_cons, List.mapM.loop, ha]
    rw [show ∀ (x : γ) (k : γ → Except String (List γ)),
        (Except.ok x >>= k) = k x from fun _ _ => rfl]
    rw [mapM_loop_map_ok f g h l (h a :: acc) (fun x hx => hh x (List.mem_cons_of_mem a hx))]
    simp

theorem mapM_map_ok {α β γ : Type} (f : β → Except String γ) (g : α → β) (h : α → γ)
    (l : List α) (hh : ∀ x ∈ l, f (g x) = Except.ok (h x)) :
    (l.map g).mapM f = Except.ok (l.map h) := by
  rw [show (l.map g).mapM f = List.mapM.loop f (l.map g) [] from rfl,
    mapM_loop_map_ok f g h l [] hh]
  simp

theorem pair_sublist_of_pairwise {α : Type} (R : α → α → Prop)
    (hasymm : ∀ a b, R a b → ¬ R b a) :
    ∀ (l : List α), l.Pairwise R → ∀ a ∈ l, ∀ b ∈ l, R a b → List.Sublist [a, b] l
  | [], _, a, ha, _, _, _ => absurd ha (List.not_mem_nil a)
  | x :: t, hp, a, ha, b, hb, hab => by
    rw [List.pairwise_cons] at hp
    rcases List.mem_cons.mp ha with hax | hat
    · rcases List.mem_cons.mp hb with hbx | hbt
      · rw [hax] at hab
        rw [hbx] at hab
        exact (hasymm x x hab hab).elim
      · rw [hax]
        exact List.Sublist.cons₂ x (List.singleton_sublist.mpr hbt)
    · rcases List.mem_cons.mp hb with hbx | hbt
      · rw [hbx] at hab
        exact (hasymm x a (hp.1 a hat) hab).elim
      · exact List.Sublist.cons x (pair_sublist_of_pairwise R hasymm t hp.2 a hat b hbt hab)

theorem lookupA_foldl_updateA (cls : ℤ) :
    ∀ (hs : List Hash) (labels0 : List (Hash × ℤ)) (hk : Hash) (v : ℤ),
      lookupA (hs.foldl (fun labels ph => updateA labels ph cls) labels0) hk = some v →
      lookupA labels0 hk = some v ∨ v = cls
  | [], _, _, _, h => Or.inl h
  | ph :: t, labels0, hk, v, h => by
    rcases lookupA_foldl_updateA cls t (updateA labels0 ph cls) hk v h with h2 | h2
    · by_cases he : ph = hk
      · rw [← he, lookupA_updateA_self] at h2
        exact Or.inr (Option.some.inj h2).symm
      · rw [lookupA_updateA_ne labels0 ph hk cls he] at h2
        exact Or.inl h2
    · exact Or.inr h2

theorem foldlM_pure_updateA (cls : ℤ) :
    ∀ (hs : List Hash) (labels0 : List (Hash × ℤ)),
      hs.foldlM (fun labels ph =>
        (pure (updateA labels ph cls) : Except String (List (Hash × ℤ)))) labels0 =
        Except.ok (hs.foldl (fun labels ph => updateA labels ph cls) labels0)
  | [], labels0 => rfl
  | ph :: t, labels0 => by
    simp only [List.foldlM, List.foldl, expure_bind]
    exact foldlM_pure_updateA cls t (updateA labels0 ph cls)

theorem labels_fold_inner (classes : List ℤ) (ident : ℕ) :
    ∀ (hs : List Hash) (labels0 L : List (Hash × ℤ)),
      hs.foldlM (fun labels ph => do
        let cls ← match classes.get? ident with
          | some v => pure v
          | none => Except.error "IndexError: classes[cluster.identifier]"
        pure (updateA labels ph cls)) labels0 = Except.ok L →
      ∀ hk v, lookupA L hk = some v →
        lookupA labels0 hk = some v ∨ classes.get? ident = some v := by
  cases hg : classes.get? ident with
  | none =>
    intro hs labels0 L hfold hk v hv
    cases hs with
    | nil =>
      have he : labels0 = L := by
        simpa [List.foldlM, pure, Except.pure] using hfold
      exact Or.inl (he ▸ hv)
    | cons ph t =>
      simp only [List.foldlM, exbind_error] at hfold
      exact Except.noConfusion hfold
  | some u =>
    intro hs labels0 L hfold hk v hv
    simp only [expure_bind] at hfold
    rw [foldlM_pure_updateA u hs labels0] at hfold
    rcases lookupA_foldl_updateA u hs labels0 hk v
        ((Except.ok.inj hfold) ▸ hv) with h | h
    · exact Or.inl h
    · exact Or.inr (by rw [h])

theorem labels_fold_outer (classes : List ℤ) :
    ∀ (cs : List ClusterStore) (labels0 L : List (Hash × ℤ)),
      cs.foldlM (fun labels cluster =>
        (keysA cluster.prototypes.prototypes).foldlM
          (fun labels prototypeHash => do
            let cls ← match classes.get? cluster.identifier with
              | some v => pure v
              | none => Except.error "IndexError: classes[cluster.identifier]"
            pure (updateA labels prototypeHash cls))
          labels) labels0 = Except.ok L →
      ∀ hk v, lookupA L hk = some v →
        lookupA labels0 hk = some v ∨
        ∃ cl ∈ cs, classes.get? cl.identifier = some v
  | [], labels0, L, hfold, hk, v, hv => by
    have he : labels0 = L := by
      simpa [List.foldlM, pure, Except.pure] using hfold
    exact Or.inl (he ▸ hv)
  | c0 :: t, labels0, L, hfold, hk, v, hv => by
    simp only [List.foldlM] at hfold
    cases hinner : (keysA c0.prototypes.prototypes).foldlM
        (fun labels prototypeHash => do
          let cls ← match classes.get? c0.identifier with
            | some v => pure v
            | none => Except.error "IndexError: classes[cluster.identifier]"
          pure (updateA labels prototypeHash cls))
        labels0 with
    | error e =>
      rw [hinner] at hfold
      simp only [exbind_error] at hfold
      exact Except.noConfusion hfold
    | ok l1 =>
      rw [hinner] at hfold
      simp only [exbind_ok] at hfold
      rcases labels_fold_outer classes t l1 L hfold hk v hv with h | ⟨cl, hcl, hclv⟩
      · rcases labels_fold_inner classes c0.identifier (keysA c0.prototypes.prototypes)
            labels0 l1 hinner hk v h with h2 | h2
        · exact Or.inl h2
        · exact Or.inr ⟨c0, List.mem_cons_self c0 t, h2⟩
      · exact Or.inr ⟨cl, List.mem_cons_of_mem c0 hcl, hclv⟩

theorem memA_updateA_self {α β : Type} [DecidableEq α] (l : List (α × β)) (a : α) (b : β) :
    memA (updateA l a b) a = true := by
  simp [memA, lookupA_updateA_self]

theorem memA_updateA {α β : Type} [DecidableEq α] (l : List (α × β)) (a x : α) (b : β)
    (h : memA l x = true) : memA (updateA l a b) x = true := by
  by_cases hax : a = x
  · subst hax
    exact memA_updateA_self l a b
  · rwa [memA, lookupA_updateA_ne l a x b hax]

theorem mem_keysA_of_memA {α β : Type} [DecidableEq α] :
    ∀ (l : List (α × β)) (x : α), memA l x = true → x ∈ keysA l
  | [], x, h => by simp [memA, lookupA] at h
  | (k, v) :: t, x, h => by
    by_cases hkx : k = x
    · simp [keysA, hkx]
    · have h2 : memA t x = true := by
        simpa [memA, lookupA, hkx] using h
      simp only [keysA, List.map_cons, List.mem_cons]
      exact Or.inr (mem_keysA_of_memA t x h2)

theorem foldlM_zip_map_eq {σ : Type} (g : Hash → ℚ)
    (B : σ → Hash → ℚ → Except String σ) :
    ∀ (l : List Hash) (s : σ),
      (l.zip (l.map g)).foldlM (fun s p => B s p.1 p.2) s =
        l.foldlM (fun s n => B s n (g n)) s
  | [], s => rfl
  | a :: l, s => by
    simp only [List.map_cons, List.zip_cons_cons, List.foldlM]
    cases h : B s a (g a) with
    | error e => rfl
    | ok s2 => exact foldlM_zip_map_eq g B l s2

namespace PrototypeFrequencyStore

theorem insertUninitialised_numPrototypes (fs : PrototypeFrequencyStore) :
    ∀ added : List Hash, (insertUninitialised fs added).numPrototypes = fs.numPrototypes := by
  intro added
  induction added generalizing fs with
  | nil => rfl
  | cons a t ih => simpa [insertUninitialised] using ih _

theorem insertUninitialised_total (fs : PrototypeFrequencyStore) :
    ∀ added : List Hash,
      (insertUninitialised fs added).totalObservations = fs.totalObservations := by
  intro added
  induction added generalizing fs with
  | nil => rfl
  | cons a t ih => simpa [insertUninitialised] using ih _

theorem insertUninitialised_lookup_not_mem (fs : PrototypeFrequencyStore)
    (added : List Hash) (a : Hash) (ha : a ∉ added) :
    lookupA (insertUninitialised fs added).frequencies a = lookupA fs.frequencies a := by
  induction added generalizing fs with
  | nil => rfl
  | cons h t ih =>
    have hne : h ≠ a := fun e => ha (e ▸ List.mem_cons_self h t)
    have ha' : a ∉ t := fun e => ha (List.mem_cons_of_mem h e)
    simp only [insertUninitialised, List.foldl_cons]
    rw [show (List.foldl
        (fun fs h => { fs with frequencies := updateA fs.frequencies h none })
        { fs with frequencies := updateA fs.frequencies h none } t) =
        insertUninitialised { fs with frequencies := updateA fs.frequencies h none } t
        from rfl]
    rw [ih _ ha']
    exact lookupA_updateA_ne fs.frequencies h a none hne

theorem insertUninitialised_lookup_mem (fs : PrototypeFrequencyStore)
    (added : List Hash) (a : Hash) (ha : a ∈ added) :
    lookupA (insertUninitialised fs added).frequencies a = some none := by
  induction added generalizing fs with
  | nil => cases ha
  | cons h t ih =>
    by_cases hat : a ∈ t
    · simp only [insertUninitialised, List.foldl_cons]
      exact ih _ hat
    · have hah : a = h := by
        rcases List.mem_cons.1 ha with h1 | h2
        · exact h1
        · exact absurd h2 hat
      subst hah
      simp only [insertUninitialised, List.foldl_cons]
      rw [show (List.foldl
          (fun fs h => { fs with frequencies := updateA fs.frequencies h none })
          { fs with frequencies := updateA fs.frequencies a none } t) =
          insertUninitialised { fs with frequencies := updateA fs.frequencies a none } t
          from rfl]
      rw [insertUninitialised_lookup_not_mem _ t a hat]
      exact lookupA_updateA_self fs.frequencies a none

/-- Behaviour of the vote-award fold of `_distributeVotes` on a list of
distinct prototype hashes that are all present in the store. -/
theorem closestFold_spec (w : Hash → ℤ) :
    ∀ (new : List Hash) (fs : PrototypeFrequencyStore), new.Nodup →
      (∀ n ∈ new, (lookupA fs.frequencies n).isSome) →
      ∃ fs2,
        new.foldlM (fun fs n => fs.closestPrototypeObserved n (w n)) fs = Except.ok fs2 ∧
        (∀ n ∈ new, ∀ cnt : Option ℤ, lookupA fs.frequencies n = some cnt →
          lookupA fs2.frequencies n = some (some (cnt.getD 0 + w n))) ∧
        (∀ h, h ∉ new → lookupA fs2.frequencies h = lookupA fs.frequencies h) ∧
        fs2.totalObservations = fs.totalObservations + (new.map w).sum ∧
        fs2.numPrototypes = fs.numPrototypes ∧
        fs2.frequencies.length = fs.frequencies.length := by
  intro new
  induction new with
  | nil =>
    intro fs _ _
    exact ⟨fs, rfl, by simp, fun h _ => rfl, by simp, rfl, rfl⟩
  | cons n ns ih =>
    intro fs hnodup hmem
    obtain ⟨cnt, hcnt⟩ := Option.isSome_iff_exists.1 (hmem n (List.mem_cons_self n ns))
    have hstep : fs.closestPrototypeObserved n (w n) = Except.ok
        { fs with
          frequencies := updateA fs.frequencies n (some (cnt.getD 0 + w n))
          totalObservations := fs.totalObservations + w n } := by
      cases cnt <;> simp [closestPrototypeObserved, hcnt]
    set fs' : PrototypeFrequencyStore :=
      { fs with
        frequencies := updateA fs.frequencies n (some (cnt.getD 0 + w n))
        totalObservations := fs.totalObservations + w n } with hfs'
    have hn_not_ns : n ∉ ns := (List.nodup_cons.1 hnodup).1
    have hlookup_pres : ∀ m, m ≠ n →
        lookupA fs'.frequencies m = lookupA fs.frequencies m := by
      intro m hm
      exact lookupA_updateA_ne fs.frequencies n m _ (fun e => hm e.symm)
    obtain ⟨fs2, hrun, hgain, hframe, htot, hnum, hlen⟩ :=
      ih fs' (List.nodup_cons.1 hnodup).2
        (fun m hm => by
          rw [hlookup_pres m (fun e => hn_not_ns (e ▸ hm))]
          exact hmem m (List.mem_cons_of_mem n hm))
    refine ⟨fs2, ?_, ?_, ?_, ?_, ?_, ?_⟩
    · simp only [List.foldlM, hstep, exbind_ok]
      exact hrun
    · intro m hm cntm hcntm
      rcases List.mem_cons.1 hm with rfl | hmns
      · have : cntm = cnt := by
          rw [hcnt] at hcntm
          exact (Option.some_injective _ hcntm).symm
        subst this
        rw [hframe m hn_not_ns, hfs', lookupA_updateA_self]
      · refine hgain m hmns cntm ?_
        rw [hlookup_pres m (fun e => hn_not_ns (e ▸ hmns)), hcntm]
    · intro h hh
      rw [hframe h (fun e => hh (List.mem_cons_of_mem n e)),
        hlookup_pres h (fun e => hh (e ▸ List.mem_cons_self n ns))]
    · rw [htot, hfs']
      simp [add_assoc]
    · rw [hnum]
    · rw [hlen, hfs']
      exact length_updateA_isSome fs.frequencies n _ (by simp [hcnt])

/-- Behaviour of the loop body of `_distributeVotes` for one removed
prototype holding a positive vote count, in the non-degenerate regime
(the ordered-pair distance sum and the normalisation sum are non-zero, so
neither zero-divisor exception of the source fires): the removed entry is
withdrawn and every new hash gains `int(transferred · v)` votes, where
`transferred` is the normalised closeness weight. -/
theorem distributeOne_spec (fs1 : PrototypeFrequencyStore) (new : List Hash)
    (d : List ((Hash × Hash) × ℚ)) (S : ℚ) (r : Hash) (v : ℤ) (dd : Hash → ℚ)
    (hnodup : new.Nodup)
    (hr : lookupA fs1.frequencies r = some (some v))
    (hv : v ≠ 0)
    (hSne : S ≠ 0)
    (hone : (new.map (fun n => 1 - dd n / S)).sum ≠ 0)
    (hdd : ∀ n ∈ new, lookupPairDist d r n = some (dd n))
    (hmem : ∀ n ∈ new, n ≠ r ∧ (lookupA fs1.frequencies n).isSome) :
    ∃ fs2, distributeOne fs1 new d S r = Except.ok fs2 ∧
      (∀ n ∈ new, ∀ cnt : Option ℤ, lookupA fs1.frequencies n = some cnt →
        lookupA fs2.frequencies n =
          some (some (cnt.getD 0 + pyInt (specTransferred dd S new n * (v : ℚ))))) ∧
      (∀ h, h ∉ new → h ≠ r →
        lookupA fs2.frequencies h = lookupA fs1.frequencies h) ∧
      fs2.totalObservations = fs1.totalObservations - v +
        (new.map (fun n => pyInt (specTransferred dd S new n * (v : ℚ)))).sum ∧
      fs2.numPrototypes = fs1.numPrototypes ∧
      fs2.frequencies.length + 1 = fs1.frequencies.length := by
  have hrem : fs1.removePrototype r = Except.ok
      ({ fs1 with
          frequencies := eraseA fs1.frequencies r
          totalObservations := fs1.totalObservations - v }, v) := by
    simp [removePrototype, hr]
  set fs1e : PrototypeFrequencyStore :=
    { fs1 with
      frequencies := eraseA fs1.frequencies r
      totalObservations := fs1.totalObservations - v } with hfs1e
  have hlookup_e : ∀ n, n ≠ r → lookupA fs1e.frequencies n = lookupA fs1.frequencies n := by
    intro n hn
    exact lookupA_eraseA_ne fs1.frequencies r n (fun e => hn e.symm)
  have hmapM : new.mapM (fun prototypeHash =>
      match lookupPairDist d r prototypeHash with
      | some dq =>
        if S = 0 then
          Except.error "ZeroDivisionError: float division by zero"
        else pure (dq / S)
      | none => Except.error "Distance is not in dictionary.") =
      Except.ok (new.map (fun n => dd n / S)) := by
    refine mapM_ok _ _ _ (fun n hn => ?_)
    rw [hdd n hn]
    simp only [if_neg hSne]
    rfl
  obtain ⟨fs2, hrun, hgain, hframe, htot, hnum, hlen⟩ :=
    closestFold_spec (fun n => pyInt (specTransferred dd S new n * (v : ℚ))) new fs1e
      hnodup
      (fun n hn => by
        rw [hlookup_e n (hmem n hn).1]
        exact (hmem n hn).2)
  refine ⟨fs2, ?_, ?_, ?_, ?_, hnum, ?_⟩
  · have hbody : distributeOne fs1 new d S r =
        (new.zip (new.map (specTransferred dd S new))).foldlM
          (fun fs p => fs.closestPrototypeObserved p.1 (pyInt (p.2 * (v : ℚ)))) fs1e := by
      simp only [distributeOne, hrem, exbind_ok, if_neg hv, hmapM, List.map_map,
        Function.comp_def]
      rw [if_neg hone]
      rfl
    rw [hbody]
    exact (foldlM_zip_map_eq (specTransferred dd S new)
      (fun s n q => s.closestPrototypeObserved n (pyInt (q * (v : ℚ)))) new fs1e).trans hrun
  · intro n hn cnt hcnt
    refine hgain n hn cnt ?_
    rw [hlookup_e n (hmem n hn).1]
    exact hcnt
  · intro h hh hr'
    rw [hframe h hh, hlookup_e h hr']
  · rw [htot]
  · rw [hlen]
    exact length_eraseA_isSome fs1.frequencies r (by simp [hr])

end PrototypeFrequencyStore

/-- C4, amended: on `updatePrototypes` with one removed hash `r` holding a
defined positive count `v` (pair distances available, new hashes distinct
and present after insertion, ordered-pair distance sum `S` and the
normalisation sum both non-zero — otherwise the source raises
`ZeroDivisionError` resp. `ValueError` instead of transferring anything,
as the final conjunct exhibits): every added hash is inserted
uninitialised; every new hash `n` gains exactly `int(transferred_n · v)`
votes with truncation toward zero — which agrees with the claim's `floor`
exactly when the normalised share is nonnegative; the store ends with
`numPrototypes` entries; and `totalObservations` does not increase
provided every normalised share is nonnegative (the counterexample shows
it can increase otherwise). -/
theorem seqclupv_c4_amended (fs : PrototypeFrequencyStore) (new added : List Hash)
    (d : List ((Hash × Hash) × ℚ)) (r : Hash) (v : ℤ) (S : ℚ) (dd : Hash → ℚ)
    (hS : PrototypeFrequencyStore.computeSumOfDistances new d = Except.ok S)
    (hnodup : new.Nodup)
    (hSne : S ≠ 0)
    (hone : (new.map (fun n => 1 - dd n / S)).sum ≠ 0)
    (hdd : ∀ n ∈ new, PrototypeFrequencyStore.lookupPairDist d r n = some (dd n))
    (hr : lookupA (fs.insertUninitialised added).frequencies r = some (some v))
    (hv : 0 < v)
    (hmem : ∀ n ∈ new, n ≠ r ∧
      (lookupA (fs.insertUninitialised added).frequencies n).isSome)
    (hlen : (fs.insertUninitialised added).frequencies.length = fs.numPrototypes + 1) :
    ∃ fs2, fs.updatePrototypes new added [r] d = Except.ok fs2 ∧
      (∀ a ∈ added, lookupA (fs.insertUninitialised added).frequencies a = some none) ∧
      (∀ n ∈ new, ∀ cnt : Option ℤ,
        lookupA (fs.insertUninitialised added).frequencies n = some cnt →
        lookupA fs2.frequencies n =
          some (some (cnt.getD 0 + pyInt (specTransferred dd S new n * (v : ℚ))))) ∧
      (∀ n : Hash, 0 ≤ specTransferred dd S new n →
        pyInt (specTransferred dd S new n * (v : ℚ)) =
          ⌊specTransferred dd S new n * (v : ℚ)⌋) ∧
      fs2.frequencies.length = fs2.numPrototypes ∧
      fs2.totalObservations = fs.totalObservations - v +
        (new.map (fun n => pyInt (specTransferred dd S new n * (v : ℚ)))).sum ∧
      ((∀ n ∈ new, 0 ≤ specTransferred dd S new n) →
        fs2.totalObservations ≤ fs.totalObservations) ∧
      c4ZeroRun = Except.error "ValueError: cannot convert float NaN to integer" := by
  obtain ⟨fs2, hrun, hgain, _hframe, htot, hnum, hlen2⟩ :=
    PrototypeFrequencyStore.distributeOne_spec (fs.insertUninitialised added) new d S r v dd
      hnodup hr hv.ne' hSne hone hdd hmem
  have hnump : fs2.numPrototypes = fs.numPrototypes := by
    rw [hnum, PrototypeFrequencyStore.insertUninitialised_numPrototypes]
  have hler : fs2.frequencies.length = fs2.numPrototypes := by omega
  have htot' : fs2.totalObservations = fs.totalObservations - v +
      (new.map (fun n => pyInt (specTransferred dd S new n * (v : ℚ)))).sum := by
    rw [htot, PrototypeFrequencyStore.insertUninitialised_total]
  have hvq : (0 : ℚ) ≤ (v : ℚ) := Int.cast_nonneg.2 hv.le
  refine ⟨fs2, ?_, ?_, hgain, ?_, hler, htot', ?_, ?_⟩
  · simp only [PrototypeFrequencyStore.updatePrototypes,
      PrototypeFrequencyStore.distributeVotes, hS, exbind_ok, List.foldlM, hrun]
    rw [show (pure fs2 : Except String PrototypeFrequencyStore) = Except.ok fs2 from rfl,
      exbind_ok, if_pos hler]
    rfl
  · intro a ha
    exact PrototypeFrequencyStore.insertUninitialised_lookup_mem fs added a ha
  · intro n hg
    exact pyInt_eq_floor_of_nonneg (mul_nonneg hg hvq)
  · intro hg
    have hmapeq : (new.map (fun n => pyInt (specTransferred dd S new n * (v : ℚ)))) =
        (new.map (fun n => specTransferred dd S new n * (v : ℚ))).map (fun q => ⌊q⌋) := by
      rw [List.map_map]
      refine List.map_congr_left (fun n hn => ?_)
      exact pyInt_eq_floor_of_nonneg (mul_nonneg (hg n hn) hvq)
    have hsum1 : (new.map (fun n => specTransferred dd S new n)).sum = 1 := by
      have hT := hone
      simp only [specTransferred, div_eq_mul_inv] at hT ⊢
      rw [List.sum_map_mul_right]
      exact mul_inv_cancel₀ hT
    have hsumv : (new.map (fun n => specTransferred dd S new n * (v : ℚ))).sum = (v : ℚ) := by
      rw [List.sum_map_mul_right, hsum1, one_mul]
    have hfloor : (new.map (fun n => pyInt (specTransferred dd S new n * (v : ℚ)))).sum ≤ v := by
      rw [hmapeq]
      have h1 := sum_floor_le (new.map (fun n => specTransferred dd S new n * (v : ℚ)))
      rw [hsumv, Int.floor_intCast] at h1
      exact h1
    omega
  · norm_num +decide [c4ZeroRun, c4ZeroStore, c4ZeroDistances,
      PrototypeFrequencyStore.updatePrototypes,
      PrototypeFrequencyStore.insertUninitialised,
      PrototypeFrequencyStore.distributeVotes,
      PrototypeFrequencyStore.distributeOne,
      PrototypeFrequencyStore.computeSumOfDistances,
      PrototypeFrequencyStore.removePrototype,
      PrototypeFrequencyStore.closestPrototypeObserved,
      PrototypeFrequencyStore.lookupPairDist,
      lookupA, updateA, eraseA, memA, pyInt,
      List.foldlM, List.mapM, List.mapM.loop, List.zip, List.zipWith,
      Except.pure, Except.bind, bind, pure]

/-- Witness for `seqclupv_c4_amended` at a concrete update (scenario of
spec test S6: the removed prototype holds 100 votes, both transfer shares
are `1/2`, so each remaining prototype gains 50 votes and the total does
not increase). -/
theorem seqclupv_c4_witness :
    ∃ fs2, c4wStore.updatePrototypes ["b", "c"] ["c"] ["a"] c4wDistances = Except.ok fs2 ∧
      fs2.totalObservations ≤ c4wStore.totalObservations := by
  obtain ⟨fs2, hok, _, _, _, _, _, hle, _⟩ :=
    seqclupv_c4_amended c4wStore ["b", "c"] ["c"] c4wDistances "a" 100 2 (fun _ => 1)
      (by norm_num +decide [PrototypeFrequencyStore.computeSumOfDistances, c4wDistances,
        lookupA, List.foldlM, Except.pure, Except.bind, bind, pure])
      (by decide)
      (by norm_num)
      (by norm_num)
      (by intro n hn; fin_cases hn <;> rfl)
      (by rfl)
      (by decide)
      (by intro n hn; fin_cases hn <;> exact ⟨by decide, by rfl⟩)
      (by rfl)
  refine ⟨fs2, hok, hle ?_⟩
  intro n _
  rw [specTransferred]
  norm_num

/-- C4, claim as stated is false: in the update `c4Run` (store complete,
removed hash `w` with defined count `v = 2`, all required pair distances
present) the claim's transfer weight for the new hash `x` is `-7/16`, so
the claim says `x` gains `⌊-7/16 · 2⌋ = -1` votes — but the source
truncates toward zero and awards 0 votes — and the claim says
`totalObservations` does not increase, yet it rises from 2 to 3. -/
theorem seqclupv_c4_counterexample :
    c4Run = Except.ok c4Final ∧
    c4Store.frequencies.length = c4Store.numPrototypes ∧
    lookupA c4Store.frequencies "w" = some (some 2) ∧
    c4Store.totalObservations = 2 ∧
    c4Final.totalObservations = 3 ∧
    c4Store.totalObservations < c4Final.totalObservations ∧
    specTransferred c4dd 32 ["x", "y", "z"] "x" = -7/16 ∧
    ⌊specTransferred c4dd 32 ["x", "y", "z"] "x" * (2 : ℚ)⌋ = -1 ∧
    lookupA c4Final.frequencies "x" = some (some 0) := by
  refine ⟨?_, rfl, rfl, rfl, rfl, by decide, ?_, ?_, rfl⟩
  · norm_num +decide [c4Run, c4Store, c4Final, c4Distances,
      PrototypeFrequencyStore.updatePrototypes,
      PrototypeFrequencyStore.insertUninitialised,
      PrototypeFrequencyStore.distributeVotes,
      PrototypeFrequencyStore.distributeOne,
      PrototypeFrequencyStore.computeSumOfDistances,
      PrototypeFrequencyStore.removePrototype,
      PrototypeFrequencyStore.closestPrototypeObserved,
      PrototypeFrequencyStore.lookupPairDist,
      lookupA, updateA, eraseA, memA, pyInt,
      List.foldlM, List.mapM, List.mapM.loop, List.zip, List.zipWith,
      Except.pure, Except.bind, bind, pure]
  · norm_num +decide [specTransferred, c4dd]
  · have h : specTransferred c4dd 32 ["x", "y", "z"] "x" * (2 : ℚ) = -7/8 := by
      norm_num +decide [specTransferred, c4dd]
    rw [h, Int.floor_eq_iff]
    norm_num

/-- Witness for `seqclupv_c7_amended` at a concrete store. -/
theorem seqclupv_c7_witness :
    lookupA c7WitnessStore.frequencies "x" = some (some 3) ∧
    c7WitnessStore.frequencies.length = c7WitnessStore.numPrototypes ∧
    c7WitnessStore.getWeight "x" = Except.ok ((3 : ℚ) / (3 : ℚ)) := by
  refine ⟨rfl, rfl, ?_⟩
  exact (seqclupv_c7_amended c7WitnessStore "x" (some 3) rfl rfl).2.1 3 rfl (by decide)

/-- C10: if the distance cache holds no entry pairing the hash with a
current prototype, `processSequenceIndefinitely` awards no vote — the
frequency store (counts and `totalObservations`) is unchanged — while every
cache entry referencing the hash and both memoised sums for the hash are
still removed (prototypes and identifier untouched). -/
theorem seqclupv_c10_theorem (c : ClusterStore) (h : Hash)
    (hyp : ∀ kv ∈ c.distances, isHashInKey kv.1 h →
      ¬ (memA c.prototypes.prototypes kv.1.1 ∨ memA c.prototypes.prototypes kv.1.2))
    (hnodup : (keysA c.sumsOfDistances).Nodup) :
    ∃ c2, ClusterStore.processSequenceIndefinitely c h = Except.ok c2 ∧
      c2.prototypeFrequencies = c.prototypeFrequencies ∧
      c2.distances = c.distances.filter (fun kv => !(isHashInKey kv.1 h)) ∧
      (∀ kv ∈ c2.distances, ¬ isHashInKey kv.1 h) ∧
      c2.sumsOfDistances = eraseA (eraseA c.sumsOfDistances (h, true)) (h, false) ∧
      lookupA c2.sumsOfDistances (h, true) = none ∧
      lookupA c2.sumsOfDistances (h, false) = none ∧
      c2.prototypes = c.prototypes ∧
      c2.identifier = c.identifier := by
  have hskip : ∀ kv ∈ c.distances.filter (fun kv => isHashInKey kv.1 h),
      ¬ ((kv.1.1 = h ∨ kv.1.2 = h) ∧
        (memA c.prototypes.prototypes kv.1.1 ∨ memA c.prototypes.prototypes kv.1.2)) := by
    intro kv hkv hcond
    have h1 := List.mem_filter.1 hkv
    exact hyp kv h1.1 h1.2 hcond.2
  have hmin : (c.distances.filter (fun kv => isHashInKey kv.1 h)).foldl
      (fun acc kv =>
        if (kv.1.1 = h ∨ kv.1.2 = h) ∧
            (memA c.prototypes.prototypes kv.1.1 ∨ memA c.prototypes.prototypes kv.1.2) then
          match acc with
          | none => some kv
          | some best => if kv.2 < best.2 then some kv else acc
        else acc)
      none = none :=
    foldl_if_skip _
      (fun acc kv =>
        match acc with
        | none => some kv
        | some best => if kv.2 < best.2 then some kv else acc)
      _ none hskip
  refine ⟨{ c with
      distances := c.distances.filter (fun kv => !(isHashInKey kv.1 h))
      sumsOfDistances := eraseA (eraseA c.sumsOfDistances (h, true)) (h, false) },
    ?_, rfl, rfl, ?_, rfl, ?_, ?_, rfl, rfl⟩
  · simp only [ClusterStore.processSequenceIndefinitely, hmin]
    rfl
  · intro kv hkv
    have h2 := (List.mem_filter.1 hkv).2
    simpa using h2
  · have hno : ((h, true) : Hash × Bool) ≠ (h, false) := by simp
    rw [lookupA_eraseA_ne _ _ _ hno.symm]
    exact lookupA_eraseA_self_of_nodup c.sumsOfDistances (h, true) hnodup
  · refine lookupA_eraseA_self_of_nodup _ (h, false) ?_
    exact hnodup.sublist (keysA_eraseA_sublist c.sumsOfDistances (h, true))

theorem symmetricCache_update (dl : List ((Hash × Hash) × ℚ)) (h1 h2 : Hash) (q : ℚ)
    (hs : symmetricCache dl) :
    symmetricCache (updateA (updateA dl (h1, h2) q) (h2, h1) q) := by
  intro a b v hv
  by_cases hab1 : (a, b) = ((h2, h1) : Hash × Hash)
  · have hba : (b, a) = ((h1, h2) : Hash × Hash) := by
      injection hab1 with e1 e2
      rw [e1, e2]
    rw [hab1, lookupA_updateA_self] at hv
    obtain rfl : q = v := Option.some_injective _ hv
    rw [hba]
    by_cases heq : h1 = h2
    · rw [heq, lookupA_updateA_self]
    · have hne : ((h1, h2) : Hash × Hash) ≠ (h2, h1) := by
        intro e
        injection e with e1 e2
        exact heq e1
      rw [lookupA_updateA_ne _ _ _ _ (fun e => hne e.symm), lookupA_updateA_self]
  · rw [lookupA_updateA_ne _ _ _ _ (fun e => hab1 e.symm)] at hv
    by_cases hab2 : (a, b) = ((h1, h2) : Hash × Hash)
    · have hba : (b, a) = ((h2, h1) : Hash × Hash) := by
        injection hab2 with e1 e2
        rw [e1, e2]
      rw [hab2, lookupA_updateA_self] at hv
      obtain rfl : q = v := Option.some_injective _ hv
      rw [hba, lookupA_updateA_self]
    · rw [lookupA_updateA_ne _ _ _ _ (fun e => hab2 e.symm)] at hv
      have hba1 : ((h2, h1) : Hash × Hash) ≠ (b, a) := by
        intro e
        injection e with e1 e2
        exact hab2 (by rw [← e2, ← e1])
      have hba2 : ((h1, h2) : Hash × Hash) ≠ (b, a) := by
        intro e
        injection e with e1 e2
        exact hab1 (by rw [← e2, ← e1])
      rw [lookupA_updateA_ne _ _ _ _ hba1, lookupA_updateA_ne _ _ _ _ hba2]
      exact hs a b v hv

/-- Every successful `pairwiseDistanceOf` call either leaves the cluster
unchanged or adds one distance under both orientations. -/
theorem pairwiseDistanceOf_state (dm : Data → Data → ℚ) (hashFn : Data → Hash)
    (c : ClusterStore) (s1 s2 : SeqRef) (q : ℚ) (c2 : ClusterStore) (k : ℕ)
    (hrun : ClusterStore.pairwiseDistanceOf dm hashFn c s1 s2 = Except.ok (q, c2, k)) :
    c2 = c ∨ ∃ a b : Hash,
      c2 = { c with distances := updateA (updateA c.distances (a, b) q) (b, a) q } := by
  have hcompute : ∀ (t1 t2 : SeqRef),
      ClusterStore.pairwiseCompute dm hashFn c t1 t2 = Except.ok (q, c2, k) →
      c2 = c ∨ ∃ a b : Hash,
        c2 = { c with distances := updateA (updateA c.distances (a, b) q) (b, a) q } := by
    intro t1 t2 hc
    unfold ClusterStore.pairwiseCompute at hc
    cases hg1 : ClusterStore.getSequenceData c t1 with
    | error e =>
      rw [hg1] at hc
      simp only [exbind_error] at hc
      exact Except.noConfusion hc
    | ok a1 =>
      rw [hg1] at hc
      simp only [exbind_ok] at hc
      cases hg2 : ClusterStore.getSequenceData c t2 with
      | error e =>
        rw [hg2] at hc
        simp only [exbind_error] at hc
        exact Except.noConfusion hc
      | ok a2 =>
        rw [hg2] at hc
        simp only [exbind_ok] at hc
        have h := Except.ok.inj hc
        injection h with hq h'
        injection h' with hc2 hk
        exact Or.inr ⟨_, _, by rw [← hc2, ← hq]⟩
  rcases s1 with ⟨h1, d1⟩
  rcases s2 with ⟨h2, d2⟩
  cases h1 with
  | none => exact hcompute _ _ hrun
  | some a =>
    cases h2 with
    | none => exact hcompute _ _ hrun
    | some b =>
      by_cases hab : a = b
      · left
        simp only [ClusterStore.pairwiseDistanceOf, if_pos hab] at hrun
        have h := Except.ok.inj hrun
        injection h with hq h'
        injection h' with hc2 hk
        exact hc2.symm
      · simp only [ClusterStore.pairwiseDistanceOf, if_neg hab] at hrun
        cases hl1 : lookupA c.distances (a, b) with
        | some v =>
          rw [hl1] at hrun
          have h := Except.ok.inj hrun
          injection h with hq h'
          injection h' with hc2 hk
          exact Or.inl hc2.symm
        | none =>
          rw [hl1] at hrun
          cases hl2 : lookupA c.distances (b, a) with
          | some v =>
            rw [hl2] at hrun
            have h := Except.ok.inj hrun
            injection h with hq h'
            injection h' with hc2 hk
            exact Or.inl hc2.symm
          | none =>
            rw [hl2] at hrun
            exact hcompute _ _ hrun

/-- Witness for `seqclupv_c10_theorem` at the concrete cluster
`c10Cluster` and hash `x`. -/
theorem seqclupv_c10_witness :
    ∃ c2, ClusterStore.processSequenceIndefinitely c10Cluster "x" = Except.ok c2 ∧
      c2.prototypeFrequencies = c10Cluster.prototypeFrequencies ∧
      c2.distances = c10Cluster.distances.filter (fun kv => !(isHashInKey kv.1 "x")) ∧
      (∀ kv ∈ c2.distances, ¬ isHashInKey kv.1 "x") ∧
      c2.sumsOfDistances =
        eraseA (eraseA c10Cluster.sumsOfDistances ("x", true)) ("x", false) ∧
      lookupA c2.sumsOfDistances ("x", true) = none ∧
      lookupA c2.sumsOfDistances ("x", false) = none ∧
      c2.prototypes = c10Cluster.prototypes ∧
      c2.identifier = c10Cluster.identifier :=
  seqclupv_c10_theorem c10Cluster "x"
    (by decide)
    (by decide)

theorem foldlM_add_ok (f : Hash → Except String ℚ) (fv : Hash → ℚ) :
    ∀ (l : List Hash) (acc : ℚ), (∀ x ∈ l, f x = Except.ok (fv x)) →
      l.foldlM (fun acc ph => do
        let d ← f ph
        pure (acc + d)) acc = Except.ok (acc + (l.map fv).sum)
  | [], acc, _ => by simp [List.foldlM, pure, Except.pure]
  | x :: l, acc, h => by
    simp only [List.foldlM]
    rw [h x (List.mem_cons_self x l)]
    rw [show ((Except.ok (fv x) >>= fun d => (pure (acc + d) : Except String ℚ)) : Except String ℚ) =
      Except.ok (acc + fv x) from rfl, exbind_ok]
    rw [foldlM_add_ok f fv l (acc + fv x) (fun y hy => h y (List.mem_cons_of_mem x hy))]
    rw [List.map_cons, List.sum_cons, add_assoc]

/-- C6, claim as stated is false: a first call on the empty cache computes
the distance of `a` and `b` once and caches it under both orderings, but a
second call for the same unordered pair that supplies the data without its
hash (`(None, data)`) invokes the distance measure again — one more call
for a pair whose two cache entries were present throughout — because the
source consults the cache only when both hashes are given. -/
theorem seqclupv_c6_counterexample :
    ClusterStore.pairwiseDistanceOf dmC6 hashFnC6 c6Start (some "a", some 21)
      (some "b", none) = Except.ok (7, c6Mid, 1) ∧
    lookupA c6Mid.distances ("a", "b") = some 7 ∧
    lookupA c6Mid.distances ("b", "a") = some 7 ∧
    ClusterStore.pairwiseDistanceOf dmC6 hashFnC6 c6Mid (none, some 21)
      (some "b", none) = Except.ok (7, c6Mid, 1) := by
  refine ⟨?_, rfl, rfl, ?_⟩ <;> rfl

/-- C6, amended: `pairwiseDistanceOf` returns 0 without touching state or
the measure when both hashes are given and equal; it preserves the
symmetric-storage invariant of the cache on every successful call; for
calls that supply both hashes it returns a cached value (either
orientation) with zero measure invocations; and a cache-miss call with both
hashes given makes exactly one measure invocation and stores the result
under both orderings, leaving other entries unchanged.  (The once-per-pair
guarantee holds only for calls that supply both hashes: a call that omits a
hash recomputes even when the pair is cached, as the counterexample
shows.) -/
theorem seqclupv_c6_amended (dm : Data → Data → ℚ) (hashFn : Data → Hash) :
    (∀ (c : ClusterStore) (h : Hash) (d1 d2 : Option Data),
      ClusterStore.pairwiseDistanceOf dm hashFn c (some h, d1) (some h, d2) =
        Except.ok (0, c, 0)) ∧
    (∀ (c : ClusterStore) (s1 s2 : SeqRef) (q : ℚ) (c2 : ClusterStore) (k : ℕ),
      symmetricCache c.distances →
      ClusterStore.pairwiseDistanceOf dm hashFn c s1 s2 = Except.ok (q, c2, k) →
      symmetricCache c2.distances) ∧
    (∀ (c : ClusterStore) (h1 h2 : Hash) (v : ℚ) (d1 d2 : Option Data),
      h1 ≠ h2 → lookupA c.distances (h1, h2) = some v →
      ClusterStore.pairwiseDistanceOf dm hashFn c (some h1, d1) (some h2, d2) =
        Except.ok (v, c, 0)) ∧
    (∀ (c : ClusterStore) (h1 h2 : Hash) (v : ℚ) (d1 d2 : Option Data),
      h1 ≠ h2 → lookupA c.distances (h1, h2) = none →
      lookupA c.distances (h2, h1) = some v →
      ClusterStore.pairwiseDistanceOf dm hashFn c (some h1, d1) (some h2, d2) =
        Except.ok (v, c, 0)) ∧
    (∀ (c : ClusterStore) (h1 h2 : Hash) (d1 d2 : Option Data) (a1 a2 : Data),
      h1 ≠ h2 → lookupA c.distances (h1, h2) = none →
      lookupA c.distances (h2, h1) = none →
      ClusterStore.getSequenceData c (some h1, d1) = Except.ok a1 →
      ClusterStore.getSequenceData c (some h2, d2) = Except.ok a2 →
      ∃ c2, ClusterStore.pairwiseDistanceOf dm hashFn c (some h1, d1) (some h2, d2) =
          Except.ok (dm a1 a2, c2, 1) ∧
        lookupA c2.distances (h1, h2) = some (dm a1 a2) ∧
        lookupA c2.distances (h2, h1) = some (dm a1 a2) ∧
        (∀ p : Hash × Hash, p ≠ (h1, h2) → p ≠ (h2, h1) →
          lookupA c2.distances p = lookupA c.distances p)) := by
  refine ⟨?_, ?_, ?_, ?_, ?_⟩
  · intro c h d1 d2
    simp [ClusterStore.pairwiseDistanceOf]
  · intro c s1 s2 q c2 k hs hrun
    rcases pairwiseDistanceOf_state dm hashFn c s1 s2 q c2 k hrun with h | ⟨a, b, h⟩
    · rw [h]
      exact hs
    · rw [h]
      exact symmetricCache_update c.distances a b q hs
  · intro c h1 h2 v d1 d2 hne hl
    simp [ClusterStore.pairwiseDistanceOf, if_neg hne, hl]
  · intro c h1 h2 v d1 d2 hne hl1 hl2
    simp [ClusterStore.pairwiseDistanceOf, if_neg hne, hl1, hl2]
  · intro c h1 h2 d1 d2 a1 a2 hne hl1 hl2 hg1 hg2
    have hne21 : ((h2, h1) : Hash × Hash) ≠ (h1, h2) := by
      intro e
      injection e with e1 e2
      exact hne e1.symm
    refine ⟨{ c with distances := updateA (updateA c.distances (h1, h2) (dm a1 a2)) (h2, h1) (dm a1 a2) }, ?_, ?_, ?_, ?_⟩
    · simp only [ClusterStore.pairwiseDistanceOf, if_neg hne, hl1, hl2,
        ClusterStore.pairwiseCompute, hg1, hg2, exbind_ok]
    · rw [lookupA_updateA_ne _ _ _ _ hne21, lookupA_updateA_self]
    · rw [lookupA_updateA_self]
    · intro p hp1 hp2
      rw [lookupA_updateA_ne _ _ _ _ (fun e => hp2 e.symm),
        lookupA_updateA_ne _ _ _ _ (fun e => hp1 e.symm)]

/-- Witness for `seqclupv_c6_amended`: the equal-hash case and a cache hit
at the concrete cluster `c6Mid`. -/
theorem seqclupv_c6_witness :
    ClusterStore.pairwiseDistanceOf dmC6 hashFnC6 c6Start (some "h", some 1)
      (some "h", none) = Except.ok (0, c6Start, 0) ∧
    ClusterStore.pairwiseDistanceOf dmC6 hashFnC6 c6Mid (some "a", none)
      (some "b", none) = Except.ok (7, c6Mid, 0) :=
  ⟨(seqclupv_c6_amended dmC6 hashFnC6).1 c6Start "h" (some 1) none,
   (seqclupv_c6_amended dmC6 hashFnC6).2.2.1 c6Mid "a" "b" 7 none none
     (by decide) rfl⟩

/-- C2: for a fully-initialised cluster with freshly invalidated lazy
statistics and memo-free distance sums, whose pairwise-distance oracle
returns `fs` on sequence-to-prototype pairs and `g` on prototype pairs,
`isCandidate` uses the approximate distance — the sum of the distances to
the representative prototypes divided by `r`, flagged as an approximation —
exactly when approximation is allowed and the average representativeness is
at least `minRep`, and otherwise the exact distance — the sum over all
prototypes divided by `p`, not flagged; candidacy holds iff the returned
distance is strictly below `upperBound` (approximate case) respectively
`averageDistance` (exact case). -/
theorem seqclupv_c2_theorem (dm : Data → Data → ℚ) (hashFn : Data → Hash)
    (c : ClusterStore) (hsq : Hash) (sd : Option Data)
    (minimumRepresentativeness : ℚ) (clusterAssignment : Bool)
    (fs : Hash → ℚ) (g : Hash → Hash → ℚ)
    (hfull : c.prototypes.fullyInitialized = true)
    (hst1 : c.averageRepresentativenessC = none)
    (hst2 : c.averageDistanceC = none)
    (hst3 : c.upperBoundC = none)
    (hst4 : c.errorC = none)
    (hst5 : c.averageSumOfDistancesC = none)
    (hst6 : c.averageDistRepToNonRepC = none)
    (hsums : c.sumsOfDistances = [])
    (hf : ∀ ph ∈ keysA c.prototypes.prototypes,
      ClusterStore.pairwiseDistanceVal dm hashFn c (some hsq, sd) (some ph, none) =
        Except.ok (fs ph))
    (hg : ∀ p1 ∈ keysA c.prototypes.prototypes, ∀ p2 ∈ keysA c.prototypes.prototypes,
      ClusterStore.pairwiseDistanceVal dm hashFn c (some p1, none) (some p2, none) =
        Except.ok (g p1 p2))
    (hrsub : ∀ x ∈ c.prototypes.representativePrototypeHashes,
      x ∈ keysA c.prototypes.prototypes)
    (hosub : ∀ x ∈ c.prototypes.otherPrototypeHashes,
      x ∈ keysA c.prototypes.prototypes) :
    ∃ ar ub ad : ℚ,
      ClusterStore.averageRepresentativenessVal dm hashFn c = Except.ok ar ∧
      ClusterStore.upperBoundVal dm hashFn c = Except.ok ub ∧
      ClusterStore.averageDistanceVal dm hashFn c = Except.ok ad ∧
      ClusterStore.isCandidate dm hashFn c (some hsq, sd) minimumRepresentativeness
          clusterAssignment =
        Except.ok
          (if clusterAssignment ∧ minimumRepresentativeness ≤ ar then
            ((c.prototypes.representativePrototypeHashes.map fs).sum /
                (c.prototypes.numRepresentativePrototypes : ℚ),
              decide ((c.prototypes.representativePrototypeHashes.map fs).sum /
                (c.prototypes.numRepresentativePrototypes : ℚ) < ub), true)
          else
            (((keysA c.prototypes.prototypes).map fs).sum /
                (c.prototypes.numPrototypes : ℚ),
              decide (((keysA c.prototypes.prototypes).map fs).sum /
                (c.prototypes.numPrototypes : ℚ) < ad), false)) := by
  have hsumsLookup : ∀ k : Hash × Bool, lookupA c.sumsOfDistances k = none := by
    rw [hsums]
    intro k
    rfl
  have hauxRep : ClusterStore.sumOfDistancesAux dm hashFn c (some hsq, sd) true false =
      Except.ok ((c.prototypes.representativePrototypeHashes.map fs).sum) := by
    have h0 := foldlM_add_ok
      (fun ph => ClusterStore.pairwiseDistanceVal dm hashFn c (some hsq, sd) (some ph, none))
      fs c.prototypes.representativePrototypeHashes 0 (fun x hx => hf x (hrsub x hx))
    rw [zero_add] at h0
    exact h0
  have hauxAll : ClusterStore.sumOfDistancesAux dm hashFn c (some hsq, sd) false false =
      Except.ok (((keysA c.prototypes.prototypes).map fs).sum) := by
    have h0 := foldlM_add_ok
      (fun ph => ClusterStore.pairwiseDistanceVal dm hashFn c (some hsq, sd) (some ph, none))
      fs (keysA c.prototypes.prototypes) 0 (fun x hx => hf x hx)
    rw [zero_add] at h0
    exact h0
  have hsodRep : ClusterStore.sumOfDistancesOfVal dm hashFn c (some hsq, sd) true =
      Except.ok ((c.prototypes.representativePrototypeHashes.map fs).sum) := by
    simp only [ClusterStore.sumOfDistancesOfVal, hsumsLookup]
    exact hauxRep
  have hsodAll : ClusterStore.sumOfDistancesOfVal dm hashFn c (some hsq, sd) false =
      Except.ok (((keysA c.prototypes.prototypes).map fs).sum) := by
    simp only [ClusterStore.sumOfDistancesOfVal, hsumsLookup]
    exact hauxAll
  have hsodProto : ∀ pk ∈ keysA c.prototypes.prototypes,
      ClusterStore.sumOfDistancesOfVal dm hashFn c (some pk, none) false =
        Except.ok (((keysA c.prototypes.prototypes).map (g pk)).sum) := by
    intro pk hpk
    have h0 := foldlM_add_ok
      (fun ph => ClusterStore.pairwiseDistanceVal dm hashFn c (some pk, none) (some ph, none))
      (g pk) (keysA c.prototypes.prototypes) 0 (fun x hx => hg pk hpk x hx)
    rw [zero_add] at h0
    simp only [ClusterStore.sumOfDistancesOfVal, hsumsLookup]
    exact h0
  have havgsum : ClusterStore.averageSumOfDistancesVal dm hashFn c = Except.ok
      (((keysA c.prototypes.prototypes).map
        (fun pk => ((keysA c.prototypes.prototypes).map (g pk)).sum)).sum /
        (c.prototypes.numPrototypes : ℚ)) := by
    have h0 := foldlM_add_ok
      (fun ph => ClusterStore.sumOfDistancesOfVal dm hashFn c (some ph, none) false)
      (fun pk => ((keysA c.prototypes.prototypes).map (g pk)).sum)
      (keysA c.prototypes.prototypes) 0 (fun x hx => hsodProto x hx)
    rw [zero_add] at h0
    simp only [ClusterStore.averageSumOfDistancesVal, hst5,
      ClusterStore.calculateAverageSumOfDistances, Bool.false_eq_true, if_false, h0,
      exbind_ok]
    rfl
  have hreprProto : ∀ pk ∈ keysA c.prototypes.prototypes,
      ClusterStore.representativenessOfSequenceVal dm hashFn c (some pk, none) =
        Except.ok ((((keysA c.prototypes.prototypes).map
          (fun pk => ((keysA c.prototypes.prototypes).map (g pk)).sum)).sum /
          (c.prototypes.numPrototypes : ℚ)) /
          (2 * ((keysA c.prototypes.prototypes).map (g pk)).sum)) := by
    intro pk hpk
    simp only [ClusterStore.representativenessOfSequenceVal, hsodProto pk hpk, havgsum,
      exbind_ok]
    rfl
  have har : ClusterStore.averageRepresentativenessVal dm hashFn c = Except.ok
      ((c.prototypes.representativePrototypeHashes.map
        (fun pk => (((keysA c.prototypes.prototypes).map
          (fun pk => ((keysA c.prototypes.prototypes).map (g pk)).sum)).sum /
          (c.prototypes.numPrototypes : ℚ)) /
          (2 * ((keysA c.prototypes.prototypes).map (g pk)).sum))).sum /
        (c.prototypes.numRepresentativePrototypes : ℚ)) := by
    have h0 := foldlM_add_ok
      (fun ph => ClusterStore.representativenessOfSequenceVal dm hashFn c (some ph, none))
      (fun pk => (((keysA c.prototypes.prototypes).map
        (fun pk => ((keysA c.prototypes.prototypes).map (g pk)).sum)).sum /
        (c.prototypes.numPrototypes : ℚ)) /
        (2 * ((keysA c.prototypes.prototypes).map (g pk)).sum))
      c.prototypes.representativePrototypeHashes 0
      (fun x hx => hreprProto x (hrsub x hx))
    rw [zero_add] at h0
    simp only [ClusterStore.averageRepresentativenessVal, hst1,
      ClusterStore.calculateAverageRepresentativeness, h0, exbind_ok]
    rfl
  have had : ClusterStore.averageDistanceVal dm hashFn c = Except.ok
      ((((keysA c.prototypes.prototypes).map
        (fun pk => ((keysA c.prototypes.prototypes).map (g pk)).sum)).sum /
        (c.prototypes.numPrototypes : ℚ)) /
        ((c.prototypes.numPrototypes : ℚ) - 1)) := by
    simp only [ClusterStore.averageDistanceVal, hst2, havgsum, exbind_ok]
    rfl
  have hauxRepNon : ∀ rp ∈ c.prototypes.representativePrototypeHashes,
      ClusterStore.sumOfDistancesAux dm hashFn c (some rp, none) false true =
        Except.ok ((c.prototypes.otherPrototypeHashes.map (g rp)).sum) := by
    intro rp hrp
    have h0 := foldlM_add_ok
      (fun ph => ClusterStore.pairwiseDistanceVal dm hashFn c (some rp, none) (some ph, none))
      (g rp) c.prototypes.otherPrototypeHashes 0
      (fun x hx => hg rp (hrsub rp hrp) x (hosub x hx))
    rw [zero_add] at h0
    exact h0
  have hcalcRepNon : ClusterStore.calculateAvgSumRepToNonRep dm hashFn c = Except.ok
      ((c.prototypes.representativePrototypeHashes.map
        (fun rp => (c.prototypes.otherPrototypeHashes.map (g rp)).sum)).sum /
        (c.prototypes.numRepresentativePrototypes : ℚ)) := by
    have h0 := foldlM_add_ok
      (fun rp => ClusterStore.sumOfDistancesAux dm hashFn c (some rp, none) false true)
      (fun rp => (c.prototypes.otherPrototypeHashes.map (g rp)).sum)
      c.prototypes.representativePrototypeHashes 0
      (fun x hx => hauxRepNon x hx)
    rw [zero_add] at h0
    simp only [ClusterStore.calculateAvgSumRepToNonRep, h0, exbind_ok]
    rfl
  have hadrn : ClusterStore.averageDistRepToNonRepVal dm hashFn c = Except.ok
      (((c.prototypes.representativePrototypeHashes.map
        (fun rp => (c.prototypes.otherPrototypeHashes.map (g rp)).sum)).sum /
        (c.prototypes.numRepresentativePrototypes : ℚ)) /
        (c.prototypes.numOtherPrototypes : ℚ)) := by
    simp only [ClusterStore.averageDistRepToNonRepVal, hst6, hcalcRepNon, exbind_ok]
    rfl
  obtain ⟨ar, har⟩ : ∃ ar, ClusterStore.averageRepresentativenessVal dm hashFn c =
      Except.ok ar := ⟨_, har⟩
  obtain ⟨ad, had⟩ : ∃ ad, ClusterStore.averageDistanceVal dm hashFn c =
      Except.ok ad := ⟨_, had⟩
  obtain ⟨ax, hadrn⟩ : ∃ ax, ClusterStore.averageDistRepToNonRepVal dm hashFn c =
      Except.ok ax := ⟨_, hadrn⟩
  have her : ClusterStore.errorVal dm hashFn c = Except.ok ((1 - ar) * ax) := by
    simp only [ClusterStore.errorVal, hst4, har, hadrn, exbind_ok]
    rfl
  have hub : ClusterStore.upperBoundVal dm hashFn c = Except.ok (ad + (1 - ar) * ax) := by
    simp only [ClusterStore.upperBoundVal, hst3, had, her, exbind_ok]
    rfl
  have hcadRep : ClusterStore.computeAverageDistanceVal dm hashFn c (some hsq, sd) true =
      Except.ok ((c.prototypes.representativePrototypeHashes.map fs).sum /
        (c.prototypes.numRepresentativePrototypes : ℚ)) := by
    simp only [ClusterStore.computeAverageDistanceVal, hsodRep, exbind_ok]
    rfl
  have hcadAll : ClusterStore.computeAverageDistanceVal dm hashFn c (some hsq, sd) false =
      Except.ok (((keysA c.prototypes.prototypes).map fs).sum /
        (c.prototypes.numPrototypes : ℚ)) := by
    simp only [ClusterStore.computeAverageDistanceVal, hsodAll, exbind_ok]
    rfl
  refine ⟨ar, ad + (1 - ar) * ax, ad, har, hub, had, ?_⟩
  by_cases hca : clusterAssignment
  · subst hca
    by_cases hrep : minimumRepresentativeness ≤ ar
    · simp only [ClusterStore.isCandidate, ClusterStore.isRepresentativeEnough, har,
        exbind_ok, if_pos rfl, decide_eq_true hrep, if_pos rfl, hcadRep, hub,
        true_and, if_pos hrep]
      rfl
    · simp only [ClusterStore.isCandidate, ClusterStore.isRepresentativeEnough, har,
        exbind_ok, if_pos rfl, decide_eq_false hrep, hcadAll, had, true_and, if_neg hrep]
      rfl
  · have hcaf : clusterAssignment = false := Bool.eq_false_iff.2 hca
    subst hcaf
    simp only [ClusterStore.isCandidate, Bool.false_eq_true, if_false, hcadAll, had,
      exbind_ok, false_and, if_false]
    rfl

theorem pyIndex_mem {α : Type} (l : List α) (i : ℤ) (x : α) (h : pyIndex l i = some x) :
    x ∈ l := by
  unfold pyIndex at h
  by_cases h0 : 0 ≤ i
  · rw [if_pos h0] at h
    exact List.get?_mem h
  · rw [if_neg h0] at h
    by_cases h1 : (-i).toNat ≤ l.length
    · rw [if_pos h1] at h
      exact List.get?_mem h
    · rw [if_neg h1] at h
      exact Option.noConfusion h

theorem mem_ambiguityFold (best : ℕ × ℚ × ℚ) :
    ∀ (l : List (ℕ × ℚ × ℚ)) (acc : List ℕ) (i : ℕ),
      (i ∈ l.foldl
        (fun acc other =>
          if SeqClu.isAmbiguous (best.2.1, best.2.2) (other.2.1, other.2.2) then
            if other.1 ∈ acc then acc else acc ++ [other.1]
          else acc)
        acc) ↔
      i ∈ acc ∨ ∃ e ∈ l, e.1 = i ∧
        SeqClu.isAmbiguous (best.2.1, best.2.2) (e.2.1, e.2.2)
  | [], acc, i => by simp
  | e :: l, acc, i => by
    rw [List.foldl_cons]
    by_cases hP : SeqClu.isAmbiguous (best.2.1, best.2.2) (e.2.1, e.2.2)
    · rw [if_pos hP]
      by_cases hmem : e.1 ∈ acc
      · rw [if_pos hmem, mem_ambiguityFold best l acc i]
        constructor
        · rintro (h | ⟨x, hx, hxi, hPx⟩)
          · exact Or.inl h
          · exact Or.inr ⟨x, List.mem_cons_of_mem _ hx, hxi, hPx⟩
        · rintro (h | ⟨x, hx, hxi, hPx⟩)
          · exact Or.inl h
          · rcases List.mem_cons.1 hx with rfl | hxl
            · exact Or.inl (hxi ▸ hmem)
            · exact Or.inr ⟨x, hxl, hxi, hPx⟩
      · rw [if_neg hmem, mem_ambiguityFold best l (acc ++ [e.1]) i]
        constructor
        · rintro (h | ⟨x, hx, hxi, hPx⟩)
          · rcases List.mem_append.1 h with h1 | h1
            · exact Or.inl h1
            · exact Or.inr ⟨e, List.mem_cons_self e l, (List.mem_singleton.1 h1).symm, hP⟩
          · exact Or.inr ⟨x, List.mem_cons_of_mem _ hx, hxi, hPx⟩
        · rintro (h | ⟨x, hx, hxi, hPx⟩)
          · exact Or.inl (List.mem_append.2 (Or.inl h))
          · rcases List.mem_cons.1 hx with rfl | hxl
            · exact Or.inl (List.mem_append.2 (Or.inr (List.mem_singleton.2 hxi.symm)))
            · exact Or.inr ⟨x, hxl, hxi, hPx⟩
    · rw [if_neg hP, mem_ambiguityFold best l acc i]
      constructor
      · rintro (h | ⟨x, hx, hxi, hPx⟩)
        · exact Or.inl h
        · exact Or.inr ⟨x, List.mem_cons_of_mem _ hx, hxi, hPx⟩
      · rintro (h | ⟨x, hx, hxi, hPx⟩)
        · exact Or.inl h
        · rcases List.mem_cons.1 hx with rfl | hxl
          · exact absurd hPx hP
          · exact Or.inr ⟨x, hxl, hxi, hPx⟩

theorem mem_ambiguitySet (best : ℕ × ℚ × ℚ) (rest : List (ℕ × ℚ × ℚ)) (i : ℕ) :
    i ∈ SeqClu.ambiguitySet best rest ↔
      i = best.1 ∨ ∃ e ∈ rest, e.1 = i ∧
        SeqClu.isAmbiguous (best.2.1, best.2.2) (e.2.1, e.2.2) := by
  unfold SeqClu.ambiguitySet
  rw [mem_ambiguityFold best rest [best.1] i]
  simp

theorem accMinFold_spec (dm : Data → Data → ℚ) (hashFn : Data → Hash)
    (sv : ClusterStore → ℚ) (s : SeqRef) :
    ∀ (l : List ClusterStore) (lab : ℤ) (m : ℚ),
      (∀ x ∈ l, ClusterStore.sumOfDistancesOfVal dm hashFn x s false = Except.ok (sv x)) →
      ∃ lab2 m2,
        (l.foldlM
          (fun (acc : ℤ × Option ℚ) cluster => do
            let distance ← ClusterStore.sumOfDistancesOfVal dm hashFn cluster s false
            match acc.2 with
            | none => pure ((cluster.identifier : ℤ), some distance)
            | some mm =>
              if distance < mm then pure ((cluster.identifier : ℤ), some distance)
              else pure acc)
          ((lab, some m) : ℤ × Option ℚ)) = Except.ok (lab2, some m2) ∧
        m2 ≤ m ∧ (∀ x ∈ l, m2 ≤ sv x) ∧
        ((lab2 = lab ∧ m2 = m) ∨ ∃ x ∈ l, lab2 = (x.identifier : ℤ) ∧ m2 = sv x)
  | [], lab, m, _ =>
    ⟨lab, m, rfl, le_refl m, by simp, Or.inl ⟨rfl, rfl⟩⟩
  | x :: l, lab, m, h => by
    have hx := h x (List.mem_cons_self x l)
    by_cases hlt : sv x < m
    · obtain ⟨lab2, m2, hfold, hle, hall, hlab⟩ :=
        accMinFold_spec dm hashFn sv s l (x.identifier : ℤ) (sv x)
          (fun y hy => h y (List.mem_cons_of_mem x hy))
      refine ⟨lab2, m2, ?_, ?_, ?_, ?_⟩
      · simp only [List.foldlM, hx, exbind_ok, if_pos hlt]
        exact hfold
      · exact le_of_lt (lt_of_le_of_lt hle hlt)
      · intro y hy
        rcases List.mem_cons.1 hy with rfl | hyl
        · exact hle
        · exact hall y hyl
      · rcases hlab with ⟨h1, h2⟩ | ⟨y, hy, h1, h2⟩
        · exact Or.inr ⟨x, List.mem_cons_self x l, h1, h2⟩
        · exact Or.inr ⟨y, List.mem_cons_of_mem x hy, h1, h2⟩
    · obtain ⟨lab2, m2, hfold, hle, hall, hlab⟩ :=
        accMinFold_spec dm hashFn sv s l lab m
          (fun y hy => h y (List.mem_cons_of_mem x hy))
      refine ⟨lab2, m2, ?_, hle, ?_, ?_⟩
      · simp only [List.foldlM, hx, exbind_ok, if_neg hlt]
        exact hfold
      · intro y hy
        rcases List.mem_cons.1 hy with rfl | hyl
        · exact le_trans hle (not_lt.1 hlt)
        · exact hall y hyl
      · rcases hlab with ⟨h1, h2⟩ | ⟨y, hy, h1, h2⟩
        · exact Or.inl ⟨h1, h2⟩
        · exact Or.inr ⟨y, List.mem_cons_of_mem x hy, h1, h2⟩

/-- `assignToClusterAccurate` on a non-empty cluster list returns the
identifier of a cluster attaining the minimal memoised exact sum of
distances. -/
theorem assignToClusterAccurate_spec (dm : Data → Data → ℚ) (hashFn : Data → Hash)
    (sv : ClusterStore → ℚ) (s : SeqRef) (c0 : ClusterStore) (l : List ClusterStore)
    (h : ∀ x ∈ c0 :: l,
      ClusterStore.sumOfDistancesOfVal dm hashFn x s false = Except.ok (sv x)) :
    ∃ cw ∈ c0 :: l,
      SeqClu.assignToClusterAccurate dm hashFn (c0 :: l) s =
        Except.ok ((cw.identifier : ℤ)) ∧
      ∀ x ∈ c0 :: l, sv cw ≤ sv x := by
  have hc0 := h c0 (List.mem_cons_self c0 l)
  obtain ⟨lab2, m2, hfold, hle, hall, hlab⟩ :=
    accMinFold_spec dm hashFn sv s l (c0.identifier : ℤ) (sv c0)
      (fun y hy => h y (List.mem_cons_of_mem c0 hy))
  have hrun : SeqClu.assignToClusterAccurate dm hashFn (c0 :: l) s = Except.ok lab2 := by
    simp only [SeqClu.assignToClusterAccurate, List.foldlM, hc0, exbind_ok, expure_bind,
      hfold]
    rfl
  rcases hlab with ⟨h1, h2⟩ | ⟨y, hy, h1, h2⟩
  · refine ⟨c0, List.mem_cons_self c0 l, h1 ▸ hrun, ?_⟩
    intro x hx
    rcases List.mem_cons.1 hx with rfl | hxl
    · exact le_refl (sv x)
    · exact h2 ▸ hall x hxl
  · refine ⟨y, List.mem_cons_of_mem c0 hy, h1 ▸ hrun, ?_⟩
    intro x hx
    rcases List.mem_cons.1 hx with rfl | hxl
    · exact h2 ▸ hle
    · exact h2 ▸ hall x hxl

/-- On a successful `_labelSequence` call, the clustered-by-approximation
set is extended with the sequence hash exactly when the assignment was made
by approximation. -/
theorem labelSequence_approx (dm : Data → Data → ℚ) (hashFn : Data → Hash)
    (st : SeqCluState) (clusters : List ClusterStore) (hsq : Hash) (sd : Option Data)
    (dists : List (ℕ × ℚ × ℚ)) (st' : SeqCluState) (w : ℤ) (byApprox : Bool)
    (hassign : SeqClu.assignToCluster dm hashFn clusters (some hsq, sd) dists
      st.clusterAssignment = Except.ok (w, byApprox))
    (hrun : SeqClu.labelSequence dm hashFn st clusters (some hsq, sd) dists =
      Except.ok st') :
    st'.clusteredByApproximation =
      (if byApprox then addSet st.clusteredByApproximation hsq
       else st.clusteredByApproximation) := by
  unfold SeqClu.labelSequence at hrun
  rw [hassign] at hrun
  cases byApprox with
  | true =>
    simp only [exbind_ok, expure_bind, if_true] at hrun
    cases hcls : pyIndex st.classes w with
    | none =>
      rw [hcls] at hrun
      simp only [exbind_error] at hrun
      exact Except.noConfusion hrun
    | some cls =>
      rw [hcls] at hrun
      simp only [exbind_ok, expure_bind] at hrun
      cases hcl : pyIndex st.clusters w with
      | none =>
        rw [hcl] at hrun
        simp only [exbind_error] at hrun
        exact Except.noConfusion hrun
      | some cl =>
        rw [hcl] at hrun
        simp only [exbind_ok, expure_bind] at hrun
        cases hpsi : ClusterStore.processSequenceIndefinitely cl hsq with
        | error e =>
          rw [hpsi] at hrun
          simp only [exbind_error] at hrun
          exact Except.noConfusion hrun
        | ok cl2 =>
          rw [hpsi] at hrun
          simp only [exbind_ok, expure_bind] at hrun
          rw [← Except.ok.inj hrun]
          simp
  | false =>
    simp only [exbind_ok, expure_bind, Bool.false_eq_true, if_false] at hrun
    cases hcls : pyIndex st.classes w with
    | none =>
      rw [hcls] at hrun
      simp only [exbind_error] at hrun
      exact Except.noConfusion hrun
    | some cls =>
      rw [hcls] at hrun
      simp only [exbind_ok, expure_bind] at hrun
      cases hcl : pyIndex st.clusters w with
      | none =>
        rw [hcl] at hrun
        simp only [exbind_error] at hrun
        exact Except.noConfusion hrun
      | some cl =>
        rw [hcl] at hrun
        simp only [exbind_ok, expure_bind] at hrun
        cases hpsi : ClusterStore.processSequenceIndefinitely cl hsq with
        | error e =>
          rw [hpsi] at hrun
          simp only [exbind_error] at hrun
          exact Except.noConfusion hrun
        | ok cl2 =>
          rw [hpsi] at hrun
          simp only [exbind_ok, expure_bind] at hrun
          rw [← Except.ok.inj hrun]
          simp

theorem labelSequence_labels (dm : Data → Data → ℚ) (hashFn : Data → Hash)
    (st : SeqCluState) (clusters : List ClusterStore) (hsq : Hash) (sd : Option Data)
    (dists : List (ℕ × ℚ × ℚ)) (st' : SeqCluState)
    (hrun : SeqClu.labelSequence dm hashFn st clusters (some hsq, sd) dists =
      Except.ok st') :
    ∃ cls, st'.labels = updateA st.labels hsq cls := by
  unfold SeqClu.labelSequence at hrun
  cases hass : SeqClu.assignToCluster dm hashFn clusters (some hsq, sd) dists
      st.clusterAssignment with
  | error e =>
    rw [hass] at hrun
    simp only [exbind_error] at hrun
    exact Except.noConfusion hrun
  | ok p =>
    obtain ⟨w, byApprox⟩ := p
    rw [hass] at hrun
    cases byApprox with
    | true =>
      simp only [exbind_ok, expure_bind, if_true] at hrun
      cases hcls : pyIndex st.classes w with
      | none =>
        rw [hcls] at hrun
        simp only [exbind_error] at hrun
        exact Except.noConfusion hrun
      | some cls =>
        rw [hcls] at hrun
        simp only [exbind_ok, expure_bind] at hrun
        cases hcl : pyIndex st.clusters w with
        | none =>
          rw [hcl] at hrun
          simp only [exbind_error] at hrun
          exact Except.noConfusion hrun
        | some cl =>
          rw [hcl] at hrun
          simp only [exbind_ok, expure_bind] at hrun
          cases hpsi : ClusterStore.processSequenceIndefinitely cl hsq with
          | error e =>
            rw [hpsi] at hrun
            simp only [exbind_error] at hrun
            exact Except.noConfusion hrun
          | ok cl2 =>
            rw [hpsi] at hrun
            simp only [exbind_ok, expure_bind] at hrun
            exact ⟨cls, by rw [← Except.ok.inj hrun]⟩
    | false =>
      simp only [exbind_ok, expure_bind, Bool.false_eq_true, if_false] at hrun
      cases hcls : pyIndex st.classes w with
      | none =>
        rw [hcls] at hrun
        simp only [exbind_error] at hrun
        exact Except.noConfusion hrun
      | some cls =>
        rw [hcls] at hrun
        simp only [exbind_ok, expure_bind] at hrun
        cases hcl : pyIndex st.clusters w with
        | none =>
          rw [hcl] at hrun
          simp only [exbind_error] at hrun
          exact Except.noConfusion hrun
        | some cl =>
          rw [hcl] at hrun
          simp only [exbind_ok, expure_bind] at hrun
          cases hpsi : ClusterStore.processSequenceIndefinitely cl hsq with
          | error e =>
            rw [hpsi] at hrun
            simp only [exbind_error] at hrun
            exact Except.noConfusion hrun
          | ok cl2 =>
            rw [hpsi] at hrun
            simp only [exbind_ok, expure_bind] at hrun
            exact ⟨cls, by rw [← Except.ok.inj hrun]⟩

theorem addPrototype_mem (ps : PrototypeStore) (h : Hash) (d : Data)
    (representative : Bool) (tick : ℤ) (ps' : PrototypeStore)
    (hadd : ps.addPrototype h d representative tick none = Except.ok ps') :
    memA ps'.prototypes h = true := by
  unfold PrototypeStore.addPrototype at hadd
  by_cases hok : (!ps.fullyInitialized : Bool) = false
  · rw [if_pos (by simpa using hok)] at hadd
    exact Except.noConfusion hadd
  · rw [if_neg (by simpa using hok)] at hadd
    simp only [exbind_ok, expure_bind] at hadd
    cases hhalf : ps.addPrototypeHalf h representative tick with
    | error e =>
      rw [hhalf] at hadd
      simp only [exbind_error] at hadd
      exact Except.noConfusion hadd
    | ok ps2 =>
      rw [hhalf] at hadd
      simp only [exbind_ok, expure_bind] at hadd
      rw [← Except.ok.inj hadd]
      split_ifs <;> simp [memA_updateA_self]

theorem addToCandidates_mem (cs : CandidateStore) (h : Hash) (d : Data)
    (cf : List ℕ) (tick : ℤ) (cs' : CandidateStore)
    (hadd : cs.addToCandidates h d cf tick = Except.ok cs') :
    memA cs'.candidates h = true := by
  unfold CandidateStore.addToCandidates at hadd
  by_cases hmem : memA cs.candidates h = true
  · rw [if_pos hmem] at hadd
    exact Except.noConfusion hadd
  · rw [if_neg (by simpa using hmem)] at hadd
    rw [← Except.ok.inj hadd]
    exact memA_updateA_self cs.candidates h (d, cf)

theorem foldlM_cons_ok {α σ : Type} (f : σ → α → Except String σ) (a : α) (l : List α)
    (s0 s1 : σ) (hf : List.foldlM f s0 (a :: l) = Except.ok s1) :
    ∃ s', f s0 a = Except.ok s' ∧ List.foldlM f s' l = Except.ok s1 := by
  rw [show List.foldlM f s0 (a :: l) =
    f s0 a >>= fun s' => List.foldlM f s' l from rfl] at hf
  cases hfa : f s0 a with
  | error e =>
    rw [hfa] at hf
    simp only [exbind_error] at hf
    exact Except.noConfusion hf
  | ok s' =>
    rw [hfa] at hf
    simp only [exbind_ok] at hf
    exact ⟨s', rfl, hf⟩

theorem exbind_ok_exists {α β : Type} (e : Except String α) (k : α → Except String β)
    (b : β) (h : (e >>= k) = Except.ok b) :
    ∃ a, e = Except.ok a ∧ k a = Except.ok b := by
  cases e with
  | error s =>
    simp only [exbind_error] at h
    exact Except.noConfusion h
  | ok a => exact ⟨a, rfl, by simpa only [exbind_ok] using h⟩

theorem removed_fold_cands (clusterIdx : ℕ) :
    ∀ (rs : List Hash) (st0 st1 : SeqCluState),
      rs.foldlM (fun st removedPrototypeHash => do
        let cls ← match st.classes.get? clusterIdx with
          | some v => pure v
          | none => Except.error "IndexError: classes[clusterIdx]"
        pure { st with labels := updateA st.labels removedPrototypeHash cls }) st0 =
        Except.ok st1 →
      st1.candidateStore = st0.candidateStore
  | [], st0, st1, hf => by
    have he : st0 = st1 := by
      simpa [List.foldlM, pure, Except.pure] using hf
    rw [← he]
  | r :: t, st0, st1, hf => by
    obtain ⟨s', hhead, htail⟩ := foldlM_cons_ok _ r t st0 st1 hf
    cases hg : st0.classes.get? clusterIdx with
    | none =>
      rw [hg] at hhead
      simp only [exbind_error] at hhead
      exact Except.noConfusion hhead
    | some u =>
      rw [hg] at hhead
      simp only [expure_bind] at hhead
      have hs' : s' = { st0 with labels := updateA st0.labels r u } :=
        (Except.ok.inj hhead).symm
      have := removed_fold_cands clusterIdx t s' st1 htail
      rw [this, hs']

theorem persist_phase1_cands (dm : Data → Data → ℚ) (hashFn : Data → Hash)
    (numPrototypes numRepresentativePrototypes : ℕ) (tick : ℤ) :
    ∀ (idxs : List ℕ) (st0 st1 : SeqCluState),
      idxs.foldlM (fun st clusterIdx => do
        let candidatesForCluster := st.candidateStore.candidates.filterMap
          (fun item => if clusterIdx ∈ item.2.2 then some (item.1, item.2.1) else none)
        if candidatesForCluster.length > 0 then do
          let cl ← match st.clusters.get? clusterIdx with
            | some c => pure c
            | none => Except.error "IndexError: clusters[clusterIdx]"
          let (cl2, removedPrototypeHashes) ← SeqClu.processCandidatesForCluster dm hashFn cl
            candidatesForCluster numPrototypes numRepresentativePrototypes st.ratio tick
          let st := { st with clusters := st.clusters.set clusterIdx cl2 }
          removedPrototypeHashes.foldlM
            (fun st removedPrototypeHash => do
              let cls ← match st.classes.get? clusterIdx with
                | some v => pure v
                | none => Except.error "IndexError: classes[clusterIdx]"
              pure { st with labels := updateA st.labels removedPrototypeHash cls })
            st
        else pure st) st0 = Except.ok st1 →
      st1.candidateStore = st0.candidateStore
  | [], st0, st1, hf => by
    have he : st0 = st1 := by
      simpa [List.foldlM, pure, Except.pure] using hf
    rw [← he]
  | idx :: t, st0, st1, hf => by
    obtain ⟨s', hhead, htail⟩ := foldlM_cons_ok _ idx t st0 st1 hf
    replace hhead : (if (st0.candidateStore.candidates.filterMap
        (fun item => if idx ∈ item.2.2 then some (item.1, item.2.1) else none)).length > 0 then do
        let cl ← match st0.clusters.get? idx with
          | some c => pure c
          | none => Except.error "IndexError: clusters[clusterIdx]"
        let (cl2, removedPrototypeHashes) ← SeqClu.processCandidatesForCluster dm hashFn cl
          (st0.candidateStore.candidates.filterMap
            (fun item => if idx ∈ item.2.2 then some (item.1, item.2.1) else none))
          numPrototypes numRepresentativePrototypes st0.ratio tick
        let st := { st0 with clusters := st0.clusters.set idx cl2 }
        removedPrototypeHashes.foldlM
          (fun st removedPrototypeHash => do
            let cls ← match st.classes.get? idx with
              | some v => pure v
              | none => Except.error "IndexError: classes[clusterIdx]"
            pure { st with labels := updateA st.labels removedPrototypeHash cls })
          st
      else pure st0) = Except.ok s' := hhead
    by_cases hlen : (st0.candidateStore.candidates.filterMap
        (fun item => if idx ∈ item.2.2 then some (item.1, item.2.1) else none)).length > 0
    · rw [if_pos hlen] at hhead
      cases hcl : st0.clusters.get? idx with
      | none =>
        rw [hcl] at hhead
        simp only [exbind_error] at hhead
        exact Except.noConfusion hhead
      | some cl =>
        rw [hcl] at hhead
        simp only [exbind_ok, expure_bind] at hhead
        cases hpc : SeqClu.processCandidatesForCluster dm hashFn cl
            (st0.candidateStore.candidates.filterMap
              (fun item => if idx ∈ item.2.2 then some (item.1, item.2.1) else none))
            numPrototypes numRepresentativePrototypes st0.ratio tick with
        | error e =>
          rw [hpc] at hhead
          simp only [exbind_error] at hhead
          exact Except.noConfusion hhead
        | ok p =>
          obtain ⟨cl2, removedPrototypeHashes⟩ := p
          rw [hpc] at hhead
          simp only [exbind_ok, expure_bind] at hhead
          have h2 := removed_fold_cands idx removedPrototypeHashes
            { st0 with clusters := st0.clusters.set idx cl2 } s' hhead
          have h1 := persist_phase1_cands dm hashFn numPrototypes
            numRepresentativePrototypes tick t s' st1 htail
          rw [h1, h2]
    · rw [if_neg hlen] at hhead
      have hs' : s' = st0 := (Except.ok.inj hhead).symm
      have h1 := persist_phase1_cands dm hashFn numPrototypes
        numRepresentativePrototypes tick t s' st1 htail
      rw [h1, hs']

theorem persist_phase2_labels (dm : Data → Data → ℚ) (hashFn : Data → Hash) :
    ∀ (ks : List Hash) (st0 st1 : SeqCluState),
      ks.foldlM (fun st candidateHash => do
        match st.clusters.find?
            (fun cluster => memA cluster.prototypes.prototypes candidateHash) with
        | some cluster => do
          let cls ← match st.classes.get? cluster.identifier with
            | some v => pure v
            | none => Except.error "IndexError: classes[cluster.identifier]"
          let st := { st with labels := updateA st.labels candidateHash cls }
          let cs ← st.candidateStore.removeFromCandidates candidateHash
          pure { st with candidateStore := cs }
        | none => do
          let cd ← match lookupA st.candidateStore.candidates candidateHash with
            | some cd => pure cd.1
            | none => Except.error "KeyError: candidates[candidateHash]"
          let averageDistances ← SeqClu.computeDistanceToClusters dm hashFn st.clusters
            (some candidateHash, some cd) st.clusterAssignment
          let st ← SeqClu.labelSequence dm hashFn st st.clusters
            (some candidateHash, some cd) averageDistances
          let cs ← st.candidateStore.removeFromCandidates candidateHash
          pure { st with candidateStore := cs }) st0 = Except.ok st1 →
      ∀ k, k ∈ ks ∨ memA st0.labels k = true → memA st1.labels k = true
  | [], st0, st1, hf, k, hk => by
    have he : st0 = st1 := by
      simpa [List.foldlM, pure, Except.pure] using hf
    rcases hk with hk | hk
    · exact absurd hk (List.not_mem_nil k)
    · exact he ▸ hk
  | kh :: t, st0, st1, hf, k, hk => by
    obtain ⟨s', hhead, htail⟩ := foldlM_cons_ok _ kh t st0 st1 hf
    replace hhead : (match st0.clusters.find?
        (fun cluster => memA cluster.prototypes.prototypes kh) with
      | some cluster => do
        let cls ← match st0.classes.get? cluster.identifier with
          | some v => pure v
          | none => Except.error "IndexError: classes[cluster.identifier]"
        let st := { st0 with labels := updateA st0.labels kh cls }
        let cs ← st.candidateStore.removeFromCandidates kh
        pure { st with candidateStore := cs }
      | none => do
        let cd ← match lookupA st0.candidateStore.candidates kh with
          | some cd => pure cd.1
          | none => Except.error "KeyError: candidates[candidateHash]"
        let averageDistances ← SeqClu.computeDistanceToClusters dm hashFn st0.clusters
          (some kh, some cd) st0.clusterAssignment
        let st ← SeqClu.labelSequence dm hashFn st0 st0.clusters
          (some kh, some cd) averageDistances
        let cs ← st.candidateStore.removeFromCandidates kh
        pure { st with candidateStore := cs }) = Except.ok s' := hhead
    have hnext : (∃ cls, s'.labels = updateA st0.labels kh cls) →
        memA st1.labels k = true := by
      rintro ⟨cls, hlab⟩
      refine persist_phase2_labels dm hashFn t s' st1 htail k ?_
      rcases hk with hk | hk
      · rcases List.mem_cons.mp hk with hkk | hkt
        · exact Or.inr (by rw [hlab, hkk]; exact memA_updateA_self st0.labels kh cls)
        · exact Or.inl hkt
      · exact Or.inr (by rw [hlab]; exact memA_updateA st0.labels kh k cls hk)
    cases hfind : st0.clusters.find?
        (fun cluster => memA cluster.prototypes.prototypes kh) with
    | some cluster =>
      rw [hfind] at hhead
      replace hhead : (do
          let cls ← match st0.classes.get? cluster.identifier with
            | some v => pure v
            | none => Except.error "IndexError: classes[cluster.identifier]"
          let st := { st0 with labels := updateA st0.labels kh cls }
          let cs ← st.candidateStore.removeFromCandidates kh
          pure { st with candidateStore := cs }) = Except.ok s' := hhead
      cases hg : st0.classes.get? cluster.identifier with
      | none =>
        rw [hg] at hhead
        simp only [exbind_error] at hhead
        exact Except.noConfusion hhead
      | some cls =>
        rw [hg] at hhead
        simp only [expure_bind] at hhead
        cases hrm : ({ st0 with labels := updateA st0.labels kh cls } :
            SeqCluState).candidateStore.removeFromCandidates kh with
        | error e =>
          rw [hrm] at hhead
          simp only [exbind_error] at hhead
          exact Except.noConfusion hhead
        | ok cs =>
          rw [hrm] at hhead
          simp only [exbind_ok, expure_bind] at hhead
          refine hnext ⟨cls, ?_⟩
          rw [← Except.ok.inj hhead]
    | none =>
      rw [hfind] at hhead
      replace hhead : (do
          let cd ← match lookupA st0.candidateStore.candidates kh with
            | some cd => pure cd.1
            | none => Except.error "KeyError: candidates[candidateHash]"
          let averageDistances ← SeqClu.computeDistanceToClusters dm hashFn st0.clusters
            (some kh, some cd) st0.clusterAssignment
          let st ← SeqClu.labelSequence dm hashFn st0 st0.clusters
            (some kh, some cd) averageDistances
          let cs ← st.candidateStore.removeFromCandidates kh
          pure { st with candidateStore := cs }) = Except.ok s' := hhead
      cases hcd : lookupA st0.candidateStore.candidates kh with
      | none =>
        rw [hcd] at hhead
        simp only [exbind_error] at hhead
        exact Except.noConfusion hhead
      | some cd =>
        rw [hcd] at hhead
        simp only [expure_bind] at hhead
        cases havg : SeqClu.computeDistanceToClusters dm hashFn st0.clusters
            (some kh, some cd.1) st0.clusterAssignment with
        | error e =>
          rw [havg] at hhead
          simp only [exbind_error] at hhead
          exact Except.noConfusion hhead
        | ok avgd =>
          rw [havg] at hhead
          simp only [exbind_ok, expure_bind] at hhead
          cases hls : SeqClu.labelSequence dm hashFn st0 st0.clusters
              (some kh, some cd.1) avgd with
          | error e =>
            rw [hls] at hhead
            simp only [exbind_error] at hhead
            exact Except.noConfusion hhead
          | ok stL =>
            rw [hls] at hhead
            simp only [exbind_ok, expure_bind] at hhead
            obtain ⟨cls, hlab⟩ := labelSequence_labels dm hashFn st0 st0.clusters kh
              (some cd.1) avgd stL hls
            cases hrm : stL.candidateStore.removeFromCandidates kh with
            | error e =>
              rw [hrm] at hhead
              simp only [exbind_error] at hhead
              exact Except.noConfusion hhead
            | ok cs =>
              rw [hrm] at hhead
              simp only [exbind_ok, expure_bind] at hhead
              refine hnext ⟨cls, ?_⟩
              rw [← Except.ok.inj hhead, hlab]

/-- C1: for a labelling with approximation enabled, after the stable sort
of the per-cluster `(distance, error)` triples, the ambiguity set consists
of the best cluster plus every other cluster whose distance differs from
the best by at most the maximum of the two errors; a singleton set makes
the best cluster win with the sequence recorded as clustered by
approximation, while a larger set picks the winner among exactly the
ambiguous clusters by minimal exact all-prototype (memoised) sum of
distances and does not record the sequence as clustered by
approximation. -/
theorem seqclupv_c1_theorem (dm : Data → Data → ℚ) (hashFn : Data → Hash)
    (st : SeqCluState) (clusters : List ClusterStore) (hsq : Hash) (sd : Option Data)
    (dists : List (ℕ × ℚ × ℚ)) (best : ℕ × ℚ × ℚ) (rest : List (ℕ × ℚ × ℚ))
    (st' : SeqCluState) (sv : ClusterStore → ℚ) (cf : ℕ → ClusterStore)
    (hca : st.clusterAssignment = true)
    (hsorted : List.insertionSort (fun x y => x.2.1 ≤ y.2.1) dists = best :: rest)
    (hsv : ∀ x ∈ clusters,
      ClusterStore.sumOfDistancesOfVal dm hashFn x (some hsq, sd) false =
        Except.ok (sv x))
    (hidx : ∀ i ∈ SeqClu.ambiguitySet best rest, pyIndex clusters (i : ℤ) = some (cf i))
    (hid : ∀ i ∈ SeqClu.ambiguitySet best rest, (cf i).identifier = i)
    (hrun : SeqClu.labelSequence dm hashFn st clusters (some hsq, sd) dists =
      Except.ok st') :
    (∀ i : ℕ, i ∈ SeqClu.ambiguitySet best rest ↔
      i = best.1 ∨ ∃ e ∈ rest, e.1 = i ∧
        SeqClu.isAmbiguous (best.2.1, best.2.2) (e.2.1, e.2.2)) ∧
    ((SeqClu.ambiguitySet best rest).length = 1 →
      SeqClu.assignToCluster dm hashFn clusters (some hsq, sd) dists
          st.clusterAssignment = Except.ok ((best.1 : ℤ), true) ∧
      st'.clusteredByApproximation = addSet st.clusteredByApproximation hsq) ∧
    ((SeqClu.ambiguitySet best rest).length ≠ 1 →
      ∃ i0 ∈ SeqClu.ambiguitySet best rest,
        SeqClu.assignToCluster dm hashFn clusters (some hsq, sd) dists
            st.clusterAssignment = Except.ok ((i0 : ℤ), false) ∧
        (∀ i ∈ SeqClu.ambiguitySet best rest, sv (cf i0) ≤ sv (cf i)) ∧
        st'.clusteredByApproximation = st.clusteredByApproximation) := by
  refine ⟨fun i => mem_ambiguitySet best rest i, ?_, ?_⟩
  · intro hlen
    have hassign : SeqClu.assignToCluster dm hashFn clusters (some hsq, sd) dists
        st.clusterAssignment = Except.ok ((best.1 : ℤ), true) := by
      rw [hca]
      simp only [SeqClu.assignToCluster, hsorted]
      simp [hlen]
    refine ⟨hassign, ?_⟩
    rw [labelSequence_approx dm hashFn st clusters hsq sd dists st' (best.1 : ℤ) true
      (hca ▸ hassign) hrun]
    simp
  · intro hlen
    have hbest_mem : best.1 ∈ SeqClu.ambiguitySet best rest :=
      (mem_ambiguitySet best rest best.1).2 (Or.inl rfl)
    obtain ⟨a0, arest, hAeq⟩ : ∃ a0 arest,
        SeqClu.ambiguitySet best rest = a0 :: arest := by
      cases hAe : SeqClu.ambiguitySet best rest with
      | nil => rw [hAe] at hbest_mem; cases hbest_mem
      | cons a0 arest => exact ⟨a0, arest, rfl⟩
    have hl : (SeqClu.ambiguitySet best rest).map cf = cf a0 :: arest.map cf := by
      rw [hAeq, List.map_cons]
    have hsv' : ∀ x ∈ cf a0 :: arest.map cf,
        ClusterStore.sumOfDistancesOfVal dm hashFn x (some hsq, sd) false =
          Except.ok (sv x) := by
      intro x hx
      rw [← hl] at hx
      obtain ⟨i, hi, rfl⟩ := List.mem_map.1 hx
      exact hsv (cf i) (pyIndex_mem clusters (i : ℤ) (cf i) (hidx i hi))
    obtain ⟨cw, hcwmem, hacc, hmin⟩ :=
      assignToClusterAccurate_spec dm hashFn sv (some hsq, sd) (cf a0) (arest.map cf)
        hsv'
    have hcwA : cw ∈ (SeqClu.ambiguitySet best rest).map cf := by
      rw [hl]
      exact hcwmem
    obtain ⟨i0, hi0, hcfi0⟩ := List.mem_map.1 hcwA
    have hcwid : cw.identifier = i0 := hcfi0 ▸ hid i0 hi0
    have hfn : ∀ i ∈ SeqClu.ambiguitySet best rest,
        (fun j => match pyIndex clusters j with
          | some cl => Except.ok cl
          | none => Except.error "IndexError: clusters[x]") ((i : ℕ) : ℤ) =
        Except.ok (cf i) := fun i hi => by simp only [hidx i hi]
    have hassign : SeqClu.assignToCluster dm hashFn clusters (some hsq, sd) dists
        st.clusterAssignment = Except.ok ((i0 : ℤ), false) := by
      rw [hca]
      simp only [SeqClu.assignToCluster, hsorted]
      rw [if_neg (by simp), if_neg hlen, listBindPure,
        mapM_map_ok _ _ cf (SeqClu.ambiguitySet best rest) hfn, exbind_ok, hl, hacc,
        exbind_ok, hcwid]
      rfl
    refine ⟨i0, hi0, hassign, ?_, ?_⟩
    · intro i hi
      have hmemi : cf i ∈ cf a0 :: arest.map cf := by
        rw [← hl]
        exact List.mem_map.2 ⟨i, hi, rfl⟩
      rw [hcfi0]
      exact hmin (cf i) hmemi
    · rw [labelSequence_approx dm hashFn st clusters hsq sd dists st' (i0 : ℤ) false
        (hca ▸ hassign) hrun]
      simp

/-- Witness for `seqclupv_c1_theorem`: with per-cluster results
`[(0, 0, 0), (1, 10, 1)]` (already sorted) the ambiguity set is the
singleton containing cluster 0, so cluster 0 wins by approximation and
the sequence hash "h" is recorded in the clustered-by-approximation
set. -/
theorem seqclupv_c1_witness :
    (SeqClu.ambiguitySet ((0 : ℕ), (0 : ℚ), (0 : ℚ)) [(1, 10, 1)]).length = 1 ∧
    SeqClu.assignToCluster dmC1 hashFnC1 [c1Cluster] (some "h", none)
        [(0, 0, 0), (1, 10, 1)] c1State.clusterAssignment =
      Except.ok ((0 : ℤ), true) ∧
    c1Final.clusteredByApproximation = addSet c1State.clusteredByApproximation "h" := by
  have hA : SeqClu.ambiguitySet ((0 : ℕ), (0 : ℚ), (0 : ℚ)) [(1, 10, 1)] = [0] := by
    norm_num +decide [SeqClu.ambiguitySet, SeqClu.isAmbiguous]
  have hlen : (SeqClu.ambiguitySet ((0 : ℕ), (0 : ℚ), (0 : ℚ)) [(1, 10, 1)]).length = 1 := by
    rw [hA]
    rfl
  have h := seqclupv_c1_theorem dmC1 hashFnC1 c1State [c1Cluster] "h" none
    [(0, 0, 0), (1, 10, 1)] (0, 0, 0) [(1, 10, 1)] c1Final (fun _ => 5)
    (fun _ => c1Cluster) rfl
    (by norm_num +decide [List.insertionSort, List.orderedInsert])
    (by intro x hx
        have hx' : x = c1Cluster := by simpa using hx
        subst hx'
        rfl)
    (by intro i hi
        rw [hA] at hi
        have hi' : i = 0 := by simpa using hi
        subst hi'
        rfl)
    (by intro i hi
        rw [hA] at hi
        have hi' : i = 0 := by simpa using hi
        subst hi'
        rfl)
    (by norm_num +decide [SeqClu.labelSequence, SeqClu.assignToCluster,
          SeqClu.ambiguitySet, SeqClu.isAmbiguous, List.insertionSort,
          List.orderedInsert, pyIndex, pySet, addSet, updateA, eraseA, lookupA,
          memA, isHashInKey, ClusterStore.processSequenceIndefinitely,
          c1State, c1Cluster, c1Final, c1ClusterAfter, dmC1, hashFnC1,
          List.filter, exbind_ok, expure_bind, Except.pure, Except.bind, bind, pure])
  exact ⟨hlen, (h.2.1 hlen).1, (h.2.1 hlen).2⟩

/-- C9 counterexample: in prototype selection the candidate "z" (entry
index 0) and the incumbent "a" tie at prototype value 0.  The code's stable
sort keeps the candidate entry before the incumbent, so the promoted top-2
set is {"a", "b"} and "z" is discarded; under the spec's lexicographic
tie-break on hashes ("a" < "z") the sorted order puts "a" first, so the
selected top-2 would contain the candidate "z" instead of "a" — the
tie-break is list position (candidates before incumbents), not
lexicographic hash order. -/
theorem seqclupv_c9_counterexample :
    SeqClu.prototypeValuesOf dmC9 hashFnC9 c9Cluster [("z", 9)] 1 =
      Except.ok [(Sum.inl 0, 0), (Sum.inr "a", 0), (Sum.inr "b", 1/2)] ∧
    SeqClu.processCandidatesForCluster dmC9 hashFnC9 c9Cluster [("z", 9)] 2 1 1 5 =
      Except.ok (c9After, []) ∧
    keysA c9After.prototypes.prototypes = ["a", "b"] ∧
    (List.insertionSort
        (fun x y => specTieOrder [("z", 9)] x y = true)
        [(Sum.inl 0, 0), (Sum.inr "a", 0), (Sum.inr "b", 1/2)]).drop 1 =
      [(Sum.inl 0, 0), (Sum.inr "b", (1 : ℚ)/2)] := by
  refine ⟨?_, ?_, rfl, ?_⟩
  · norm_num +decide [SeqClu.prototypeValuesOf, ClusterStore.representativenessOfSequenceVal,
      ClusterStore.sumOfDistancesOfVal, ClusterStore.averageSumOfDistancesVal,
      PrototypeFrequencyStore.getWeight, prototypeValueEvaluate, lookupA,
      c9Cluster, dmC9, hashFnC9, exbind_ok, expure_bind, Except.pure, Except.bind,
      bind, pure, List.enum]
  · norm_num +decide [SeqClu.processCandidatesForCluster, SeqClu.prototypeValuesOf,
      ClusterStore.representativenessOfSequenceVal, ClusterStore.sumOfDistancesOfVal,
      ClusterStore.averageSumOfDistancesVal, PrototypeFrequencyStore.getWeight,
      prototypeValueEvaluate, lookupA, updateA, keysA, memA,
      ClusterStore.updatePrototypes, ClusterStore.computeRequiredDistances,
      PrototypeFrequencyStore.updatePrototypes,
      PrototypeFrequencyStore.insertUninitialised,
      PrototypeFrequencyStore.distributeVotes,
      PrototypeFrequencyStore.computeSumOfDistances,
      PrototypeFrequencyStore.lookupPairDist, PrototypeFrequencyStore.distributeOne,
      PrototypeStore.updatePrototypes,
      PrototypeStore.removePrototypeHalf, PrototypeStore.sameElems,
      PrototypeStore.numOtherPrototypes, List.insertionSort, List.orderedInsert,
      c9Cluster, c9After, dmC9, hashFnC9, exbind_ok, expure_bind, Except.pure,
      Except.bind, bind, pure, List.enum, List.filter, List.mapM, List.mapM.loop,
      List.foldlM, List.foldl, List.drop, List.take]
  · norm_num +decide [List.insertionSort, List.orderedInsert, specTieOrder,
      specEntryHash]

/-- C9 amended: tie-breaking is by stable order, not by the spec's rules.
With approximation disabled, cluster assignment returns the head of the
stable ascending sort of the per-cluster distances: it attains the minimum
distance and, when the input triples carry strictly increasing cluster
identifiers (as built by `computeDistanceToClusters`), every other cluster
with the same distance has a larger identifier — so this half of the claim
holds.  In prototype selection, any two equal-valued entries of the
combined candidate/incumbent list keep their relative list order in the
sorted list (candidates in enumeration order before incumbents in
insertion order); their order is NOT decided by their hashes. -/
theorem seqclupv_c9_amended (dm : Data → Data → ℚ) (hashFn : Data → Hash)
    (c : ClusterStore) (candidates : List (Hash × Data)) (ratio : ℚ)
    (clusters : List ClusterStore) (s : SeqRef)
    (dists : List (ℕ × ℚ × ℚ)) (best : ℕ × ℚ × ℚ) (rest : List (ℕ × ℚ × ℚ))
    (pv : List ((ℕ ⊕ Hash) × ℚ)) (x y : (ℕ ⊕ Hash) × ℚ)
    (hsorted : List.insertionSort (fun a b => a.2.1 ≤ b.2.1) dists = best :: rest)
    (hids : dists.Pairwise (fun a b => a.1 < b.1))
    (hpv : SeqClu.prototypeValuesOf dm hashFn c candidates ratio = Except.ok pv)
    (hxy : List.Sublist [x, y] pv) (hvxy : x.2 = y.2) :
    SeqClu.assignToCluster dm hashFn clusters s dists false =
      Except.ok ((best.1 : ℤ), false) ∧
    (∀ e ∈ dists, best.2.1 ≤ e.2.1) ∧
    (∀ e ∈ dists, e.2.1 = best.2.1 → best.1 ≤ e.1) ∧
    List.Sublist [x, y] (List.insertionSort (fun a b => a.2 ≤ b.2) pv) := by
  haveI : IsTotal (ℕ × ℚ × ℚ) (fun a b => a.2.1 ≤ b.2.1) :=
    ⟨fun a b => le_total a.2.1 b.2.1⟩
  haveI : IsTrans (ℕ × ℚ × ℚ) (fun a b => a.2.1 ≤ b.2.1) :=
    ⟨fun a b c h1 h2 => le_trans h1 h2⟩
  have hperm : List.Perm (List.insertionSort (fun a b => a.2.1 ≤ b.2.1) dists) dists :=
    List.perm_insertionSort _ dists
  have hsort : List.Sorted (fun a b => a.2.1 ≤ b.2.1)
      (List.insertionSort (fun a b => a.2.1 ≤ b.2.1) dists) :=
    List.sorted_insertionSort _ dists
  rw [hsorted] at hsort
  refine ⟨?_, ?_, ?_, ?_⟩
  · simp only [SeqClu.assignToCluster, hsorted]
    simp
  · intro e he
    have hes : e ∈ best :: rest := by
      rw [← hsorted]
      exact hperm.mem_iff.mpr he
    rcases List.mem_cons.mp hes with hbe | her
    · rw [hbe]
    · exact List.rel_of_sorted_cons hsort e her
  · intro e he heq
    by_contra hnle
    have hlt : e.1 < best.1 := lt_of_not_le hnle
    have hnd : dists.Nodup :=
      hids.imp (fun hab heq2 => absurd (heq2 ▸ hab) (lt_irrefl _))
    have hsornd : (best :: rest).Nodup := by
      have h2 := hperm.nodup_iff.mpr hnd
      rwa [hsorted] at h2
    have hbnr : best ∉ rest := (List.nodup_cons.mp hsornd).1
    have hbmem : best ∈ dists := by
      refine hperm.mem_iff.mp ?_
      rw [hsorted]
      exact List.mem_cons_self best rest
    have hsub : List.Sublist [e, best] dists :=
      pair_sublist_of_pairwise (fun a b => a.1 < b.1)
        (fun a b h1 h2 => absurd h2 (not_lt.mpr (le_of_lt h1)))
        dists hids e he best hbmem hlt
    have hsub2 : List.Sublist [e, best] (best :: rest) := by
      rw [← hsorted]
      exact List.pair_sublist_insertionSort (le_of_eq heq) hsub
    cases hsub2 with
    | cons _ h => exact hbnr (List.Sublist.subset h (by simp))
    | cons₂ _ h => exact hbnr (List.singleton_sublist.mp h)
  · exact List.pair_sublist_insertionSort (le_of_eq hvxy) hxy

/-- Witness for `seqclupv_c9_amended`: two clusters at equal distance 1
(identifiers 0 and 1): the stable sort keeps cluster 0 first, assignment
with approximation disabled picks cluster 0, and every equal-distance
cluster has a larger identifier; and the two tied prototype-value entries
of the C9 cluster (candidate "z" first, incumbent "a" second) keep that
order in the sorted list. -/
theorem seqclupv_c9_witness :
    SeqClu.assignToCluster dmC9 hashFnC9 [] (none, none) [(0, 1, 0), (1, 1, 0)] false =
      Except.ok ((0 : ℤ), false) ∧
    (∀ e ∈ [((0 : ℕ), (1 : ℚ), (0 : ℚ)), (1, 1, 0)], e.2.1 = 1 → (0 : ℕ) ≤ e.1) ∧
    List.Sublist [((Sum.inl 0 : ℕ ⊕ Hash), (0 : ℚ)), (Sum.inr "a", 0)]
      (List.insertionSort (fun a b => a.2 ≤ b.2)
        [((Sum.inl 0 : ℕ ⊕ Hash), (0 : ℚ)), (Sum.inr "a", 0), (Sum.inr "b", 1/2)]) := by
  have h := seqclupv_c9_amended dmC9 hashFnC9 c9Cluster [("z", 9)] 1 [] (none, none)
    [(0, 1, 0), (1, 1, 0)] (0, 1, 0) [(1, 1, 0)]
    [(Sum.inl 0, 0), (Sum.inr "a", 0), (Sum.inr "b", 1/2)]
    (Sum.inl 0, 0) (Sum.inr "a", 0)
    (by norm_num +decide [List.insertionSort, List.orderedInsert])
    (by norm_num)
    (by norm_num +decide [SeqClu.prototypeValuesOf,
      ClusterStore.representativenessOfSequenceVal, ClusterStore.sumOfDistancesOfVal,
      ClusterStore.averageSumOfDistancesVal, PrototypeFrequencyStore.getWeight,
      prototypeValueEvaluate, lookupA, c9Cluster, dmC9, hashFnC9, exbind_ok,
      expure_bind, Except.pure, Except.bind, bind, pure, List.enum])
    (List.Sublist.cons₂ _ (List.Sublist.cons₂ _ (List.nil_sublist _)))
    rfl
  exact ⟨h.1, fun e he hq => h.2.2.1 e he hq, h.2.2.2⟩

/-- C8 counterexample: labelling stores `classes[assignedCluster]`, not the
cluster id.  In the concrete run the sequence "h" is assigned to cluster 0
of a 1-cluster state whose class list is `[7]`: the labels map stores 7
(so does the finalLabels view for the promoted prototype "p"), and 7 is
not a cluster id in [0, 1). -/
theorem seqclupv_c8_counterexample :
    SeqClu.assignToCluster dmC1 hashFnC1 [c1Cluster] (some "h", none)
        [(0, 0, 0), (1, 10, 1)] c1State.clusterAssignment =
      Except.ok ((0 : ℤ), true) ∧
    SeqClu.labelSequence dmC1 hashFnC1 c1State [c1Cluster] (some "h", none)
        [(0, 0, 0), (1, 10, 1)] = Except.ok c1Final ∧
    c1Final.labels = [("h", 7)] ∧
    SeqClu.finalLabels c1Final = Except.ok [("h", 7), ("p", 7)] ∧
    c1State.numClusters = 1 ∧ ¬ ((7 : ℤ) < 1) := by
  refine ⟨?_, ?_, rfl, ?_, rfl, by norm_num⟩
  · norm_num +decide [SeqClu.assignToCluster, SeqClu.ambiguitySet, SeqClu.isAmbiguous,
      List.insertionSort, List.orderedInsert, c1State, exbind_ok, expure_bind,
      Except.pure, Except.bind, bind, pure]
  · norm_num +decide [SeqClu.labelSequence, SeqClu.assignToCluster,
      SeqClu.ambiguitySet, SeqClu.isAmbiguous, List.insertionSort,
      List.orderedInsert, pyIndex, pySet, addSet, updateA, eraseA, lookupA,
      memA, isHashInKey, ClusterStore.processSequenceIndefinitely,
      c1State, c1Cluster, c1Final, c1ClusterAfter, dmC1, hashFnC1,
      List.filter, exbind_ok, expure_bind, Except.pure, Except.bind, bind, pure]
  · norm_num +decide [SeqClu.finalLabels, List.foldlM, keysA, updateA, lookupA,
      c1Final, c1ClusterAfter, c1Cluster, c1State, List.map, exbind_ok,
      expure_bind, Except.pure, Except.bind, bind, pure]

/-- C8 amended: on every successful labelling of a sequence with hash
`hsq`, the labels map of the resulting state is the old map updated at
`hsq` with `classes[assignedCluster]` — the class code of the assigned
cluster, which is a cluster id only when `classes` is the identity; and
every entry of a successful `finalLabels` view is either an entry of the
state's labels map or the class code `classes[cluster.identifier]` of one
of the clusters (the promoted-prototype overrides). -/
theorem seqclupv_c8_amended (dm : Data → Data → ℚ) (hashFn : Data → Hash)
    (st : SeqCluState) (clusters : List ClusterStore) (hsq : Hash) (sd : Option Data)
    (dists : List (ℕ × ℚ × ℚ)) (st' : SeqCluState) (w : ℤ) (byApprox : Bool)
    (hassign : SeqClu.assignToCluster dm hashFn clusters (some hsq, sd) dists
      st.clusterAssignment = Except.ok (w, byApprox))
    (hrun : SeqClu.labelSequence dm hashFn st clusters (some hsq, sd) dists =
      Except.ok st') :
    (∃ cls, pyIndex st.classes w = some cls ∧
      st'.labels = updateA st.labels hsq cls) ∧
    (∀ L hk v, SeqClu.finalLabels st' = Except.ok L → lookupA L hk = some v →
      lookupA st'.labels hk = some v ∨
      ∃ cl ∈ st'.clusters, st'.classes.get? cl.identifier = some v) := by
  constructor
  · unfold SeqClu.labelSequence at hrun
    rw [hassign] at hrun
    cases byApprox with
    | true =>
      simp only [exbind_ok, expure_bind, if_true] at hrun
      cases hcls : pyIndex st.classes w with
      | none =>
        rw [hcls] at hrun
        simp only [exbind_error] at hrun
        exact Except.noConfusion hrun
      | some cls =>
        rw [hcls] at hrun
        simp only [exbind_ok, expure_bind] at hrun
        cases hcl : pyIndex st.clusters w with
        | none =>
          rw [hcl] at hrun
          simp only [exbind_error] at hrun
          exact Except.noConfusion hrun
        | some cl =>
          rw [hcl] at hrun
          simp only [exbind_ok, expure_bind] at hrun
          cases hpsi : ClusterStore.processSequenceIndefinitely cl hsq with
          | error e =>
            rw [hpsi] at hrun
            simp only [exbind_error] at hrun
            exact Except.noConfusion hrun
          | ok cl2 =>
            rw [hpsi] at hrun
            simp only [exbind_ok, expure_bind] at hrun
            refine ⟨cls, rfl, ?_⟩
            rw [← Except.ok.inj hrun]
    | false =>
      simp only [exbind_ok, expure_bind, Bool.false_eq_true, if_false] at hrun
      cases hcls : pyIndex st.classes w with
      | none =>
        rw [hcls] at hrun
        simp only [exbind_error] at hrun
        exact Except.noConfusion hrun
      | some cls =>
        rw [hcls] at hrun
        simp only [exbind_ok, expure_bind] at hrun
        cases hcl : pyIndex st.clusters w with
        | none =>
          rw [hcl] at hrun
          simp only [exbind_error] at hrun
          exact Except.noConfusion hrun
        | some cl =>
          rw [hcl] at hrun
          simp only [exbind_ok, expure_bind] at hrun
          cases hpsi : ClusterStore.processSequenceIndefinitely cl hsq with
          | error e =>
            rw [hpsi] at hrun
            simp only [exbind_error] at hrun
            exact Except.noConfusion hrun
          | ok cl2 =>
            rw [hpsi] at hrun
            simp only [exbind_ok, expure_bind] at hrun
            refine ⟨cls, rfl, ?_⟩
            rw [← Except.ok.inj hrun]
  · intro L hk v hfin hv
    unfold SeqClu.finalLabels at hfin
    exact labels_fold_outer st'.classes st'.clusters st'.labels L hfin hk v hv

/-- Witness for `seqclupv_c8_amended` at the concrete C8/C1 run: the
labels map after labelling "h" is the old map updated at "h" with
`classes[0] = 7`, and every finalLabels entry is an original label or a
class code of one of the clusters. -/
theorem seqclupv_c8_witness :
    (∃ cls, pyIndex c1State.classes 0 = some cls ∧
      c1Final.labels = updateA c1State.labels "h" cls) ∧
    (∀ L hk v, SeqClu.finalLabels c1Final = Except.ok L → lookupA L hk = some v →
      lookupA c1Final.labels hk = some v ∨
      ∃ cl ∈ c1Final.clusters, c1Final.classes.get? cl.identifier = some v) :=
  seqclupv_c8_amended dmC1 hashFnC1 c1State [c1Cluster] "h" none
    [(0, 0, 0), (1, 10, 1)] c1Final 0 true
    (by norm_num +decide [SeqClu.assignToCluster, SeqClu.ambiguitySet,
      SeqClu.isAmbiguous, List.insertionSort, List.orderedInsert, c1State,
      exbind_ok, expure_bind, Except.pure, Except.bind, bind, pure])
    (by norm_num +decide [SeqClu.labelSequence, SeqClu.assignToCluster,
      SeqClu.ambiguitySet, SeqClu.isAmbiguous, List.insertionSort,
      List.orderedInsert, pyIndex, pySet, addSet, updateA, eraseA, lookupA,
      memA, isHashInKey, ClusterStore.processSequenceIndefinitely,
      c1State, c1Cluster, c1Final, c1ClusterAfter, dmC1, hashFnC1,
      List.filter, exbind_ok, expure_bind, Except.pure, Except.bind, bind, pure])

/-- C3: `forceProcessBuffer(persist=False, ...)` is NOT state-preserving.
On the concrete reachable state `c3State` (one cluster, one buffered
candidate "c" that loses the prototype selection), the `persist = false`
call returns the processed deep copies but also mutates the clusterer's
own state through `self._labelSequence`: the labels map gains
`("c", classes[0]) = ("c", 7)`, the fully-processed counter increments,
and the LIVE cluster receives the vote and the cache purge of
`processSequenceIndefinitely("c")` (frequencies `p ↦ 1`,
totalObservations 1, all "c" cache entries gone). -/
theorem seqclupv_c3_theorem :
    SeqClu.forceProcessBuffer dmC3 hashFnC3 c3State false 5 =
      Except.ok (c3Final, [c3CopyCluster]) ∧
    c3State.labels = [] ∧ c3Final.labels = [("c", 7)] ∧
    c3State.numFullyProcessed = 0 ∧ c3Final.numFullyProcessed = 1 ∧
    c3State.clusters.map (fun cl => cl.prototypeFrequencies) =
      [⟨[("p", none), ("q", none)], 2, 0⟩] ∧
    c3Final.clusters.map (fun cl => cl.prototypeFrequencies) =
      [⟨[("p", some 1), ("q", none)], 2, 1⟩] ∧
    c3Final.clusters ≠ c3State.clusters := by
  refine ⟨?_, rfl, rfl, rfl, rfl, rfl, rfl, ?_⟩
  · norm_num +decide [SeqClu.forceProcessBuffer, SeqClu.processCandidatesCopy,
      SeqClu.processCandidatesForCluster, SeqClu.prototypeValuesOf,
      SeqClu.computeDistanceToClusters, SeqClu.labelSequence,
      SeqClu.assignToCluster, SeqClu.ambiguitySet, SeqClu.isAmbiguous,
      ClusterStore.representativenessOfSequenceVal, ClusterStore.sumOfDistancesOfVal,
      ClusterStore.averageSumOfDistancesVal, ClusterStore.computeAverageDistanceVal,
      ClusterStore.processSequenceIndefinitely, ClusterStore.updatePrototypes,
      ClusterStore.computeRequiredDistances, PrototypeFrequencyStore.getWeight,
      PrototypeFrequencyStore.updatePrototypes,
      PrototypeFrequencyStore.insertUninitialised,
      PrototypeFrequencyStore.distributeVotes,
      PrototypeFrequencyStore.computeSumOfDistances,
      PrototypeFrequencyStore.lookupPairDist, PrototypeFrequencyStore.distributeOne,
      PrototypeFrequencyStore.closestPrototypeObserved,
      PrototypeStore.updatePrototypes, PrototypeStore.removePrototypeHalf,
      PrototypeStore.sameElems, PrototypeStore.numOtherPrototypes,
      CandidateStore.removeFromCandidates, prototypeValueEvaluate,
      List.insertionSort, List.orderedInsert, lookupA, updateA, eraseA, keysA,
      memA, isHashInKey, pyIndex, pySet, addSet, c3State, c3Cluster, c3Final,
      c3FinalCluster, c3CopyCluster, dmC3, hashFnC3, exbind_ok, expure_bind,
      Except.pure, Except.bind, bind, pure, List.enum, List.filter, List.filterMap,
      List.find?, List.range, List.mapM, List.mapM.loop, List.foldlM, List.foldl,
      List.drop, List.take, List.set, List.map]
  · intro h
    have h2 := congrArg (List.map (fun cl => cl.prototypeFrequencies)) h
    simp only [c3Final, c3FinalCluster, c3State, c3Cluster, List.map] at h2
    exact absurd h2 (by decide)

/-- C5: `processSequence` is idempotent.  On every successful call
`processSequence((hash, data), considerCandidacy = true)` the resulting
state either equals the input state or records the hash (as a prototype,
as a buffered candidate, or in the labels map), so an immediately repeated
call hits the `alreadyProcessed` guard (or repeats a stateless run) and
returns the same state unchanged. -/
theorem seqclupv_c5_theorem (dm : Data → Data → ℚ) (hashFn : Data → Hash)
    (st : SeqCluState) (sequenceHash : Hash) (sequenceData : Data) (st₁ : SeqCluState)
    (hrun : SeqClu.processSequence dm hashFn st sequenceHash sequenceData true =
      Except.ok st₁) :
    SeqClu.processSequence dm hashFn st₁ sequenceHash sequenceData true =
      Except.ok st₁ := by
  have hrun0 := hrun
  have hMain : st₁ = st ∨ SeqClu.alreadyProcessed st₁ sequenceHash = true := by
    unfold SeqClu.processSequence at hrun
    cases halr : SeqClu.alreadyProcessed st sequenceHash with
    | true =>
      rw [halr, if_pos rfl] at hrun
      exact Or.inl (Except.ok.inj hrun).symm
    | false =>
      rw [halr, if_neg (by simp)] at hrun
      cases hfi : SeqClu.fullyInitialized st with
      | false =>
        rw [hfi, if_pos (by simp)] at hrun
        cases hfind : st.clusters.enum.find?
            (fun ic => ¬ ic.2.prototypes.fullyInitialized) with
        | none =>
          rw [hfind] at hrun
          exact Or.inl (Except.ok.inj hrun).symm
        | some p =>
          obtain ⟨i, cluster⟩ := p
          rw [hfind] at hrun
          replace hrun : (do
              let ps ← cluster.prototypes.addPrototype sequenceHash sequenceData
                (¬ cluster.prototypes.representativePrototypesInitialized) st.tick none
              let fs ← cluster.prototypeFrequencies.initializePrototype sequenceHash
              pure { st with clusters := st.clusters.set i { cluster with prototypes := ps, prototypeFrequencies := fs } }) =
              Except.ok st₁ := hrun
          obtain ⟨ps, haddp, hrun2⟩ := exbind_ok_exists _ _ _ hrun
          obtain ⟨fs, hinit, hrun3⟩ := exbind_ok_exists _ _ _ hrun2
          have hst1 : st₁ = { st with clusters := st.clusters.set i { cluster with prototypes := ps, prototypeFrequencies := fs } } :=
            (Except.ok.inj hrun3).symm
          have hget : st.clusters.get? i = some cluster :=
            List.mk_mem_enum_iff_get?.mp (List.mem_of_find?_eq_some hfind)
          have hilen : i < st.clusters.length := (List.get?_eq_some.mp hget).1
          have hmem2 : ({ cluster with prototypes := ps, prototypeFrequencies := fs } : ClusterStore) ∈ st.clusters.set i { cluster with prototypes := ps, prototypeFrequencies := fs } :=
            List.get?_mem (List.get?_set_eq_of_lt _ hilen)
          have hmemP := addPrototype_mem cluster.prototypes sequenceHash sequenceData
            _ st.tick ps haddp
          refine Or.inr ?_
          rw [hst1]
          simp only [SeqClu.alreadyProcessed, Bool.or_eq_true, List.any_eq_true]
          exact Or.inl (Or.inl ⟨_, hmem2, hmemP⟩)
      | true =>
        rw [hfi, if_neg (by simp), if_pos rfl] at hrun
        obtain ⟨p, hdc, hrun2⟩ := exbind_ok_exists _ _ _ hrun
        obtain ⟨avgd, cf⟩ := p
        replace hrun2 : (if cf.length > 0 then do
            let st1 :=
              if st.buffering then
                { st with bufferedSequences := addSet st.bufferedSequences sequenceHash }
              else st
            let cs ← st1.candidateStore.addToCandidates sequenceHash sequenceData
              cf st1.tick
            let st2 := { st1 with candidateStore := cs }
            if SeqClu.bufferFull st2 || !st2.buffering then do
              let (st3, _) ← SeqClu.forceProcessBuffer dm hashFn st2 true st2.tick
              pure st3
            else pure st2
          else
            SeqClu.labelSequence dm hashFn st st.clusters
              (some sequenceHash, some sequenceData) avgd) = Except.ok st₁ := hrun2
        by_cases hcf : cf.length > 0
        · rw [if_pos hcf] at hrun2
          generalize hB : (if st.buffering then
              { st with bufferedSequences := addSet st.bufferedSequences sequenceHash }
            else st) = stB at hrun2
          obtain ⟨cs, haddc, hrun3⟩ := exbind_ok_exists _ _ _ hrun2
          have hcsmem : memA cs.candidates sequenceHash = true :=
            addToCandidates_mem _ sequenceHash sequenceData cf _ cs haddc
          replace hrun3 : (if SeqClu.bufferFull { stB with candidateStore := cs } ||
                !({ stB with candidateStore := cs } : SeqCluState).buffering then do
              let (st3, _) ← SeqClu.forceProcessBuffer dm hashFn
                { stB with candidateStore := cs } true
                ({ stB with candidateStore := cs } : SeqCluState).tick
              pure st3
            else pure ({ stB with candidateStore := cs } : SeqCluState)) =
              Except.ok st₁ := hrun3
          split at hrun3
          · obtain ⟨q, hfp, hq⟩ := exbind_ok_exists _ _ _ hrun3
            obtain ⟨st3, cls'⟩ := q
            have hst1 : st₁ = st3 := (Except.ok.inj hq).symm
            unfold SeqClu.forceProcessBuffer at hfp
            rw [if_pos rfl] at hfp
            obtain ⟨stP, hpc, hpure2⟩ := exbind_ok_exists _ _ _ hfp
            have hst3 : st3 = stP :=
              (congrArg Prod.fst (Except.ok.inj hpure2)).symm
            unfold SeqClu.processCandidatesPersist at hpc
            obtain ⟨stM, hp1, hp2⟩ := exbind_ok_exists _ _ _ hpc
            have hM := persist_phase1_cands dm hashFn _ _ _ _ _ _ hp1
            have hin : sequenceHash ∈ keysA stM.candidateStore.candidates := by
              refine mem_keysA_of_memA _ _ ?_
              rw [hM]
              exact hcsmem
            have hlab := persist_phase2_labels dm hashFn
              (keysA stM.candidateStore.candidates) stM stP hp2
              sequenceHash (Or.inl hin)
            refine Or.inr ?_
            rw [hst1, hst3]
            simp only [SeqClu.alreadyProcessed, Bool.or_eq_true]
            exact Or.inr hlab
          · have hst1 : st₁ = { stB with candidateStore := cs } :=
              (Except.ok.inj hrun3).symm
            refine Or.inr ?_
            rw [hst1]
            simp only [SeqClu.alreadyProcessed, Bool.or_eq_true]
            exact Or.inl (Or.inr hcsmem)
        · rw [if_neg hcf] at hrun2
          obtain ⟨cls, hlab⟩ := labelSequence_labels dm hashFn st st.clusters
            sequenceHash (some sequenceData) avgd st₁ hrun2
          refine Or.inr ?_
          simp only [SeqClu.alreadyProcessed, Bool.or_eq_true]
          refine Or.inr ?_
          rw [hlab]
          exact memA_updateA_self st.labels sequenceHash cls
  rcases hMain with heq | halr
  · rw [heq] at hrun0 ⊢
    exact hrun0
  · unfold SeqClu.processSequence
    rw [halr, if_pos rfl]
    rfl

/-- Witness for `seqclupv_c5_theorem`: ingesting "h" into a clusterer with
one uninitialised cluster makes "h" a prototype; the repeated call hits
the `alreadyProcessed` guard and returns the same state. -/
theorem seqclupv_c5_witness :
    SeqClu.processSequence dmC5 hashFnC5 c5State "h" 5 true = Except.ok c5After ∧
    SeqClu.processSequence dmC5 hashFnC5 c5After "h" 5 true = Except.ok c5After := by
  have h1 : SeqClu.processSequence dmC5 hashFnC5 c5State "h" 5 true =
      Except.ok c5After := by
    norm_num +decide [SeqClu.processSequence, SeqClu.alreadyProcessed,
      SeqClu.fullyInitialized, PrototypeStore.addPrototype,
      PrototypeStore.addPrototypeHalf, PrototypeStore.removePrototypeHalf,
      PrototypeStore.numOtherPrototypes, PrototypeFrequencyStore.initializePrototype,
      memA, lookupA, updateA, c5State, c5Cluster, c5After, c5ClusterAfter,
      dmC5, hashFnC5, exbind_ok, expure_bind, Except.pure, Except.bind, bind, pure,
      List.enum, List.enumFrom, List.find?, List.set, List.any, List.all]
  exact ⟨h1, seqclupv_c5_theorem dmC5 hashFnC5 c5State "h" 5 c5After h1⟩

/-- Witness for `seqclupv_c2_theorem` at the concrete cluster `c2Cluster`,
the sequence `("s", 3)`, `minRep = 0` and approximation enabled. -/
theorem seqclupv_c2_witness :
    ∃ ar ub ad : ℚ,
      ClusterStore.averageRepresentativenessVal dmC2 hashFnC6 c2Cluster = Except.ok ar ∧
      ClusterStore.upperBoundVal dmC2 hashFnC6 c2Cluster = Except.ok ub ∧
      ClusterStore.averageDistanceVal dmC2 hashFnC6 c2Cluster = Except.ok ad ∧
      ClusterStore.isCandidate dmC2 hashFnC6 c2Cluster (some "s", some 3) 0 true =
        Except.ok
          (if true ∧ (0 : ℚ) ≤ ar then
            ((c2Cluster.prototypes.representativePrototypeHashes.map fsC2).sum /
                (c2Cluster.prototypes.numRepresentativePrototypes : ℚ),
              decide ((c2Cluster.prototypes.representativePrototypeHashes.map fsC2).sum /
                (c2Cluster.prototypes.numRepresentativePrototypes : ℚ) < ub), true)
          else
            (((keysA c2Cluster.prototypes.prototypes).map fsC2).sum /
                (c2Cluster.prototypes.numPrototypes : ℚ),
              decide (((keysA c2Cluster.prototypes.prototypes).map fsC2).sum /
                (c2Cluster.prototypes.numPrototypes : ℚ) < ad), false)) :=
  seqclupv_c2_theorem dmC2 hashFnC6 c2Cluster "s" (some 3) 0 true fsC2 gC2
    rfl rfl rfl rfl rfl rfl rfl rfl
    (by intro ph hph; fin_cases hph <;> rfl)
    (by intro p1 hp1 p2 hp2; fin_cases hp1 <;> fin_cases hp2 <;> rfl)
    (by decide)
    (by decide)

end SeqCluPV
